import Mathlib

/-!
# LLM-debate-battle: the debate service over an explicit store

A shallow embedding of `backend/internal/models`, `backend/internal/db`,
`backend/internal/openai` and `backend/internal/debatesvc`.

* The SQLite database is a record of three tables (lists of rows, kept in
  insertion order) plus the two AUTOINCREMENT sequences the service uses.
  Every message row carries the clock reading of its insertion, and the
  transcript query sorts the rows of a session by that stamp.
* Every store method and every provider call is recorded in `World.calls`,
  so that "this operation was never attempted" is a statement about a value.
* Everything the code cannot decide by itself is read from `Env`: whether a
  store statement returns an error, what the remote completion request
  returns, the clock, the random source and the `encoding/json` codec.
* Go errors are modelled by the text of the `fmt.Errorf` format string in
  front of the wrapped cause.
* Go `int`/`int64` values are modelled by `Int`. The counters of the
  statistics are incremented with wrap-around at 2^63 (`incr`). The two
  message counts of a step are counts over a list in memory and are `Nat`.
-/

namespace DebateBattle

/-! ## models -/

/-- The struct `models.DebateSession`; `nil` pointers are `none`. -/
structure DebateSession where
  ID : Int
  UserID : Option Int
  Topic : String
  UserPosition : String
  LLMPosition : String
  LLM1Position : String
  LLM2Position : String
  Mode : String
  Status : String
  Winner : Option String
  JudgeComment : Option String
  CreatedAt : Nat
  FinishedAt : Option Nat
  deriving DecidableEq, Repr

/-- The struct `models.DebateMessage`; it is also the row type of the table
`debate_messages`. -/
structure DebateMessage where
  ID : Int
  SessionID : Int
  Role : String
  Content : String
  CreatedAt : Nat
  deriving DecidableEq, Repr

/-- The struct `models.UserStats` as the store fills it (the `WinRate` float
is never read or written by the store or the service and is left out). -/
structure UserStats where
  UserID : Int
  TotalDebates : Int
  Wins : Int
  Losses : Int
  Draws : Int
  deriving DecidableEq, Repr

/-- The struct `models.DebateTopicResponse`. -/
structure DebateTopicResponse where
  Topic : String
  ProPosition : String
  ConPosition : String
  Background : String
  deriving DecidableEq, Repr

/-- The struct `models.Score`. -/
structure Score where
  Pro : Int
  Con : Int
  deriving DecidableEq, Repr

/-- The struct `models.JudgeResponse`. -/
structure JudgeResponse where
  Winner : String
  Score : Score
  Reasoning : String
  ProStrengths : List String
  ProWeaknesses : List String
  ConStrengths : List String
  ConWeaknesses : List String
  FinalComment : String
  deriving DecidableEq, Repr

/-- The struct `models.CreateDebateRequest`. -/
structure CreateDebateRequest where
  Mode : String
  Topic : String
  UserPosition : String
  RandomizeTopic : Bool
  RandomizePosition : Bool
  deriving DecidableEq, Repr

/-- The struct `openai.Message`. -/
structure Message where
  Role : String
  Content : String
  deriving DecidableEq, Repr

/-! ## db: tables -/

/-- A row of the table `debate_sessions`. -/
structure SessionRow where
  id : Int
  user_id : Option Int
  mode : String
  topic : String
  user_position : Option String
  status : String
  winner : Option String
  judge_comment : Option String
  created_at : Nat
  ended_at : Option Nat
  deriving DecidableEq, Repr

/-- A row of the table `user_stats`. -/
structure StatsRow where
  id : Int
  user_id : Int
  total_debates : Int
  wins : Int
  losses : Int
  draws : Int
  deriving DecidableEq, Repr

/-- The database as the debate service sees it: three tables in insertion
order and the AUTOINCREMENT sequences of the two tables it inserts into. -/
structure DB where
  debate_sessions : List SessionRow
  debate_messages : List DebateMessage
  user_stats : List StatsRow
  seq_sessions : Int
  seq_messages : Int
  deriving DecidableEq, Repr

/-- One attempted call on the store or on the completion provider. -/
inductive Call where
  | CreateDebateSession (userID : Option Int) (mode topic userPosition : String)
  | GetDebateSession (id : Int)
  | UpdateDebateSession (id : Int)
  | CreateMessage (sessionID : Int) (role content : String)
  | GetSessionMessages (sessionID : Int)
  | GetUserStats (userID : Int)
  | UpdateUserStats (userID : Int)
  | ChatCompletion (messages : List Message)
  | ChatCompletionWithSchema (messages : List Message) (schemaName : String)
  deriving DecidableEq, Repr

/-- What the code reads from outside during one service call. -/
structure Env where
  /-- The store statement behind this call returns an error. -/
  fails : Call → Bool
  /-- The remote chat-completion request: `none` when the request fails,
  otherwise the contents of the returned choices. The second argument is the
  schema name of a structured request. -/
  request : List Message → Option String → Option (List String)
  /-- The clock (`time.Now()` and the database's `CURRENT_TIMESTAMP`). -/
  now : Nat
  /-- The random source, `rand.Intn`. -/
  Intn : Nat → Nat
  /-- Decoding with `json.Unmarshal` into a `models.DebateTopicResponse`. -/
  UnmarshalTopic : String → Option DebateTopicResponse
  /-- Decoding with `json.Unmarshal` into a `models.JudgeResponse`. -/
  UnmarshalJudge : String → Option JudgeResponse
  /-- Encoding of a `models.JudgeResponse` with `json.Marshal`. -/
  MarshalJudge : JudgeResponse → String

/-- The store together with the record of the calls made so far. -/
structure World where
  db : DB
  calls : List Call
  deriving DecidableEq, Repr

/-- Record one attempted call. -/
def World.log (w : World) (c : Call) : World :=
  { w with calls := w.calls ++ [c] }

/-! ## db: queries and statements -/

/-- The scan of `GetDebateSession`: the nullable columns become zero values
or `nil`, the position fields that are not columns stay empty. -/
def SessionRow.scan (r : SessionRow) : DebateSession :=
  { ID := r.id
    UserID := r.user_id
    Topic := r.topic
    UserPosition := r.user_position.getD ""
    LLMPosition := ""
    LLM1Position := ""
    LLM2Position := ""
    Mode := r.mode
    Status := r.status
    Winner := r.winner
    JudgeComment := r.judge_comment
    CreatedAt := r.created_at
    FinishedAt := r.ended_at }

/-- The query `SELECT ... FROM debate_sessions WHERE id = ?` (first row). -/
def DB.selectSession (d : DB) (id : Int) : Option DebateSession :=
  (d.debate_sessions.find? (fun r => decide (r.id = id))).map SessionRow.scan

/-- The order of `ORDER BY created_at ASC` on message rows. -/
def DebateMessage.createdBefore (a b : DebateMessage) : Prop :=
  a.CreatedAt ≤ b.CreatedAt

instance : DecidableRel DebateMessage.createdBefore :=
  fun a b => Nat.decLe a.CreatedAt b.CreatedAt

/-- The query `SELECT ... FROM debate_messages WHERE session_id = ? ORDER BY
created_at ASC`: the rows of the session, sorted by their stamp; rows with the
same stamp stay in the order of the table scan, which is insertion order. -/
def DB.selectMessages (d : DB) (sessionID : Int) : List DebateMessage :=
  (d.debate_messages.filter (fun m => decide (m.SessionID = sessionID))).insertionSort
    DebateMessage.createdBefore

/-- The query `SELECT ... FROM user_stats WHERE user_id = ?` (first row). -/
def DB.selectStats (d : DB) (userID : Int) : Option UserStats :=
  (d.user_stats.find? (fun r => decide (r.user_id = userID))).map
    (fun r => { UserID := r.user_id, TotalDebates := r.total_debates, Wins := r.wins,
                Losses := r.losses, Draws := r.draws })

/-- The statement `INSERT INTO debate_messages (session_id, role, content)`;
returns the new row. -/
def DB.insertMessage (d : DB) (now : Nat) (sessionID : Int) (role content : String) :
    DebateMessage × DB :=
  let msg : DebateMessage :=
    { ID := d.seq_messages + 1, SessionID := sessionID, Role := role, Content := content,
      CreatedAt := now }
  (msg, { d with debate_messages := d.debate_messages ++ [msg], seq_messages := d.seq_messages + 1 })

/-- The statement `INSERT INTO debate_sessions (user_id, mode, topic,
user_position)`: status defaults to `active`, the other columns to NULL. -/
def DB.insertSession (d : DB) (now : Nat) (userID : Option Int) (mode topic userPosition : String) :
    Int × DB :=
  let row : SessionRow :=
    { id := d.seq_sessions + 1, user_id := userID, mode := mode, topic := topic,
      user_position := some userPosition, status := "active", winner := none,
      judge_comment := none, created_at := now, ended_at := none }
  (row.id, { d with debate_sessions := d.debate_sessions ++ [row], seq_sessions := d.seq_sessions + 1 })

/-- The statement `UPDATE debate_sessions SET status, winner, judge_comment,
ended_at WHERE id = ?`. -/
def DB.updateSession (d : DB) (session : DebateSession) : DB :=
  { d with debate_sessions := d.debate_sessions.map (fun r =>
      if r.id = session.ID then
        { r with status := session.Status, winner := session.Winner,
                 judge_comment := session.JudgeComment, ended_at := session.FinishedAt }
      else r) }

/-- The statement `UPDATE user_stats SET total_debates, wins, losses, draws
WHERE user_id = ?`. -/
def DB.updateStats (d : DB) (stats : UserStats) : DB :=
  { d with user_stats := d.user_stats.map (fun r =>
      if r.user_id = stats.UserID then
        { r with total_debates := stats.TotalDebates, wins := stats.Wins,
                 losses := stats.Losses, draws := stats.Draws }
      else r) }

/-! ## db: the methods of `*db.DB` -/

/-- The method `DB.GetDebateSession`: an error when the statement fails or no
row has the id. -/
def DB.GetDebateSession (env : Env) (w : World) (id : Int) : Option DebateSession × World :=
  if env.fails (Call.GetDebateSession id) then (none, w.log (Call.GetDebateSession id))
  else (w.db.selectSession id, w.log (Call.GetDebateSession id))

/-- The method `DB.CreateDebateSession`: insert, then read the new row back. -/
def DB.CreateDebateSession (env : Env) (w : World) (userID : Option Int)
    (mode topic userPosition : String) : Option DebateSession × World :=
  if env.fails (Call.CreateDebateSession userID mode topic userPosition) then
    (none, w.log (Call.CreateDebateSession userID mode topic userPosition))
  else
    DB.GetDebateSession env
      { db := (w.db.insertSession env.now userID mode topic userPosition).2
        calls := w.calls ++ [Call.CreateDebateSession userID mode topic userPosition] }
      (w.db.insertSession env.now userID mode topic userPosition).1

/-- The method `DB.UpdateDebateSession`; `true` is success. -/
def DB.UpdateDebateSession (env : Env) (w : World) (session : DebateSession) : Bool × World :=
  if env.fails (Call.UpdateDebateSession session.ID) then
    (false, w.log (Call.UpdateDebateSession session.ID))
  else
    (true, { db := w.db.updateSession session
             calls := w.calls ++ [Call.UpdateDebateSession session.ID] })

/-- The method `DB.CreateMessage`. -/
def DB.CreateMessage (env : Env) (w : World) (sessionID : Int) (role content : String) :
    Option DebateMessage × World :=
  if env.fails (Call.CreateMessage sessionID role content) then
    (none, w.log (Call.CreateMessage sessionID role content))
  else
    (some (w.db.insertMessage env.now sessionID role content).1,
     { db := (w.db.insertMessage env.now sessionID role content).2
       calls := w.calls ++ [Call.CreateMessage sessionID role content] })

/-- The method `DB.GetSessionMessages`. -/
def DB.GetSessionMessages (env : Env) (w : World) (sessionID : Int) :
    Option (List DebateMessage) × World :=
  if env.fails (Call.GetSessionMessages sessionID) then
    (none, w.log (Call.GetSessionMessages sessionID))
  else (some (w.db.selectMessages sessionID), w.log (Call.GetSessionMessages sessionID))

/-- The method `DB.GetUserStats`: an error when the statement fails or the
user has no row. -/
def DB.GetUserStats (env : Env) (w : World) (userID : Int) : Option UserStats × World :=
  if env.fails (Call.GetUserStats userID) then (none, w.log (Call.GetUserStats userID))
  else (w.db.selectStats userID, w.log (Call.GetUserStats userID))

/-- The method `DB.UpdateUserStats`; `true` is success. -/
def DB.UpdateUserStats (env : Env) (w : World) (stats : UserStats) : Bool × World :=
  if env.fails (Call.UpdateUserStats stats.UserID) then
    (false, w.log (Call.UpdateUserStats stats.UserID))
  else
    (true, { db := w.db.updateStats stats
             calls := w.calls ++ [Call.UpdateUserStats stats.UserID] })

/-! ## openai: the client -/

/-- The struct `openai.Client` (the remote handle is `Env.request`). -/
structure Client where
  model : String
  deriving DecidableEq, Repr

/-- The body shared by `Client.ChatCompletion` and
`Client.ChatCompletionWithSchema`: the two guards, the request, and the first
choice of the answer. The error of a failed request is the library's own; its
text here is the one the code logs. -/
def Client.complete (c : Client) (env : Env) (messages : List Message)
    (schemaName : Option String) : Except String String :=
  if c.model = "" then .error "openai model is empty"
  else if messages.length = 0 then .error "openai messages are empty"
  else
    match env.request messages schemaName with
    | none => .error "request failed"
    | some [] => .error "openai response had no choices"
    | some (choice :: _) => .ok choice

/-- The method `Client.ChatCompletion`. -/
def Client.ChatCompletion (c : Client) (env : Env) (w : World) (messages : List Message) :
    Except String String × World :=
  (c.complete env messages none, w.log (Call.ChatCompletion messages))

/-- The method `Client.ChatCompletionWithSchema`. -/
def Client.ChatCompletionWithSchema (c : Client) (env : Env) (w : World)
    (messages : List Message) (schemaName : String) : Except String String × World :=
  (c.complete env messages (some schemaName),
   w.log (Call.ChatCompletionWithSchema messages schemaName))

/-! ## debatesvc: prompt assembly -/

/-- The struct `debatesvc.Service`; its database is the `World` argument of
each method. -/
structure Service where
  client : Client
  deriving DecidableEq, Repr

/-- The system prompt of `buildLLMMessages`. -/
def llmSystemPrompt (topic positionDesc : String) : String :=
  "あなたはディベートの参加者です。
テーマ: " ++ topic ++ "
あなたの立場: " ++ positionDesc ++ "側

以下のルールに従ってディベートを行ってください：
1. 自分の立場を論理的に主張してください
2. 相手の主張に対して適切に反論してください
3. 具体的な例やデータを用いて説得力のある議論をしてください
4. 礼儀正しく、建設的な議論を心がけてください
5. 回答は300文字程度にまとめてください"

/-- The method `Service.buildLLMMessages`. -/
def Service.buildLLMMessages (session : DebateSession) (messages : List DebateMessage)
    (role : String) : List Message :=
  let position :=
    if role = "llm" then session.LLMPosition
    else if role = "llm1" then session.LLM1Position
    else session.LLM2Position
  let positionDesc := if position = "con" then "反対" else "賛成"
  let systemPrompt := llmSystemPrompt session.Topic positionDesc
  messages.foldl
    (fun llmMessages msg =>
      if msg.Role = "system" then llmMessages
      else
        llmMessages ++
          [{ Role := if msg.Role = role then "assistant" else "user", Content := msg.Content }])
    [{ Role := "system", Content := systemPrompt }]

/-- The system prompt of `buildJudgeMessages`. -/
def judgeSystemPrompt (topic : String) : String :=
  "あなたは公平なディベートの審査員です。
以下のディベートを評価し、勝者を決定してください。

テーマ: " ++ topic ++ "
賛成側(pro): 賛成の立場
反対側(con): 反対の立場

評価基準：
1. 論理性：主張の論理的整合性
2. 説得力：具体的な根拠やデータの使用
3. 反論力：相手の主張への効果的な反論
4. 表現力：わかりやすく説得力のある表現

公平に両者を評価し、結果を出してください。"

/-- The `switch msg.Role` of `buildJudgeMessages`: the label of a speaker
(empty for a role the switch has no case for). -/
def judgeSpeaker (session : DebateSession) (role : String) : String :=
  if role = "user" then
    if session.UserPosition = "pro" then "賛成側(ユーザー)" else "反対側(ユーザー)"
  else if role = "llm" then
    if session.LLMPosition = "pro" then "賛成側(AI)" else "反対側(AI)"
  else if role = "llm1" then "賛成側(AI-1)"
  else if role = "llm2" then "反対側(AI-2)"
  else ""

/-- The method `Service.buildJudgeMessages`. -/
def Service.buildJudgeMessages (session : DebateSession) (messages : List DebateMessage) :
    List Message :=
  let systemPrompt := judgeSystemPrompt session.Topic
  let debateContent :=
    messages.foldl
      (fun debateContent msg =>
        if msg.Role = "system" ∨ msg.Role = "judge" then debateContent
        else debateContent ++ (judgeSpeaker session msg.Role ++ ":\n" ++ msg.Content ++ "\n\n"))
      "【ディベートの内容】\n\n"
  [{ Role := "system", Content := systemPrompt },
   { Role := "user", Content := debateContent ++ "\n上記のディベートを評価してください。" }]

/-! ## debatesvc: the operations -/

/-- The messages `GenerateRandomTopic` sends. -/
def topicMessages : List Message :=
  [{ Role := "system"
     Content := "あなたはディベートのテーマを提案するアシスタントです。
興味深く、議論の余地があり、両方の立場から論じることができるディベートテーマを提案してください。
テーマは具体的で、一般の人でも議論に参加できるものにしてください。
政治、社会、技術、倫理、教育など様々な分野からテーマを選んでください。" },
   { Role := "user", Content := "新しいディベートテーマを1つ提案してください。" }]

/-- The method `Service.GenerateRandomTopic`. -/
def Service.GenerateRandomTopic (s : Service) (env : Env) (w : World) :
    Except String DebateTopicResponse × World :=
  match s.client.ChatCompletionWithSchema env w topicMessages "debate_topic" with
  | (.error e, w1) => (.error e, w1)
  | (.ok response, w1) =>
    match env.UnmarshalTopic response with
    | none => (.error "failed to parse topic response", w1)
    | some topic => (.ok topic, w1)

/-- The position block of `CreateDebateSession`: the human side that is
stored. -/
def createUserPosition (env : Env) (req : CreateDebateRequest) : String :=
  if req.Mode = "user_vs_llm" then
    if req.RandomizePosition = true ∨ req.UserPosition = "" ∨ req.UserPosition = "random" then
      if env.Intn 2 = 0 then "pro" else "con"
    else req.UserPosition
  else ""

/-- The block of `CreateDebateSession` that fills the position fields of the
returned session (they are not stored). -/
def createPositions (req : CreateDebateRequest) (userPosition : String)
    (session : DebateSession) : DebateSession :=
  if req.Mode = "user_vs_llm" then
    { session with
      UserPosition := userPosition
      LLMPosition := if userPosition = "pro" then "con" else "pro" }
  else if req.Mode = "llm_vs_llm" then
    { session with LLM1Position := "pro", LLM2Position := "con" }
  else session

/-- The content of the system message `CreateDebateSession` stores. -/
def createSystemContent (topic : String) (topicInfo : Option DebateTopicResponse) : String :=
  match topicInfo with
  | none => "ディベートテーマ: " ++ topic ++ "\n"
  | some info =>
    "ディベートテーマ: " ++ topic ++ "\n" ++
      ("賛成側の立場: " ++ info.ProPosition ++ "\n反対側の立場: " ++ info.ConPosition ++
        "\n背景: " ++ info.Background)

/-- The part of `CreateDebateSession` after the topic is known. -/
def Service.createWithTopic (env : Env) (w : World) (userID : Option Int)
    (req : CreateDebateRequest) (topic : String) (topicInfo : Option DebateTopicResponse) :
    Except String (DebateSession × Option DebateTopicResponse) × World :=
  match DB.CreateDebateSession env w userID req.Mode topic (createUserPosition env req) with
  | (none, w1) => (.error "failed to create session", w1)
  | (some session, w1) =>
    (.ok (createPositions req (createUserPosition env req) session, topicInfo),
     (DB.CreateMessage env w1 session.ID "system" (createSystemContent topic topicInfo)).2)

/-- The method `Service.CreateDebateSession`. -/
def Service.CreateDebateSession (s : Service) (env : Env) (w : World) (userID : Option Int)
    (req : CreateDebateRequest) :
    Except String (DebateSession × Option DebateTopicResponse) × World :=
  if req.RandomizeTopic = true ∨ req.Topic = "" then
    match s.GenerateRandomTopic env w with
    | (.error _, w1) => (.error "failed to generate topic", w1)
    | (.ok generatedTopic, w1) =>
      Service.createWithTopic env w1 userID req generatedTopic.Topic (some generatedTopic)
  else Service.createWithTopic env w userID req req.Topic none

/-- The method `Service.ProcessUserMessage`. -/
def Service.ProcessUserMessage (s : Service) (env : Env) (w : World) (sessionID : Int)
    (userContent : String) : Except String (DebateMessage × DebateMessage) × World :=
  match DB.GetDebateSession env w sessionID with
  | (none, w1) => (.error "session not found", w1)
  | (some session, w1) =>
    if session.Status ≠ "active" ∧ session.Status ≠ "ongoing" then
      (.error "debate has already ended", w1)
    else
      match DB.CreateMessage env w1 sessionID "user" userContent with
      | (none, w2) => (.error "failed to save user message", w2)
      | (some userMsg, w2) =>
        match DB.GetSessionMessages env w2 sessionID with
        | (none, w3) => (.error "failed to get messages", w3)
        | (some messages, w3) =>
          match s.client.ChatCompletion env w3 (Service.buildLLMMessages session messages "llm") with
          | (.error _, w4) => (.error "failed to get LLM response", w4)
          | (.ok response, w4) =>
            match DB.CreateMessage env w4 sessionID "llm" response with
            | (none, w5) => (.error "failed to save LLM message", w5)
            | (some llmMsg, w5) => (.ok (userMsg, llmMsg), w5)

/-- The counting loop of `ProcessLLMDebateStep`: the pair
`(llm1Count, llm2Count)`. -/
def countLLM (messages : List DebateMessage) : Nat × Nat :=
  messages.foldl
    (fun c msg =>
      if msg.Role = "llm1" then (c.1 + 1, c.2)
      else if msg.Role = "llm2" then (c.1, c.2 + 1)
      else c)
    (0, 0)

/-- The method `Service.ProcessLLMDebateStep`; the result is
`(llm1Msg, llm2Msg, isFinished)`. -/
def Service.ProcessLLMDebateStep (s : Service) (env : Env) (w : World) (sessionID : Int) :
    Except String (Option DebateMessage × Option DebateMessage × Bool) × World :=
  match DB.GetDebateSession env w sessionID with
  | (none, w1) => (.error "session not found", w1)
  | (some session0, w1) =>
    if session0.Status ≠ "active" ∧ session0.Status ≠ "ongoing" then (.ok (none, none, true), w1)
    else
      match DB.GetSessionMessages env w1 sessionID with
      | (none, w2) => (.error "failed to get messages", w2)
      | (some messages, w2) =>
        let llm1Count := (countLLM messages).1
        let llm2Count := (countLLM messages).2
        if llm1Count ≥ 5 ∧ llm2Count ≥ 5 then (.ok (none, none, true), w2)
        else
          let session := { session0 with LLM1Position := "pro", LLM2Position := "con" }
          if llm1Count ≤ llm2Count then
            match s.client.ChatCompletion env w2 (Service.buildLLMMessages session messages "llm1") with
            | (.error _, w3) => (.error "failed to get LLM1 response", w3)
            | (.ok response, w3) =>
              match DB.CreateMessage env w3 sessionID "llm1" response with
              | (none, w4) => (.error "failed to save LLM1 message", w4)
              | (some llm1Msg, w4) =>
                (.ok (some llm1Msg, none, decide (llm1Count ≥ 4) && decide (llm2Count ≥ 5)), w4)
          else
            match s.client.ChatCompletion env w2 (Service.buildLLMMessages session messages "llm2") with
            | (.error _, w3) => (.error "failed to get LLM2 response", w3)
            | (.ok response, w3) =>
              match DB.CreateMessage env w3 sessionID "llm2" response with
              | (none, w4) => (.error "failed to save LLM2 message", w4)
              | (some llm2Msg, w4) =>
                (.ok (none, some llm2Msg, decide (llm1Count ≥ 5) && decide (llm2Count ≥ 4)), w4)

/-- The position block of `EndDebate`. -/
def endPositions (session : DebateSession) : DebateSession :=
  if session.Mode = "llm_vs_llm" then
    { session with LLM1Position := "pro", LLM2Position := "con" }
  else if session.UserPosition = "pro" then { session with LLMPosition := "con" }
  else { session with LLMPosition := "pro" }

/-- The winner decision of `EndDebate`. -/
def endWinner (session : DebateSession) (judgeResult : JudgeResponse) : String :=
  if session.Mode = "user_vs_llm" then
    if judgeResult.Winner = session.UserPosition then "user"
    else if judgeResult.Winner = session.LLMPosition then "llm"
    else "draw"
  else
    if judgeResult.Winner = "pro" then "llm1"
    else if judgeResult.Winner = "con" then "llm2"
    else "draw"

/-- The increment `x++` of a Go `int` (64 bits, two's complement): the sum
wraps around from `2^63 - 1` to `-2^63`. -/
def incr (x : Int) : Int :=
  (x + 1 + 2 ^ 63) % 2 ^ 64 - 2 ^ 63

/-- The counters `EndDebate` writes back for a winner. -/
def bumpStats (stats : UserStats) (winner : String) : UserStats :=
  if winner = "user" then
    { stats with TotalDebates := incr stats.TotalDebates, Wins := incr stats.Wins }
  else if winner = "llm" then
    { stats with TotalDebates := incr stats.TotalDebates, Losses := incr stats.Losses }
  else
    { stats with TotalDebates := incr stats.TotalDebates, Draws := incr stats.Draws }

/-- The statistics block of `EndDebate`: only in mode `user_vs_llm`, only
with an owning user; both store errors are logged and ignored. -/
def endStats (env : Env) (w : World) (session : DebateSession) (winner : String) : World :=
  if session.Mode = "user_vs_llm" then
    match session.UserID with
    | none => w
    | some userID =>
      match DB.GetUserStats env w userID with
      | (none, w1) => w1
      | (some stats, w1) => (DB.UpdateUserStats env w1 (bumpStats stats winner)).2
  else w

/-- The method `Service.EndDebate`. -/
def Service.EndDebate (s : Service) (env : Env) (w : World) (sessionID : Int) :
    Except String (DebateSession × JudgeResponse) × World :=
  match DB.GetDebateSession env w sessionID with
  | (none, w1) => (.error "session not found", w1)
  | (some session0, w1) =>
    if session0.Status ≠ "active" ∧ session0.Status ≠ "ongoing" then
      (.error "debate has already ended", w1)
    else
      match DB.GetSessionMessages env w1 sessionID with
      | (none, w2) => (.error "failed to get messages", w2)
      | (some messages, w2) =>
        match s.client.ChatCompletionWithSchema env w2
            (Service.buildJudgeMessages (endPositions session0) messages) "judge_result" with
        | (.error _, w3) => (.error "failed to get judge response", w3)
        | (.ok response, w3) =>
          match env.UnmarshalJudge response with
          | none => (.error "failed to parse judge response", w3)
          | some judgeResult =>
            let session : DebateSession :=
              { endPositions session0 with
                Status := "finished"
                Winner := some (endWinner (endPositions session0) judgeResult)
                JudgeComment := some judgeResult.FinalComment
                FinishedAt := some env.now }
            match DB.UpdateDebateSession env
                (endStats env w3 (endPositions session0)
                  (endWinner (endPositions session0) judgeResult)) session with
            | (false, w5) => (.error "failed to update session", w5)
            | (true, w5) =>
              (.ok (session, judgeResult),
               (DB.CreateMessage env w5 sessionID "judge" (env.MarshalJudge judgeResult)).2)

/-! ## Vocabulary of the statements -/

/-- The transcript of a session: the rows `GetSessionMessages` returns. -/
def transcript (w : World) (sessionID : Int) : List DebateMessage :=
  w.db.selectMessages sessionID

/-- Number of messages of a role in a transcript. -/
def roleCount (role : String) (messages : List DebateMessage) : Nat :=
  messages.countP (fun m => decide (m.Role = role))

/-- The store and the provider succeed during a call: no store statement
fails, the client has a model, and every request is answered with at least
one choice. -/
def Healthy (s : Service) (env : Env) : Prop :=
  s.client.model ≠ "" ∧ (∀ c, env.fails c = false) ∧
    ∀ messages schemaName, ∃ choice rest, env.request messages schemaName = some (choice :: rest)

/-- The first choice the provider returns for a request (empty when there is
none). -/
def firstChoice (env : Env) (messages : List Message) (schemaName : Option String) : String :=
  match env.request messages schemaName with
  | some (choice :: _) => choice
  | _ => ""

/-- The two agents' message counts differ by at most one. -/
def Balanced (messages : List DebateMessage) : Prop :=
  |(roleCount "llm1" messages : Int) - (roleCount "llm2" messages : Int)| ≤ 1

instance (messages : List DebateMessage) : Decidable (Balanced messages) := by
  unfold Balanced
  infer_instance

/-- The world after `n` successive calls of `ProcessLLMDebateStep` on one
session, the `k`-th call (counted from 0) running in environment `envs k`. -/
def Service.runSteps (s : Service) (sessionID : Int) (envs : Nat → Env) : Nat → World → World
  | 0, w => w
  | n + 1, w =>
    (s.ProcessLLMDebateStep (envs n) (Service.runSteps s sessionID envs n w) sessionID).2

/-- The calls made between two worlds. -/
def newCalls (before after : World) : List Call :=
  after.calls.drop before.calls.length

/-- The other agent of a model-vs-model debate. -/
def opponent (role : String) : String :=
  if role = "llm1" then "llm2" else "llm1"

/-- The world of `EndDebate` at the moment the provider has been asked for the
verdict: nothing stored yet, three calls recorded. -/
def atVerdict (w : World) (sessionID : Int) (session0 : DebateSession) : World :=
  ((w.log (Call.GetDebateSession sessionID)).log (Call.GetSessionMessages sessionID)).log
    (Call.ChatCompletionWithSchema
      (Service.buildJudgeMessages (endPositions session0) (w.db.selectMessages sessionID))
      "judge_result")

/-- The session `EndDebate` writes and returns for a verdict. -/
def judgedSession (env : Env) (session0 : DebateSession) (verdict : JudgeResponse) :
    DebateSession :=
  { endPositions session0 with
    Status := "finished"
    Winner := some (endWinner (endPositions session0) verdict)
    JudgeComment := some verdict.FinalComment
    FinishedAt := some env.now }

/-- The side opposite to a side. -/
def otherSide (position : String) : String :=
  if position = "pro" then "con" else "pro"

/-- The world after `n` successive calls of `EndDebate` on one session, the
`k`-th call (counted from 0) running in environment `envs k`. -/
def Service.runEnds (s : Service) (sessionID : Int) (envs : Nat → Env) : Nat → World → World
  | 0, w => w
  | n + 1, w => (s.EndDebate (envs n) (Service.runEnds s sessionID envs n w) sessionID).2

/-- The prompt `ProcessUserMessage` sends to the provider: built from the
session as read from the store and the transcript read after the caller's
message has been stored. -/
def exchangePrompt (env : Env) (w : World) (sessionID : Int) (session0 : DebateSession)
    (userContent : String) : List Message :=
  Service.buildLLMMessages session0
    ((w.db.insertMessage env.now sessionID "user" userContent).2.selectMessages sessionID)
    "llm"

/-- The store invariant of the AUTOINCREMENT session ids: every session row
and every message row refers to a session id that has been handed out. -/
def DB.WellFormed (d : DB) : Prop :=
  (∀ r ∈ d.debate_sessions, r.id ≤ d.seq_sessions) ∧
  (∀ m ∈ d.debate_messages, m.SessionID ≤ d.seq_sessions)

instance (d : DB) : Decidable d.WellFormed := by
  unfold DB.WellFormed
  infer_instance

/-- The row `CreateDebateSession` inserts into `debate_sessions`. -/
def createdRow (env : Env) (w : World) (userID : Option Int) (req : CreateDebateRequest)
    (topic : String) : SessionRow :=
  { id := w.db.seq_sessions + 1, user_id := userID, mode := req.Mode, topic := topic,
    user_position := some (createUserPosition env req), status := "active", winner := none,
    judge_comment := none, created_at := env.now, ended_at := none }

/-- Concatenation of the blocks of a judge transcript, in order. -/
def joinBlocks : List String → String
  | [] => ""
  | block :: rest => block ++ joinBlocks rest

/-- The block `buildJudgeMessages` writes for a transcript message: the label
of the speaker, a colon, and the content on a line of its own. -/
def judgeBlock (session : DebateSession) (m : DebateMessage) : String :=
  judgeSpeaker session m.Role ++ ":\n" ++ m.Content ++ "\n\n"

/-- The side a speaker label of the judge transcript names: `pro` for the
three labels that start with 賛成側, `con` for the three that start with 反対側. -/
def labelSide (label : String) : Option String :=
  if label = "賛成側(ユーザー)" ∨ label = "賛成側(AI)" ∨ label = "賛成側(AI-1)" then some "pro"
  else if label = "反対側(ユーザー)" ∨ label = "反対側(AI)" ∨ label = "反対側(AI-2)" then
    some "con"
  else none

/-- A call of one of the four operations of the service. -/
inductive Operation where
  | create (userID : Option Int) (req : CreateDebateRequest)
  | exchange (sessionID : Int) (userContent : String)
  | step (sessionID : Int)
  | finish (sessionID : Int)
  deriving DecidableEq, Repr

/-- The world after one operation. -/
def Service.perform (s : Service) (env : Env) (w : World) : Operation → World
  | .create userID req => (s.CreateDebateSession env w userID req).2
  | .exchange sessionID userContent => (s.ProcessUserMessage env w sessionID userContent).2
  | .step sessionID => (s.ProcessLLMDebateStep env w sessionID).2
  | .finish sessionID => (s.EndDebate env w sessionID).2

/-- The world after a sequence of operations, each in its own environment. -/
def Service.run (s : Service) : List (Env × Operation) → World → World
  | [], w => w
  | (env, op) :: rest, w => Service.run s rest (s.perform env w op)

/-- The session invariant on the rows of `debate_sessions`: winner and judge
comment are both set exactly when the status is `finished`. -/
def DB.SessionInv (d : DB) : Prop :=
  ∀ r ∈ d.debate_sessions,
    ((r.winner.isSome = true ∧ r.judge_comment.isSome = true) ↔ r.status = "finished")

instance (d : DB) : Decidable d.SessionInv := by
  unfold DB.SessionInv
  infer_instance

/-- The roles the service writes. -/
def knownRoles : List String := ["system", "user", "llm", "llm1", "llm2", "judge"]

/-- Every stored message has one of the roles the service writes. -/
def DB.KnownRoles (d : DB) : Prop :=
  ∀ m ∈ d.debate_messages, m.Role ∈ knownRoles

instance (d : DB) : Decidable d.KnownRoles := by
  unfold DB.KnownRoles
  infer_instance

/-- No stored message of the session is stamped later than the clock reading
`now`: the clock has not gone back since the messages were written. -/
def DB.Timely (d : DB) (sessionID : Int) (now : Nat) : Prop :=
  ∀ m ∈ d.debate_messages, m.SessionID = sessionID → m.CreatedAt ≤ now

instance (d : DB) (sessionID : Int) (now : Nat) : Decidable (d.Timely sessionID now) := by
  unfold DB.Timely
  infer_instance

/-- The counters of a statistics row are below the largest Go `int`, so that
an increment does not wrap. -/
def UserStats.BelowMax (stats : UserStats) : Prop :=
  (-2 ^ 63 ≤ stats.TotalDebates ∧ stats.TotalDebates < 2 ^ 63 - 1) ∧
  (-2 ^ 63 ≤ stats.Wins ∧ stats.Wins < 2 ^ 63 - 1) ∧
  (-2 ^ 63 ≤ stats.Losses ∧ stats.Losses < 2 ^ 63 - 1) ∧
  (-2 ^ 63 ≤ stats.Draws ∧ stats.Draws < 2 ^ 63 - 1)

instance (stats : UserStats) : Decidable stats.BelowMax := by
  unfold UserStats.BelowMax
  infer_instance

/-- No stored message at all is stamped later than `now`. -/
def DB.StampedBy (d : DB) (now : Nat) : Prop :=
  ∀ m ∈ d.debate_messages, m.CreatedAt ≤ now

instance (d : DB) (now : Nat) : Decidable (d.StampedBy now) := by
  unfold DB.StampedBy
  infer_instance

/-- The clock does not go back along a sequence of operations that starts at
the reading `start`. -/
def clockOrdered : Nat → List (Env × Operation) → Prop
  | _, [] => True
  | start, (env, _) :: rest => start ≤ env.now ∧ clockOrdered env.now rest

/-- The clock reading of the last operation of a sequence (`start` when there
is none). -/
def lastClock : Nat → List (Env × Operation) → Nat
  | start, [] => start
  | _, (env, _) :: rest => lastClock env.now rest

/-! ## Concrete inputs -/

/-- A verdict with the given winner and final comment. -/
def demoVerdict (winner : String) : JudgeResponse :=
  { Winner := winner, Score := { Pro := 70, Con := 60 }, Reasoning := "r", ProStrengths := [],
    ProWeaknesses := [], ConStrengths := [], ConWeaknesses := [], FinalComment := "good debate" }

/-- An environment in which nothing fails: every request is answered with the
given text, which decodes to a verdict naming that text as the winner. -/
def demoEnv (answer : String) : Env :=
  { fails := fun _ => false
    request := fun _ _ => some [answer]
    now := 7
    Intn := fun _ => 0
    UnmarshalTopic := fun _ => none
    UnmarshalJudge := fun response => some (demoVerdict response)
    MarshalJudge := fun _ => "verdict" }

/-- A service whose client has a model. -/
def demoService : Service := { client := { model := "gpt" } }

/-- A message row of session 1. -/
def demoMessage (id : Int) (role : String) : DebateMessage :=
  { ID := id, SessionID := 1, Role := role, Content := "text", CreatedAt := 1 }

/-- The row of session 1 with the given mode, human position, status and
owner. -/
def demoRow (mode userPosition status : String) (owner : Option Int) : SessionRow :=
  { id := 1, user_id := owner, mode := mode, topic := "X", user_position := some userPosition,
    status := status, winner := none, judge_comment := none, created_at := 1, ended_at := none }

/-- A database with the one session `demoRow`, the given messages, and
statistics rows for users 10 and 11. -/
def demoDB (mode userPosition status : String) (owner : Option Int)
    (messages : List DebateMessage) : DB :=
  { debate_sessions := [demoRow mode userPosition status owner]
    debate_messages := messages
    user_stats :=
      [{ id := 1, user_id := 10, total_debates := 3, wins := 1, losses := 1, draws := 1 },
       { id := 2, user_id := 11, total_debates := 2, wins := 2, losses := 0, draws := 0 }]
    seq_sessions := 1
    seq_messages := messages.length }

/-- A fresh model-vs-model session: only the system briefing is stored. -/
def freshWorld : World :=
  { db := demoDB "llm_vs_llm" "" "active" none [demoMessage 1 "system"], calls := [] }

/-- A model-vs-model session in which each agent has spoken four times. -/
def fourAllWorld : World :=
  { db := demoDB "llm_vs_llm" "" "active" none
      [demoMessage 1 "system", demoMessage 2 "llm1", demoMessage 3 "llm2", demoMessage 4 "llm1",
       demoMessage 5 "llm2", demoMessage 6 "llm1", demoMessage 7 "llm2", demoMessage 8 "llm1",
       demoMessage 9 "llm2"]
    calls := [] }

/-- A human-vs-model session owned by user 10, the human on the pro side, with
one exchange stored. -/
def userWorld : World :=
  { db := demoDB "user_vs_llm" "pro" "active" (some 10)
      [demoMessage 1 "system", demoMessage 2 "user", demoMessage 3 "llm"]
    calls := [] }

/-- The same session after it has been judged. -/
def finishedWorld : World :=
  { db :=
      { demoDB "user_vs_llm" "pro" "finished" (some 10)
          [demoMessage 1 "system", demoMessage 2 "user", demoMessage 3 "llm",
           demoMessage 4 "judge"] with
        debate_sessions :=
          [{ demoRow "user_vs_llm" "pro" "finished" (some 10) with
             winner := some "user", judge_comment := some "good debate", ended_at := some 5 }] }
    calls := [] }

/-- A model-vs-model session that (unusually) has an owner, user 10. -/
def ownedAgentsWorld : World :=
  { db := demoDB "llm_vs_llm" "" "active" (some 10)
      [demoMessage 1 "system", demoMessage 2 "llm1", demoMessage 3 "llm2"]
    calls := [] }

/-- The environment `demoEnv` with store faults: the calls for which `failing`
holds return an error. -/
def faultyEnv (answer : String) (failing : Call → Bool) : Env :=
  { demoEnv answer with fails := failing }

/-- An environment in which every provider request fails. -/
def silentEnv : Env :=
  { demoEnv "" with request := fun _ _ => none }

/-- An environment whose provider answers, but with text that does not decode
to a verdict. -/
def garbledEnv : Env :=
  { demoEnv "not json" with UnmarshalJudge := fun _ => none }

/-- A store with no session yet; users 10 and 11 have statistics rows. -/
def emptyWorld : World :=
  { db :=
      { debate_sessions := []
        debate_messages := []
        user_stats :=
          [{ id := 1, user_id := 10, total_debates := 3, wins := 1, losses := 1, draws := 1 },
           { id := 2, user_id := 11, total_debates := 2, wins := 2, losses := 0, draws := 0 }]
        seq_sessions := 0
        seq_messages := 0 }
    calls := [] }

/-- A creation request with a fixed topic and no randomization. -/
def demoRequest (mode userPosition : String) : CreateDebateRequest :=
  { Mode := mode, Topic := "X", UserPosition := userPosition, RandomizeTopic := false,
    RandomizePosition := false }

/-- The environment `demoEnv "con"` in which the update of session 1 fails. -/
def updateFailsEnv : Env :=
  faultyEnv "con" (fun c => decide (c = Call.UpdateDebateSession 1))

/-- The environment `demoEnv "a"` in which every write of a message fails. -/
def noMessageEnv : Env :=
  faultyEnv "a" (fun c =>
    match c with
    | Call.CreateMessage _ _ _ => true
    | _ => false)

/-- A generated topic. -/
def demoTopic : DebateTopicResponse :=
  { Topic := "T", ProPosition := "P", ConPosition := "C", Background := "B" }

/-- The environment `demoEnv "a"` whose provider answer decodes to
`demoTopic`. -/
def topicEnv : Env :=
  { demoEnv "a" with UnmarshalTopic := fun _ => some demoTopic }

/-- The session returned for the first creation on `emptyWorld` by user 10 in
mode `user_vs_llm` with the human on the pro side. -/
def createdSession (topic : String) : DebateSession :=
  { ID := 1, UserID := some 10, Topic := topic, UserPosition := "pro", LLMPosition := "con",
    LLM1Position := "", LLM2Position := "", Mode := "user_vs_llm", Status := "active",
    Winner := none, JudgeComment := none, CreatedAt := 7, FinishedAt := none }

/-- A script: create a human-vs-model session for user 10 with the position
string `maybe` in the request, and exchange one turn. -/
def maybeScript : List (Env × Operation) :=
  [(demoEnv "a", Operation.create (some 10) (demoRequest "user_vs_llm" "maybe")),
   (demoEnv "reply", Operation.exchange 1 "hello")]

/-- The world reached from the empty store by `maybeScript`. -/
def maybeWorld : World :=
  demoService.run maybeScript emptyWorld

/-- A script: create a human-vs-model session, exchange one turn, end the
debate (verdict con), and try to end it again. -/
def demoScript : List (Env × Operation) :=
  [(demoEnv "a", Operation.create (some 10) (demoRequest "user_vs_llm" "pro")),
   (demoEnv "reply", Operation.exchange 1 "hello"),
   (demoEnv "con", Operation.finish 1),
   (demoEnv "con", Operation.finish 1)]

/-! ## Lemmas on the store and the counting loop -/

theorem countLLM_foldl (messages : List DebateMessage) (a b : Nat) :
    messages.foldl
      (fun (c : Nat × Nat) msg =>
        if msg.Role = "llm1" then (c.1 + 1, c.2)
        else if msg.Role = "llm2" then (c.1, c.2 + 1)
        else c)
      (a, b) = (a + roleCount "llm1" messages, b + roleCount "llm2" messages) := by
  induction messages generalizing a b with
  | nil => simp [roleCount]
  | cons m ms ih =>
    simp only [List.foldl_cons]
    by_cases h1 : m.Role = "llm1"
    · have h2 : m.Role ≠ "llm2" := by rw [h1]; decide
      simp [h1, ih, roleCount, List.countP_cons]
      omega
    · by_cases h2 : m.Role = "llm2"
      · simp [h1, h2, ih, roleCount, List.countP_cons]
        omega
      · simp [h1, h2, ih, roleCount, List.countP_cons]

theorem countLLM_eq (messages : List DebateMessage) :
    countLLM messages = (roleCount "llm1" messages, roleCount "llm2" messages) := by
  unfold countLLM
  rw [countLLM_foldl]
  simp

theorem incr_eq (x : Int) (hlo : -2 ^ 63 ≤ x) (hhi : x < 2 ^ 63 - 1) : incr x = x + 1 := by
  unfold incr
  rw [Int.emod_eq_of_lt (by omega) (by omega)]
  omega

theorem orderedInsert_append_last (a b : DebateMessage) (l : List DebateMessage)
    (hab : a.CreatedAt ≤ b.CreatedAt) :
    List.orderedInsert DebateMessage.createdBefore a (l ++ [b]) =
      List.orderedInsert DebateMessage.createdBefore a l ++ [b] := by
  induction l with
  | nil => simp [List.orderedInsert, DebateMessage.createdBefore, hab]
  | cons c l ih =>
    by_cases hc : DebateMessage.createdBefore a c
    · simp [List.orderedInsert, hc]
    · simp [List.orderedInsert, hc, ih]

/-- Sorting by stamp keeps a last row in place when no row is stamped after
it. -/
theorem insertionSort_append_last (l : List DebateMessage) (b : DebateMessage)
    (h : ∀ a ∈ l, a.CreatedAt ≤ b.CreatedAt) :
    (l ++ [b]).insertionSort DebateMessage.createdBefore =
      l.insertionSort DebateMessage.createdBefore ++ [b] := by
  induction l with
  | nil => rfl
  | cons a l ih =>
    show List.orderedInsert DebateMessage.createdBefore a
        ((l ++ [b]).insertionSort DebateMessage.createdBefore) =
      List.orderedInsert DebateMessage.createdBefore a
        (l.insertionSort DebateMessage.createdBefore) ++ [b]
    rw [ih (fun c hc => h c (List.mem_cons_of_mem _ hc))]
    exact orderedInsert_append_last a b _ (h a (List.mem_cons_self _ _))

/-- The rows of a session as a multiset: the transcript is a rearrangement of
the rows of the table. -/
theorem selectMessages_perm (d : DB) (sessionID : Int) :
    (d.selectMessages sessionID).Perm
      (d.debate_messages.filter (fun m => decide (m.SessionID = sessionID))) :=
  List.perm_insertionSort _ _

/-- With a clock that has not gone back, the row just inserted is the last of
the transcript. -/
theorem selectMessages_insertMessage (d : DB) (now : Nat) (sessionID : Int) (role content : String)
    (h : d.Timely sessionID now) :
    (d.insertMessage now sessionID role content).2.selectMessages sessionID =
      d.selectMessages sessionID ++ [(d.insertMessage now sessionID role content).1] := by
  simp only [DB.insertMessage, DB.selectMessages, List.filter_append, List.filter_cons,
    decide_True, if_true, List.filter_nil]
  apply insertionSort_append_last
  intro a ha
  rw [List.mem_filter] at ha
  exact h a ha.1 (of_decide_eq_true ha.2)

theorem selectMessages_insertMessage_ne (d : DB) (now : Nat) (sessionID other : Int)
    (role content : String) (h : sessionID ≠ other) :
    (d.insertMessage now sessionID role content).2.selectMessages other =
      d.selectMessages other := by
  simp [DB.insertMessage, DB.selectMessages, List.filter_append, List.filter_cons, h]

/-- Whatever the stamps, the transcript after an insertion holds the rows of the
transcript before it and the new row. -/
theorem selectMessages_insertMessage_perm (d : DB) (now : Nat) (sessionID : Int)
    (role content : String) :
    ((d.insertMessage now sessionID role content).2.selectMessages sessionID).Perm
      (d.selectMessages sessionID ++ [(d.insertMessage now sessionID role content).1]) := by
  refine (selectMessages_perm _ _).trans ?_
  have hf : (d.insertMessage now sessionID role content).2.debate_messages.filter
        (fun m => decide (m.SessionID = sessionID)) =
      d.debate_messages.filter (fun m => decide (m.SessionID = sessionID)) ++
        [(d.insertMessage now sessionID role content).1] := by
    simp [DB.insertMessage, List.filter_append, List.filter_cons]
  rw [hf]
  exact List.Perm.append_right _ (selectMessages_perm d sessionID).symm

theorem roleCount_perm (role : String) (l1 l2 : List DebateMessage) (h : l1.Perm l2) :
    roleCount role l1 = roleCount role l2 :=
  h.countP_eq _

/-- Whatever the stamps, an insertion adds one to the count of its role in the
transcript of its session and leaves the other counts as they were. -/
theorem roleCount_insertMessage (d : DB) (now : Nat) (sessionID : Int) (role content : String)
    (counted : String) :
    roleCount counted ((d.insertMessage now sessionID role content).2.selectMessages sessionID) =
      roleCount counted (d.selectMessages sessionID) + (if role = counted then 1 else 0) := by
  unfold roleCount
  rw [(selectMessages_perm _ _).countP_eq, (selectMessages_perm _ _).countP_eq]
  simp [DB.insertMessage, List.filter_append, List.filter_cons, List.countP_append,
    List.countP_cons]

/-- A row stamped with the clock reading keeps the stamps of the session at or
below that reading. -/
theorem timely_insertMessage (d : DB) (now : Nat) (sessionID : Int) (role content : String)
    (h : d.Timely sessionID now) :
    (d.insertMessage now sessionID role content).2.Timely sessionID now := by
  intro m hm hid
  simp only [DB.insertMessage, List.mem_append, List.mem_singleton] at hm
  rcases hm with hm | hm
  · exact h m hm hid
  · rw [hm]

/-- The length of the transcript after an insertion. -/
theorem length_insertMessage (d : DB) (now : Nat) (sessionID : Int) (role content : String) :
    ((d.insertMessage now sessionID role content).2.selectMessages sessionID).length =
      (d.selectMessages sessionID).length + 1 := by
  rw [(selectMessages_perm _ _).length_eq, (selectMessages_perm _ _).length_eq]
  simp [DB.insertMessage, List.filter_append, List.filter_cons]

theorem roleCount_append_one (role : String) (messages : List DebateMessage) (m : DebateMessage) :
    roleCount role (messages ++ [m]) =
      roleCount role messages + (if m.Role = role then 1 else 0) := by
  simp [roleCount, List.countP_append, List.countP_cons]

/-- Whatever the environment does, a step either leaves the database as it
is or inserts one message for the session: below the cap, of role `llm1` when
`llm1` has at most as many messages as `llm2`, and of role `llm2` otherwise. -/
theorem step_db_cases (s : Service) (env : Env) (w : World) (sessionID : Int) :
    (s.ProcessLLMDebateStep env w sessionID).2.db = w.db ∨
    ∃ response,
      ¬ (5 ≤ roleCount "llm1" (transcript w sessionID) ∧
          5 ≤ roleCount "llm2" (transcript w sessionID)) ∧
      (s.ProcessLLMDebateStep env w sessionID).2.db =
        (w.db.insertMessage env.now sessionID
          (if roleCount "llm1" (transcript w sessionID) ≤ roleCount "llm2" (transcript w sessionID)
            then "llm1" else "llm2") response).2 := by
  unfold Service.ProcessLLMDebateStep
  simp only [DB.GetDebateSession, DB.GetSessionMessages, Client.ChatCompletion, DB.CreateMessage,
    World.log, countLLM_eq, transcript]
  by_cases hf1 : env.fails (Call.GetDebateSession sessionID) = true
  · simp [hf1]
  · simp only [hf1]
    cases hsel : w.db.selectSession sessionID with
    | none => simp
    | some session0 =>
      simp only [Bool.false_eq_true, if_false]
      by_cases hst : session0.Status ≠ "active" ∧ session0.Status ≠ "ongoing"
      · simp [hst]
      · simp only [hst, if_false]
        by_cases hf2 : env.fails (Call.GetSessionMessages sessionID) = true
        · simp [hf2]
        · simp only [hf2]
          by_cases hcap : 5 ≤ roleCount "llm1" (w.db.selectMessages sessionID) ∧
              5 ≤ roleCount "llm2" (w.db.selectMessages sessionID)
          · simp [hcap]
          · simp only [ge_iff_le, hcap, if_false, Bool.false_eq_true]
            by_cases hle : roleCount "llm1" (w.db.selectMessages sessionID) ≤
                roleCount "llm2" (w.db.selectMessages sessionID)
            · simp only [hle, if_true]
              generalize Service.buildLLMMessages
                { session0 with LLM1Position := "pro", LLM2Position := "con" }
                (w.db.selectMessages sessionID) "llm1" = prompt
              cases hc : s.client.complete env prompt none with
              | error e => simp
              | ok response =>
                by_cases hf3 : env.fails (Call.CreateMessage sessionID "llm1" response) = true
                · simp [hf3]
                · simp only [hf3]
                  exact Or.inr ⟨response, by simp⟩
            · simp only [hle, if_false]
              generalize Service.buildLLMMessages
                { session0 with LLM1Position := "pro", LLM2Position := "con" }
                (w.db.selectMessages sessionID) "llm2" = prompt
              cases hc : s.client.complete env prompt none with
              | error e => simp
              | ok response =>
                by_cases hf3 : env.fails (Call.CreateMessage sessionID "llm2" response) = true
                · simp [hf3]
                · simp only [hf3]
                  exact Or.inr ⟨response, by simp⟩

theorem buildLLMMessages_foldl (role : String) (messages : List DebateMessage)
    (init : List Message) :
    messages.foldl
      (fun llmMessages msg =>
        if msg.Role = "system" then llmMessages
        else
          llmMessages ++
            [{ Role := if msg.Role = role then "assistant" else "user", Content := msg.Content }])
      init =
    init ++ (messages.filter (fun m => decide (m.Role ≠ "system"))).map
      (fun m => { Role := if m.Role = role then "assistant" else "user", Content := m.Content }) := by
  induction messages generalizing init with
  | nil => simp
  | cons m ms ih =>
    simp only [List.foldl_cons]
    by_cases h : m.Role = "system"
    · simp [h, ih]
    · simp [h, ih, List.filter_cons]

/-- The list `buildLLMMessages` returns: the system instruction, then the
transcript without its system messages, relabelled. -/
theorem buildLLMMessages_eq (session : DebateSession) (messages : List DebateMessage)
    (role : String) :
    Service.buildLLMMessages session messages role =
      { Role := "system"
        Content := llmSystemPrompt session.Topic
          (if (if role = "llm" then session.LLMPosition
               else if role = "llm1" then session.LLM1Position
               else session.LLM2Position) = "con" then "反対" else "賛成") } ::
      (messages.filter (fun m => decide (m.Role ≠ "system"))).map
        (fun m => { Role := if m.Role = role then "assistant" else "user", Content := m.Content }) := by
  unfold Service.buildLLMMessages
  simp only [buildLLMMessages_foldl]
  rfl

theorem buildLLMMessages_length_ne (session : DebateSession) (messages : List DebateMessage)
    (role : String) : (Service.buildLLMMessages session messages role).length ≠ 0 := by
  rw [buildLLMMessages_eq]
  simp

theorem complete_healthy (s : Service) (env : Env) (hh : Healthy s env) (messages : List Message)
    (hne : messages.length ≠ 0) (schemaName : Option String) :
    s.client.complete env messages schemaName =
      .ok (firstChoice env messages schemaName) := by
  obtain ⟨hm, -, hr⟩ := hh
  obtain ⟨choice, rest, hreq⟩ := hr messages schemaName
  simp [Client.complete, hm, hne, firstChoice, hreq]

/-- A step with the store and the provider succeeding, on an active session:
at the cap nothing is stored and the flag is set; below the cap the reply of
the agent whose turn it is is stored and returned with the flag computed from
the counts before the call. -/
theorem step_healthy (s : Service) (env : Env) (w : World) (sessionID : Int)
    (session0 : DebateSession) (hh : Healthy s env)
    (hsel : w.db.selectSession sessionID = some session0)
    (hact : session0.Status = "active" ∨ session0.Status = "ongoing") :
    (5 ≤ roleCount "llm1" (transcript w sessionID) ∧ 5 ≤ roleCount "llm2" (transcript w sessionID) →
      (s.ProcessLLMDebateStep env w sessionID).1 = .ok (none, none, true) ∧
      (s.ProcessLLMDebateStep env w sessionID).2.db = w.db) ∧
    (¬ (5 ≤ roleCount "llm1" (transcript w sessionID) ∧
          5 ≤ roleCount "llm2" (transcript w sessionID)) →
      ∃ response,
        (s.ProcessLLMDebateStep env w sessionID).2.db =
          (w.db.insertMessage env.now sessionID
            (if roleCount "llm1" (transcript w sessionID) ≤ roleCount "llm2" (transcript w sessionID)
              then "llm1" else "llm2") response).2 ∧
        (s.ProcessLLMDebateStep env w sessionID).1 =
          .ok (if roleCount "llm1" (transcript w sessionID) ≤
                  roleCount "llm2" (transcript w sessionID) then
                (some (w.db.insertMessage env.now sessionID "llm1" response).1, none,
                  decide (4 ≤ roleCount "llm1" (transcript w sessionID)) &&
                    decide (5 ≤ roleCount "llm2" (transcript w sessionID)))
              else
                (none, some (w.db.insertMessage env.now sessionID "llm2" response).1,
                  decide (5 ≤ roleCount "llm1" (transcript w sessionID)) &&
                    decide (4 ≤ roleCount "llm2" (transcript w sessionID))))) := by
  have hst : ¬ (session0.Status ≠ "active" ∧ session0.Status ≠ "ongoing") := by
    rintro ⟨h1, h2⟩
    exact hact.elim h1 h2
  have hf := hh.2.1
  unfold Service.ProcessLLMDebateStep
  simp only [DB.GetDebateSession, DB.GetSessionMessages, Client.ChatCompletion, DB.CreateMessage,
    World.log, countLLM_eq, transcript, hf, hsel, hst, Bool.false_eq_true, if_false, ge_iff_le,
    complete_healthy s env hh _ (buildLLMMessages_length_ne _ _ _)]
  constructor
  · intro hcap
    simp [hcap]
  · intro hcap
    simp only [hcap, if_false]
    by_cases hle : roleCount "llm1" (w.db.selectMessages sessionID) ≤
        roleCount "llm2" (w.db.selectMessages sessionID)
    · simp only [hle, if_true]
      exact ⟨_, rfl, rfl⟩
    · simp only [hle, if_false]
      exact ⟨_, rfl, rfl⟩

/-- A step that returns without error on an active session either found the
debate at its cap (nothing stored, flag set) or stored and returned the reply
of the agent whose turn it was, with the flag computed from the counts before
the call. -/
theorem step_ok_cases (s : Service) (env : Env) (w : World) (sessionID : Int)
    (session0 : DebateSession)
    (hsel : w.db.selectSession sessionID = some session0)
    (hact : session0.Status = "active" ∨ session0.Status = "ongoing")
    (r : Option DebateMessage × Option DebateMessage × Bool)
    (hok : (s.ProcessLLMDebateStep env w sessionID).1 = .ok r) :
    ((5 ≤ roleCount "llm1" (transcript w sessionID) ∧
        5 ≤ roleCount "llm2" (transcript w sessionID)) ∧
      r = (none, none, true) ∧ (s.ProcessLLMDebateStep env w sessionID).2.db = w.db) ∨
    (¬ (5 ≤ roleCount "llm1" (transcript w sessionID) ∧
          5 ≤ roleCount "llm2" (transcript w sessionID)) ∧
      ∃ response,
        (s.ProcessLLMDebateStep env w sessionID).2.db =
          (w.db.insertMessage env.now sessionID
            (if roleCount "llm1" (transcript w sessionID) ≤ roleCount "llm2" (transcript w sessionID)
              then "llm1" else "llm2") response).2 ∧
        r = (if roleCount "llm1" (transcript w sessionID) ≤
                  roleCount "llm2" (transcript w sessionID) then
                (some (w.db.insertMessage env.now sessionID "llm1" response).1, none,
                  decide (4 ≤ roleCount "llm1" (transcript w sessionID)) &&
                    decide (5 ≤ roleCount "llm2" (transcript w sessionID)))
              else
                (none, some (w.db.insertMessage env.now sessionID "llm2" response).1,
                  decide (5 ≤ roleCount "llm1" (transcript w sessionID)) &&
                    decide (4 ≤ roleCount "llm2" (transcript w sessionID))))) := by
  have hst : ¬ (session0.Status ≠ "active" ∧ session0.Status ≠ "ongoing") := by
    rintro ⟨h1, h2⟩
    exact hact.elim h1 h2
  by_cases hf1 : env.fails (Call.GetDebateSession sessionID) = true
  · simp [Service.ProcessLLMDebateStep, DB.GetDebateSession, hf1] at hok
  by_cases hf2 : env.fails (Call.GetSessionMessages sessionID) = true
  · simp [Service.ProcessLLMDebateStep, World.log, DB.GetDebateSession, DB.GetSessionMessages, hf1, hf2,
      hsel, hst] at hok
  by_cases hcap : 5 ≤ roleCount "llm1" (w.db.selectMessages sessionID) ∧
      5 ≤ roleCount "llm2" (w.db.selectMessages sessionID)
  · left
    simp [Service.ProcessLLMDebateStep, World.log, DB.GetDebateSession, DB.GetSessionMessages, hf1, hf2,
      hsel, hst, countLLM_eq, hcap, World.log, transcript] at hok ⊢
    exact hok.symm
  right
  by_cases hle : roleCount "llm1" (w.db.selectMessages sessionID) ≤
      roleCount "llm2" (w.db.selectMessages sessionID)
  · cases hc : s.client.complete env (Service.buildLLMMessages
        { session0 with LLM1Position := "pro", LLM2Position := "con" }
        (w.db.selectMessages sessionID) "llm1") none with
    | error e =>
      simp [Service.ProcessLLMDebateStep, World.log, DB.GetDebateSession, DB.GetSessionMessages, hf1, hf2,
        hsel, hst, countLLM_eq, hcap, hle, Client.ChatCompletion, hc] at hok
    | ok response =>
      by_cases hf3 : env.fails (Call.CreateMessage sessionID "llm1" response) = true
      · simp [Service.ProcessLLMDebateStep, World.log, DB.GetDebateSession, DB.GetSessionMessages, hf1, hf2,
          hsel, hst, countLLM_eq, hcap, hle, Client.ChatCompletion, hc, DB.CreateMessage, hf3] at hok
      · refine ⟨by simpa [transcript] using hcap, response, ?_⟩
        simp [Service.ProcessLLMDebateStep, World.log, DB.GetDebateSession, DB.GetSessionMessages, hf1, hf2,
          hsel, hst, countLLM_eq, hcap, hle, Client.ChatCompletion, hc, DB.CreateMessage, hf3,
          World.log, transcript] at hok ⊢
        exact hok.symm
  · cases hc : s.client.complete env (Service.buildLLMMessages
        { session0 with LLM1Position := "pro", LLM2Position := "con" }
        (w.db.selectMessages sessionID) "llm2") none with
    | error e =>
      simp [Service.ProcessLLMDebateStep, World.log, DB.GetDebateSession, DB.GetSessionMessages, hf1, hf2,
        hsel, hst, countLLM_eq, hcap, hle, Client.ChatCompletion, hc] at hok
    | ok response =>
      by_cases hf3 : env.fails (Call.CreateMessage sessionID "llm2" response) = true
      · simp [Service.ProcessLLMDebateStep, World.log, DB.GetDebateSession, DB.GetSessionMessages, hf1, hf2,
          hsel, hst, countLLM_eq, hcap, hle, Client.ChatCompletion, hc, DB.CreateMessage, hf3] at hok
      · refine ⟨by simpa [transcript] using hcap, response, ?_⟩
        simp [Service.ProcessLLMDebateStep, World.log, DB.GetDebateSession, DB.GetSessionMessages, hf1, hf2,
          hsel, hst, countLLM_eq, hcap, hle, Client.ChatCompletion, hc, DB.CreateMessage, hf3,
          World.log, transcript] at hok ⊢
        exact hok.symm

/-- C1 (turn order). On an active session whose agents have not both reached
5 messages, a step with the store and the provider succeeding returns without
error and appends exactly one message to the message table; that message
belongs to the session, is returned in the slot of its role, and has role
`llm1` if `llm1` has at most as many messages as `llm2` and role `llm2`
otherwise. The transcript read afterwards holds the rows of the transcript
before and the new message; the new message is its last row when no stored
message of the session is stamped after the clock reading of the call. -/
theorem turn_order (s : Service) (env : Env) (w : World) (sessionID : Int)
    (session0 : DebateSession) (hh : Healthy s env)
    (hsel : w.db.selectSession sessionID = some session0)
    (hact : session0.Status = "active" ∨ session0.Status = "ongoing")
    (hcap : ¬ (5 ≤ roleCount "llm1" (transcript w sessionID) ∧
                5 ≤ roleCount "llm2" (transcript w sessionID))) :
    ∃ msg finished,
      (s.ProcessLLMDebateStep env w sessionID).2.db.debate_messages =
        w.db.debate_messages ++ [msg] ∧
      (transcript (s.ProcessLLMDebateStep env w sessionID).2 sessionID).Perm
        (transcript w sessionID ++ [msg]) ∧
      (w.db.Timely sessionID env.now →
        transcript (s.ProcessLLMDebateStep env w sessionID).2 sessionID =
          transcript w sessionID ++ [msg]) ∧
      msg.SessionID = sessionID ∧
      msg.Role =
        (if roleCount "llm1" (transcript w sessionID) ≤ roleCount "llm2" (transcript w sessionID)
          then "llm1" else "llm2") ∧
      (s.ProcessLLMDebateStep env w sessionID).1 =
        .ok (if msg.Role = "llm1" then (some msg, none, finished) else (none, some msg, finished)) := by
  obtain ⟨response, hdb, hres⟩ := (step_healthy s env w sessionID session0 hh hsel hact).2 hcap
  by_cases hle : roleCount "llm1" (transcript w sessionID) ≤ roleCount "llm2" (transcript w sessionID)
  · simp only [hle, if_true] at hdb hres ⊢
    refine ⟨(w.db.insertMessage env.now sessionID "llm1" response).1,
      decide (4 ≤ roleCount "llm1" (transcript w sessionID)) &&
        decide (5 ≤ roleCount "llm2" (transcript w sessionID)), ?_, ?_, ?_, rfl, rfl, ?_⟩
    · rw [hdb]; rfl
    · unfold transcript
      rw [hdb]
      exact selectMessages_insertMessage_perm _ _ _ _ _
    · intro htime
      unfold transcript
      rw [hdb, selectMessages_insertMessage _ _ _ _ _ htime]
    · rw [hres]; simp [DB.insertMessage]
  · simp only [hle, if_false] at hdb hres ⊢
    refine ⟨(w.db.insertMessage env.now sessionID "llm2" response).1,
      decide (5 ≤ roleCount "llm1" (transcript w sessionID)) &&
        decide (4 ≤ roleCount "llm2" (transcript w sessionID)), ?_, ?_, ?_, rfl, rfl, ?_⟩
    · rw [hdb]; rfl
    · unfold transcript
      rw [hdb]
      exact selectMessages_insertMessage_perm _ _ _ _ _
    · intro htime
      unfold transcript
      rw [hdb, selectMessages_insertMessage _ _ _ _ _ htime]
    · rw [hres]; simp [DB.insertMessage]

theorem demo_healthy (answer : String) : Healthy demoService (demoEnv answer) :=
  ⟨by decide, fun _ => rfl, fun _ _ => ⟨answer, [], rfl⟩⟩

/-- Witness of C1: the first step on a fresh session, whose briefing is stamped
before the clock reading of the step. -/
theorem turn_order_witness :
    freshWorld.db.Timely 1 (demoEnv "a").now ∧
    ∃ msg finished,
      (demoService.ProcessLLMDebateStep (demoEnv "a") freshWorld 1).2.db.debate_messages =
        freshWorld.db.debate_messages ++ [msg] ∧
      transcript (demoService.ProcessLLMDebateStep (demoEnv "a") freshWorld 1).2 1 =
        transcript freshWorld 1 ++ [msg] ∧
      msg.SessionID = 1 ∧
      msg.Role =
        (if roleCount "llm1" (transcript freshWorld 1) ≤ roleCount "llm2" (transcript freshWorld 1)
          then "llm1" else "llm2") ∧
      (demoService.ProcessLLMDebateStep (demoEnv "a") freshWorld 1).1 =
        .ok (if msg.Role = "llm1" then (some msg, none, finished) else (none, some msg, finished)) :=
  ⟨by decide,
   match turn_order demoService (demoEnv "a") freshWorld 1
      (demoRow "llm_vs_llm" "" "active" none).scan
      (demo_healthy "a") (by decide) (Or.inl (by decide)) (by decide) with
   | ⟨msg, finished, htable, _, hlast, hid, hrole, hres⟩ =>
     ⟨msg, finished, htable, hlast (by decide), hid, hrole, hres⟩⟩

/-- The transcript after a step, whatever the environment does: unchanged, or
(below the cap only) extended by one message of the role whose turn it is. -/
theorem step_transcript_cases (s : Service) (env : Env) (w : World) (sessionID : Int) :
    transcript (s.ProcessLLMDebateStep env w sessionID).2 sessionID = transcript w sessionID ∨
    (¬ (5 ≤ roleCount "llm1" (transcript w sessionID) ∧
          5 ≤ roleCount "llm2" (transcript w sessionID)) ∧
      ∃ msg : DebateMessage,
        msg.Role =
          (if roleCount "llm1" (transcript w sessionID) ≤ roleCount "llm2" (transcript w sessionID)
            then "llm1" else "llm2") ∧
        (s.ProcessLLMDebateStep env w sessionID).2.db.debate_messages =
          w.db.debate_messages ++ [msg] ∧
        (transcript (s.ProcessLLMDebateStep env w sessionID).2 sessionID).Perm
          (transcript w sessionID ++ [msg])) := by
  rcases step_db_cases s env w sessionID with h | ⟨response, hcap, h⟩
  · left
    unfold transcript
    rw [h]
  · right
    refine ⟨hcap, (w.db.insertMessage env.now sessionID
      (if roleCount "llm1" (transcript w sessionID) ≤ roleCount "llm2" (transcript w sessionID)
        then "llm1" else "llm2") response).1, rfl, ?_, ?_⟩
    · rw [h]; rfl
    · unfold transcript at h ⊢
      rw [h]
      exact selectMessages_insertMessage_perm _ _ _ _ _

theorem balanced_iff (messages : List DebateMessage) :
    Balanced messages ↔
      roleCount "llm1" messages ≤ roleCount "llm2" messages + 1 ∧
      roleCount "llm2" messages ≤ roleCount "llm1" messages + 1 := by
  unfold Balanced
  rw [abs_le]
  omega

/-- The counts after a step in terms of the counts before it. -/
theorem step_counts_cases (s : Service) (env : Env) (w : World) (sessionID : Int) :
    (roleCount "llm1" (transcript (s.ProcessLLMDebateStep env w sessionID).2 sessionID) =
        roleCount "llm1" (transcript w sessionID) ∧
      roleCount "llm2" (transcript (s.ProcessLLMDebateStep env w sessionID).2 sessionID) =
        roleCount "llm2" (transcript w sessionID)) ∨
    (roleCount "llm1" (transcript w sessionID) ≤ roleCount "llm2" (transcript w sessionID) ∧
      roleCount "llm1" (transcript w sessionID) < 5 ∧
      roleCount "llm1" (transcript (s.ProcessLLMDebateStep env w sessionID).2 sessionID) =
        roleCount "llm1" (transcript w sessionID) + 1 ∧
      roleCount "llm2" (transcript (s.ProcessLLMDebateStep env w sessionID).2 sessionID) =
        roleCount "llm2" (transcript w sessionID)) ∨
    (roleCount "llm2" (transcript w sessionID) < roleCount "llm1" (transcript w sessionID) ∧
      roleCount "llm2" (transcript w sessionID) < 5 ∧
      roleCount "llm1" (transcript (s.ProcessLLMDebateStep env w sessionID).2 sessionID) =
        roleCount "llm1" (transcript w sessionID) ∧
      roleCount "llm2" (transcript (s.ProcessLLMDebateStep env w sessionID).2 sessionID) =
        roleCount "llm2" (transcript w sessionID) + 1) := by
  rcases step_transcript_cases s env w sessionID with h | ⟨hcap, msg, hrole, -, h⟩
  · left
    rw [h]
    exact ⟨rfl, rfl⟩
  · right
    rw [roleCount_perm _ _ _ h, roleCount_perm _ _ _ h, roleCount_append_one,
      roleCount_append_one]
    by_cases hle : roleCount "llm1" (transcript w sessionID) ≤ roleCount "llm2" (transcript w sessionID)
    · left
      rw [if_pos hle] at hrole
      have h2 : ¬ ("llm1" = "llm2") := by decide
      simp only [hrole, h2, if_true, if_false, eq_self_iff_true, true_and, and_true, add_zero]
      omega
    · right
      rw [if_neg hle] at hrole
      have h2 : ¬ ("llm2" = "llm1") := by decide
      simp only [hrole, h2, if_true, if_false, eq_self_iff_true, true_and, and_true, add_zero]
      omega

/-- C2 (completion signal). On an active session a step with the store and
the provider succeeding returns without error, and the finished flag of every
step that returns without error is true exactly when, in the transcript as it
stands after the call, both `llm1` and `llm2` have at least 5 messages. -/
theorem completion_signal (s : Service) (env : Env) (w : World) (sessionID : Int)
    (session0 : DebateSession)
    (hsel : w.db.selectSession sessionID = some session0)
    (hact : session0.Status = "active" ∨ session0.Status = "ongoing") :
    (Healthy s env → ∃ r, (s.ProcessLLMDebateStep env w sessionID).1 = .ok r) ∧
    ∀ m1 m2 finished, (s.ProcessLLMDebateStep env w sessionID).1 = .ok (m1, m2, finished) →
      (finished = true ↔
        5 ≤ roleCount "llm1" (transcript (s.ProcessLLMDebateStep env w sessionID).2 sessionID) ∧
        5 ≤ roleCount "llm2" (transcript (s.ProcessLLMDebateStep env w sessionID).2 sessionID)) := by
  constructor
  · intro hh
    have h := step_healthy s env w sessionID session0 hh hsel hact
    by_cases hcap : 5 ≤ roleCount "llm1" (transcript w sessionID) ∧
        5 ≤ roleCount "llm2" (transcript w sessionID)
    · exact ⟨_, (h.1 hcap).1⟩
    · obtain ⟨response, -, hres⟩ := h.2 hcap
      exact ⟨_, hres⟩
  · intro m1 m2 finished hok
    rcases step_ok_cases s env w sessionID session0 hsel hact _ hok with
      ⟨hcap, hr, hdb⟩ | ⟨hcap, response, hdb, hr⟩
    · have hf : finished = true := by
        have := congrArg (fun x => x.2.2) hr
        simpa using this
      unfold transcript at hcap ⊢
      rw [hdb]
      simp [hf, hcap]
    · unfold transcript at hcap hdb hr ⊢
      rw [hdb, roleCount_insertMessage, roleCount_insertMessage]
      by_cases hle : roleCount "llm1" (w.db.selectMessages sessionID) ≤
          roleCount "llm2" (w.db.selectMessages sessionID)
      · rw [if_pos hle] at hr
        have hf := congrArg (fun x => x.2.2) hr
        simp only at hf
        simp only [hle, if_true, DB.insertMessage, hf, Bool.and_eq_true, decide_eq_true_eq]
        have h2 : ¬ ("llm1" = "llm2") := by decide
        simp only [h2, if_false, if_true, eq_self_iff_true]
        omega
      · rw [if_neg hle] at hr
        have hf := congrArg (fun x => x.2.2) hr
        simp only at hf
        simp only [hle, if_false, DB.insertMessage, hf, Bool.and_eq_true, decide_eq_true_eq]
        have h2 : ¬ ("llm2" = "llm1") := by decide
        simp only [h2, if_false, if_true, eq_self_iff_true]
        omega

/-- Witness of C2: the first step on a fresh session succeeds, stores the
first `llm1` message and returns the flag false. -/
theorem completion_signal_witness :
    (∃ r, (demoService.ProcessLLMDebateStep (demoEnv "a") freshWorld 1).1 = .ok r) ∧
    ((false = true) ↔
      5 ≤ roleCount "llm1"
        (transcript (demoService.ProcessLLMDebateStep (demoEnv "a") freshWorld 1).2 1) ∧
      5 ≤ roleCount "llm2"
        (transcript (demoService.ProcessLLMDebateStep (demoEnv "a") freshWorld 1).2 1)) :=
  ⟨(completion_signal demoService (demoEnv "a") freshWorld 1
      (demoRow "llm_vs_llm" "" "active" none).scan (by decide) (Or.inl (by decide))).1
      (demo_healthy "a"),
   (completion_signal demoService (demoEnv "a") freshWorld 1
      (demoRow "llm_vs_llm" "" "active" none).scan (by decide) (Or.inl (by decide))).2
      (some { ID := 2, SessionID := 1, Role := "llm1", Content := "a", CreatedAt := 7 })
      none false rfl⟩

theorem runSteps_counts (s : Service) (sessionID : Int) (envs : Nat → Env) (w : World)
    (P : Nat → Nat → Prop)
    (h0 : P (roleCount "llm1" (transcript w sessionID)) (roleCount "llm2" (transcript w sessionID)))
    (hstep : ∀ a b, P a b →
      (a ≤ b → a < 5 → P (a + 1) b) ∧ (b < a → b < 5 → P a (b + 1))) (n : Nat) :
    P (roleCount "llm1" (transcript (s.runSteps sessionID envs n w) sessionID))
      (roleCount "llm2" (transcript (s.runSteps sessionID envs n w) sessionID)) := by
  induction n with
  | zero => exact h0
  | succ n ih =>
    simp only [Service.runSteps]
    rcases step_counts_cases s (envs n) (s.runSteps sessionID envs n w) sessionID with
      ⟨h1, h2⟩ | ⟨hle, hlt, h1, h2⟩ | ⟨hle, hlt, h1, h2⟩
    · rw [h1, h2]; exact ih
    · rw [h1, h2]; exact (hstep _ _ ih).1 hle hlt
    · rw [h1, h2]; exact (hstep _ _ ih).2 hle hlt

/-- C3 (balance invariant). The predicate `|count(llm1) - count(llm2)| ≤ 1`
holds for the empty transcript, is preserved by every step (whatever the
store and the provider do), and therefore holds after any number of steps on
a session that started without agent messages. -/
theorem balance_invariant :
    Balanced [] ∧
    (∀ (s : Service) (env : Env) (w : World) (sessionID : Int),
      Balanced (transcript w sessionID) →
      Balanced (transcript (s.ProcessLLMDebateStep env w sessionID).2 sessionID)) ∧
    (∀ (s : Service) (envs : Nat → Env) (w : World) (sessionID : Int) (n : Nat),
      roleCount "llm1" (transcript w sessionID) = 0 →
      roleCount "llm2" (transcript w sessionID) = 0 →
      Balanced (transcript (s.runSteps sessionID envs n w) sessionID)) := by
  refine ⟨?_, ?_, ?_⟩
  · rw [balanced_iff]
    simp [roleCount]
  · intro s env w sessionID hb
    rw [balanced_iff] at hb ⊢
    rcases step_counts_cases s env w sessionID with
      ⟨h1, h2⟩ | ⟨hle, hlt, h1, h2⟩ | ⟨hle, hlt, h1, h2⟩ <;> omega
  · intro s envs w sessionID n h1 h2
    rw [balanced_iff]
    refine runSteps_counts s sessionID envs w (fun a b => a ≤ b + 1 ∧ b ≤ a + 1) ?_ ?_ n
    · simp only []
      omega
    · intro a b hab
      simp only [] at hab ⊢
      constructor <;> intros <;> omega

/-- Witness of C3: one step on a fresh session, and three steps on it. -/
theorem balance_invariant_witness :
    Balanced (transcript freshWorld 1) ∧
    Balanced (transcript (demoService.ProcessLLMDebateStep (demoEnv "a") freshWorld 1).2 1) ∧
    Balanced (transcript (demoService.runSteps 1 (fun _ => demoEnv "a") 3 freshWorld) 1) :=
  ⟨by decide,
   balance_invariant.2.1 demoService (demoEnv "a") freshWorld 1 (by decide),
   balance_invariant.2.2 demoService (fun _ => demoEnv "a") freshWorld 1 3 (by decide) (by decide)⟩

/-- C4 (round cap). A message appended by a step is an agent message of the
session whose author had strictly fewer than 5 messages before the call;
hence counts of at most 5 stay at most 5 across a step, and no number of steps
on a session that started without agent messages gives an agent more than 5
messages. -/
theorem round_cap :
    (∀ (s : Service) (env : Env) (w : World) (sessionID : Int) (msg : DebateMessage),
      (s.ProcessLLMDebateStep env w sessionID).2.db.debate_messages =
        w.db.debate_messages ++ [msg] →
      (msg.Role = "llm1" ∨ msg.Role = "llm2") ∧ msg.SessionID = sessionID ∧
        roleCount msg.Role (transcript w sessionID) < 5) ∧
    (∀ (s : Service) (env : Env) (w : World) (sessionID : Int),
      roleCount "llm1" (transcript w sessionID) ≤ 5 →
      roleCount "llm2" (transcript w sessionID) ≤ 5 →
      roleCount "llm1" (transcript (s.ProcessLLMDebateStep env w sessionID).2 sessionID) ≤ 5 ∧
      roleCount "llm2" (transcript (s.ProcessLLMDebateStep env w sessionID).2 sessionID) ≤ 5) ∧
    (∀ (s : Service) (envs : Nat → Env) (w : World) (sessionID : Int) (n : Nat),
      roleCount "llm1" (transcript w sessionID) = 0 →
      roleCount "llm2" (transcript w sessionID) = 0 →
      roleCount "llm1" (transcript (s.runSteps sessionID envs n w) sessionID) ≤ 5 ∧
      roleCount "llm2" (transcript (s.runSteps sessionID envs n w) sessionID) ≤ 5) := by
  refine ⟨?_, ?_, ?_⟩
  · intro s env w sessionID msg happ
    rcases step_db_cases s env w sessionID with h | ⟨response, hcap, h⟩
    · rw [h] at happ
      simp at happ
    · rw [h] at happ
      simp only [DB.insertMessage, List.append_cancel_left_eq, List.cons.injEq, and_true] at happ
      subst happ
      by_cases hle : roleCount "llm1" (transcript w sessionID) ≤
          roleCount "llm2" (transcript w sessionID)
      · simp only [hle, if_true, true_or, true_and]
        omega
      · simp only [hle, if_false, or_true, true_and]
        omega
  · intro s env w sessionID h1 h2
    rcases step_counts_cases s env w sessionID with
      ⟨h1, h2⟩ | ⟨hle, hlt, h1, h2⟩ | ⟨hle, hlt, h1, h2⟩ <;> omega
  · intro s envs w sessionID n h1 h2
    refine runSteps_counts s sessionID envs w (fun a b => a ≤ 5 ∧ b ≤ 5) ?_ ?_ n
    · simp only []
      omega
    · intro a b hab
      simp only [] at hab ⊢
      constructor <;> intros <;> omega

/-- Witness of C4: the first step on a fresh session appends an `llm1`
message while `llm1` has no message yet; one step and twelve steps keep both
counts at most 5. -/
theorem round_cap_witness :
    (((({ ID := 2, SessionID := 1, Role := "llm1", Content := "a", CreatedAt := 7 } :
            DebateMessage).Role = "llm1" ∨
        ({ ID := 2, SessionID := 1, Role := "llm1", Content := "a", CreatedAt := 7 } :
            DebateMessage).Role = "llm2") ∧
      ({ ID := 2, SessionID := 1, Role := "llm1", Content := "a", CreatedAt := 7 } :
          DebateMessage).SessionID = 1 ∧
      roleCount
        ({ ID := 2, SessionID := 1, Role := "llm1", Content := "a", CreatedAt := 7 } :
          DebateMessage).Role (transcript freshWorld 1) < 5)) ∧
    (roleCount "llm1"
        (transcript (demoService.ProcessLLMDebateStep (demoEnv "a") freshWorld 1).2 1) ≤ 5 ∧
      roleCount "llm2"
        (transcript (demoService.ProcessLLMDebateStep (demoEnv "a") freshWorld 1).2 1) ≤ 5) ∧
    (roleCount "llm1"
        (transcript (demoService.runSteps 1 (fun _ => demoEnv "a") 12 freshWorld) 1) ≤ 5 ∧
      roleCount "llm2"
        (transcript (demoService.runSteps 1 (fun _ => demoEnv "a") 12 freshWorld) 1) ≤ 5) :=
  ⟨round_cap.1 demoService (demoEnv "a") freshWorld 1
      { ID := 2, SessionID := 1, Role := "llm1", Content := "a", CreatedAt := 7 } rfl,
   round_cap.2.1 demoService (demoEnv "a") freshWorld 1 (by decide) (by decide),
   round_cap.2.2 demoService (fun _ => demoEnv "a") freshWorld 1 12 (by decide) (by decide)⟩

/-- A step never touches the session table. -/
theorem step_selectSession (s : Service) (env : Env) (w : World) (sessionID id : Int) :
    (s.ProcessLLMDebateStep env w sessionID).2.db.selectSession id = w.db.selectSession id := by
  rcases step_db_cases s env w sessionID with h | ⟨response, -, h⟩
  · rw [h]
  · rw [h]; rfl

/-- The state after `k ≤ 10` successful steps from a session without agent
messages: the session row is as before and the counts are `⌈k/2⌉` and
`⌊k/2⌋`. -/
theorem runSteps_from_zero (s : Service) (envs : Nat → Env) (w : World) (sessionID : Int)
    (session0 : DebateSession) (hh : ∀ k, Healthy s (envs k))
    (hsel : w.db.selectSession sessionID = some session0)
    (hact : session0.Status = "active" ∨ session0.Status = "ongoing")
    (h1 : roleCount "llm1" (transcript w sessionID) = 0)
    (h2 : roleCount "llm2" (transcript w sessionID) = 0) (k : Nat) (hk : k ≤ 10) :
    (s.runSteps sessionID envs k w).db.selectSession sessionID = some session0 ∧
    roleCount "llm1" (transcript (s.runSteps sessionID envs k w) sessionID) = (k + 1) / 2 ∧
    roleCount "llm2" (transcript (s.runSteps sessionID envs k w) sessionID) = k / 2 := by
  induction k with
  | zero => exact ⟨hsel, by simpa using h1, by simpa using h2⟩
  | succ k ih =>
    obtain ⟨ihs, ih1, ih2⟩ := ih (by omega)
    simp only [Service.runSteps]
    refine ⟨by rw [step_selectSession]; exact ihs, ?_⟩
    have hcap : ¬ (5 ≤ roleCount "llm1" (transcript (s.runSteps sessionID envs k w) sessionID) ∧
        5 ≤ roleCount "llm2" (transcript (s.runSteps sessionID envs k w) sessionID)) := by
      omega
    obtain ⟨response, hdb, -⟩ :=
      (step_healthy s (envs k) (s.runSteps sessionID envs k w) sessionID session0 (hh k) ihs
        hact).2 hcap
    unfold transcript at ih1 ih2 hdb ⊢
    rw [hdb, roleCount_insertMessage, roleCount_insertMessage, ih1, ih2]
    have h12 : ¬ ("llm1" = "llm2") := by decide
    have h21 : ¬ ("llm2" = "llm1") := by decide
    by_cases hle : (k + 1) / 2 ≤ k / 2
    · simp only [DB.insertMessage, hle, if_true, h12, if_false, eq_self_iff_true]
      omega
    · simp only [DB.insertMessage, hle, if_false, h21, if_true, eq_self_iff_true]
      omega

/-- C5 (alternation from zero). From an active session without agent messages,
with the store and the provider succeeding in every call: call `k + 1` for
`k = 0..9` appends one message, of role `llm1` when `k + 1` is odd and `llm2`
when it is even, and returns it with the finished flag false on calls 1..9 and
true on call 10; after the 10 calls there are exactly 5 `llm1` and 5 `llm2`
messages; the 11th call returns no message with finished set and changes
nothing in the database. -/
theorem alternation_from_zero (s : Service) (envs : Nat → Env) (w : World) (sessionID : Int)
    (session0 : DebateSession) (hh : ∀ k, Healthy s (envs k))
    (hsel : w.db.selectSession sessionID = some session0)
    (hact : session0.Status = "active" ∨ session0.Status = "ongoing")
    (h1 : roleCount "llm1" (transcript w sessionID) = 0)
    (h2 : roleCount "llm2" (transcript w sessionID) = 0) :
    (∀ k, k < 10 → ∃ msg,
      (s.runSteps sessionID envs (k + 1) w).db.debate_messages =
        (s.runSteps sessionID envs k w).db.debate_messages ++ [msg] ∧
      msg.SessionID = sessionID ∧
      msg.Role = (if k % 2 = 0 then "llm1" else "llm2") ∧
      (s.ProcessLLMDebateStep (envs k) (s.runSteps sessionID envs k w) sessionID).1 =
        .ok (if k % 2 = 0 then (some msg, none, decide (k = 9))
             else (none, some msg, decide (k = 9)))) ∧
    roleCount "llm1" (transcript (s.runSteps sessionID envs 10 w) sessionID) = 5 ∧
    roleCount "llm2" (transcript (s.runSteps sessionID envs 10 w) sessionID) = 5 ∧
    (s.ProcessLLMDebateStep (envs 10) (s.runSteps sessionID envs 10 w) sessionID).1 =
      .ok (none, none, true) ∧
    (s.runSteps sessionID envs 11 w).db = (s.runSteps sessionID envs 10 w).db := by
  have hrun := runSteps_from_zero s envs w sessionID session0 hh hsel hact h1 h2
  refine ⟨?_, ?_, ?_, ?_, ?_⟩
  · intro k hk
    obtain ⟨hs, hc1, hc2⟩ := hrun k (by omega)
    have hcap : ¬ (5 ≤ roleCount "llm1" (transcript (s.runSteps sessionID envs k w) sessionID) ∧
        5 ≤ roleCount "llm2" (transcript (s.runSteps sessionID envs k w) sessionID)) := by
      omega
    obtain ⟨response, hdb, hres⟩ :=
      (step_healthy s (envs k) (s.runSteps sessionID envs k w) sessionID session0 (hh k) hs
        hact).2 hcap
    rw [hc1, hc2] at hdb hres
    simp only [Service.runSteps]
    by_cases hev : k % 2 = 0
    · have hle : (k + 1) / 2 ≤ k / 2 := by omega
      simp only [hle, if_true] at hdb hres
      refine ⟨((s.runSteps sessionID envs k w).db.insertMessage (envs k).now sessionID "llm1"
        response).1, by rw [hdb]; rfl, rfl, by simp [hev, DB.insertMessage], ?_⟩
      rw [hres]
      have hf : (decide (4 ≤ (k + 1) / 2) && decide (5 ≤ k / 2)) = decide (k = 9) := by
        have hA : ¬ (5 ≤ k / 2) := by omega
        have hB : ¬ (k = 9) := by omega
        simp [hA, hB]
      simp [hev, hf]
    · have hle : ¬ ((k + 1) / 2 ≤ k / 2) := by omega
      simp only [hle, if_false] at hdb hres
      refine ⟨((s.runSteps sessionID envs k w).db.insertMessage (envs k).now sessionID "llm2"
        response).1, by rw [hdb]; rfl, rfl, by simp [hev, DB.insertMessage], ?_⟩
      rw [hres]
      have hf : (decide (5 ≤ (k + 1) / 2) && decide (4 ≤ k / 2)) = decide (k = 9) := by
        by_cases h9 : k = 9
        · subst h9; rfl
        · have hA : ¬ (5 ≤ (k + 1) / 2) := by omega
          simp [hA, h9]
      simp [hev, hf]
  · exact (hrun 10 (by omega)).2.1
  · exact (hrun 10 (by omega)).2.2
  all_goals
    obtain ⟨hs, hc1, hc2⟩ := hrun 10 (by omega)
    have hcap : 5 ≤ roleCount "llm1" (transcript (s.runSteps sessionID envs 10 w) sessionID) ∧
        5 ≤ roleCount "llm2" (transcript (s.runSteps sessionID envs 10 w) sessionID) := by
      omega
    have h := (step_healthy s (envs 10) (s.runSteps sessionID envs 10 w) sessionID session0
      (hh 10) hs hact).1 hcap
  · exact h.1
  · exact h.2

/-- Witness of C5: on a fresh session the 9th call returns an `llm1` message
with the flag false, the 10th an `llm2` message with the flag true, and the
11th nothing. -/
theorem alternation_from_zero_witness :
    (∃ msg,
      (demoService.runSteps 1 (fun _ => demoEnv "a") (8 + 1) freshWorld).db.debate_messages =
        (demoService.runSteps 1 (fun _ => demoEnv "a") 8 freshWorld).db.debate_messages ++ [msg] ∧
      msg.SessionID = 1 ∧
      msg.Role = (if 8 % 2 = 0 then "llm1" else "llm2") ∧
      (demoService.ProcessLLMDebateStep (demoEnv "a")
          (demoService.runSteps 1 (fun _ => demoEnv "a") 8 freshWorld) 1).1 =
        .ok (if 8 % 2 = 0 then (some msg, none, decide (8 = 9))
             else (none, some msg, decide (8 = 9)))) ∧
    (∃ msg,
      (demoService.runSteps 1 (fun _ => demoEnv "a") (9 + 1) freshWorld).db.debate_messages =
        (demoService.runSteps 1 (fun _ => demoEnv "a") 9 freshWorld).db.debate_messages ++ [msg] ∧
      msg.SessionID = 1 ∧
      msg.Role = (if 9 % 2 = 0 then "llm1" else "llm2") ∧
      (demoService.ProcessLLMDebateStep (demoEnv "a")
          (demoService.runSteps 1 (fun _ => demoEnv "a") 9 freshWorld) 1).1 =
        .ok (if 9 % 2 = 0 then (some msg, none, decide (9 = 9))
             else (none, some msg, decide (9 = 9)))) ∧
    roleCount "llm1" (transcript (demoService.runSteps 1 (fun _ => demoEnv "a") 10 freshWorld) 1) = 5 ∧
    roleCount "llm2" (transcript (demoService.runSteps 1 (fun _ => demoEnv "a") 10 freshWorld) 1) = 5 ∧
    (demoService.ProcessLLMDebateStep (demoEnv "a")
        (demoService.runSteps 1 (fun _ => demoEnv "a") 10 freshWorld) 1).1 =
      .ok (none, none, true) ∧
    (demoService.runSteps 1 (fun _ => demoEnv "a") 11 freshWorld).db =
      (demoService.runSteps 1 (fun _ => demoEnv "a") 10 freshWorld).db :=
  ⟨(alternation_from_zero demoService (fun _ => demoEnv "a") freshWorld 1
      (demoRow "llm_vs_llm" "" "active" none).scan (fun _ => demo_healthy "a") (by decide)
      (Or.inl (by decide)) (by decide) (by decide)).1 8 (by decide),
   (alternation_from_zero demoService (fun _ => demoEnv "a") freshWorld 1
      (demoRow "llm_vs_llm" "" "active" none).scan (fun _ => demo_healthy "a") (by decide)
      (Or.inl (by decide)) (by decide) (by decide)).1 9 (by decide),
   (alternation_from_zero demoService (fun _ => demoEnv "a") freshWorld 1
      (demoRow "llm_vs_llm" "" "active" none).scan (fun _ => demo_healthy "a") (by decide)
      (Or.inl (by decide)) (by decide) (by decide)).2⟩

/-- C6, counterexample. With four messages of each agent stored (the state
before the 9th call of a debate started from zero) the step stores the fifth
`llm1` message, so that the speaker's resulting count is 5 and the opponent's
count is 4, and returns the finished flag false. -/
theorem lookahead_counterexample :
    (demoService.ProcessLLMDebateStep (demoEnv "a") fourAllWorld 1).1 =
      .ok (some { ID := 10, SessionID := 1, Role := "llm1", Content := "a", CreatedAt := 7 },
           none, false) ∧
    5 ≤ roleCount "llm1"
      (transcript (demoService.ProcessLLMDebateStep (demoEnv "a") fourAllWorld 1).2 1) ∧
    4 ≤ roleCount "llm2"
      (transcript (demoService.ProcessLLMDebateStep (demoEnv "a") fourAllWorld 1).2 1) ∧
    ¬ ((false = true) ↔
        (5 ≤ roleCount "llm1"
            (transcript (demoService.ProcessLLMDebateStep (demoEnv "a") fourAllWorld 1).2 1) ∧
          4 ≤ roleCount "llm2"
            (transcript (demoService.ProcessLLMDebateStep (demoEnv "a") fourAllWorld 1).2 1))) :=
  ⟨rfl, by decide, by decide, by decide⟩

/-- C6, amended. For every step on an active session that returns a message,
the finished flag is true exactly when the speaker's resulting count is at
least 5 and the opponent's count is at least 5, that is when the termination
condition already holds for the resulting counts; in particular, in a debate
started from zero with the store and the provider succeeding, the 9th call
(resulting counts 5 and 4) returns the flag false and the 10th call returns
it true. -/
theorem lookahead_amended :
    (∀ (s : Service) (env : Env) (w : World) (sessionID : Int) (session0 : DebateSession),
      w.db.selectSession sessionID = some session0 →
      (session0.Status = "active" ∨ session0.Status = "ongoing") →
      ∀ m1 m2 finished msg,
        (s.ProcessLLMDebateStep env w sessionID).1 = .ok (m1, m2, finished) →
        (m1 = some msg ∨ m2 = some msg) →
        (finished = true ↔
          5 ≤ roleCount msg.Role
            (transcript (s.ProcessLLMDebateStep env w sessionID).2 sessionID) ∧
          5 ≤ roleCount (opponent msg.Role)
            (transcript (s.ProcessLLMDebateStep env w sessionID).2 sessionID))) ∧
    (∀ (s : Service) (envs : Nat → Env) (w : World) (sessionID : Int) (session0 : DebateSession),
      (∀ k, Healthy s (envs k)) →
      w.db.selectSession sessionID = some session0 →
      (session0.Status = "active" ∨ session0.Status = "ongoing") →
      roleCount "llm1" (transcript w sessionID) = 0 →
      roleCount "llm2" (transcript w sessionID) = 0 →
      (∃ msg,
        (s.ProcessLLMDebateStep (envs 8) (s.runSteps sessionID envs 8 w) sessionID).1 =
          .ok (some msg, none, false) ∧
        roleCount "llm1" (transcript (s.runSteps sessionID envs 9 w) sessionID) = 5 ∧
        roleCount "llm2" (transcript (s.runSteps sessionID envs 9 w) sessionID) = 4) ∧
      (∃ msg,
        (s.ProcessLLMDebateStep (envs 9) (s.runSteps sessionID envs 9 w) sessionID).1 =
          .ok (none, some msg, true) ∧
        roleCount "llm1" (transcript (s.runSteps sessionID envs 10 w) sessionID) = 5 ∧
        roleCount "llm2" (transcript (s.runSteps sessionID envs 10 w) sessionID) = 5)) := by
  have h12 : ¬ ("llm1" = "llm2") := by decide
  have h21 : ¬ ("llm2" = "llm1") := by decide
  constructor
  · intro s env w sessionID session0 hsel hact m1 m2 finished msg hok hmsg
    rcases step_ok_cases s env w sessionID session0 hsel hact _ hok with
      ⟨-, hr, -⟩ | ⟨hcap, response, hdb, hr⟩
    · simp only [Prod.mk.injEq] at hr
      rcases hmsg with h | h
      · rw [h] at hr; exact absurd hr.1 (by simp)
      · rw [h] at hr; exact absurd hr.2.1 (by simp)
    · unfold transcript at hcap hdb hr ⊢
      rw [hdb, roleCount_insertMessage, roleCount_insertMessage]
      by_cases hle : roleCount "llm1" (w.db.selectMessages sessionID) ≤
          roleCount "llm2" (w.db.selectMessages sessionID)
      · rw [if_pos hle] at hr
        simp only [Prod.mk.injEq] at hr
        obtain ⟨hm1, hm2, hf⟩ := hr
        have hmsg' : msg = (w.db.insertMessage env.now sessionID "llm1" response).1 := by
          rcases hmsg with h | h
          · rw [hm1] at h; exact (Option.some.inj h).symm
          · rw [hm2] at h; exact absurd h (by simp)
        have hrole : msg.Role = "llm1" := by rw [hmsg']; rfl
        simp only [hle, if_true, DB.insertMessage, hf, hrole, opponent, h12, h21, if_false,
          eq_self_iff_true, Bool.and_eq_true, decide_eq_true_eq]
        omega
      · rw [if_neg hle] at hr
        simp only [Prod.mk.injEq] at hr
        obtain ⟨hm1, hm2, hf⟩ := hr
        have hmsg' : msg = (w.db.insertMessage env.now sessionID "llm2" response).1 := by
          rcases hmsg with h | h
          · rw [hm1] at h; exact absurd h (by simp)
          · rw [hm2] at h; exact (Option.some.inj h).symm
        have hrole : msg.Role = "llm2" := by rw [hmsg']; rfl
        simp only [hle, if_false, DB.insertMessage, hf, hrole, opponent, h12, h21, if_true,
          eq_self_iff_true, Bool.and_eq_true, decide_eq_true_eq]
        omega
  · intro s envs w sessionID session0 hh hsel hact h1 h2
    have hrun := runSteps_from_zero s envs w sessionID session0 hh hsel hact h1 h2
    constructor
    · obtain ⟨hs, hc1, hc2⟩ := hrun 8 (by omega)
      have hcap : ¬ (5 ≤ roleCount "llm1" (transcript (s.runSteps sessionID envs 8 w) sessionID) ∧
          5 ≤ roleCount "llm2" (transcript (s.runSteps sessionID envs 8 w) sessionID)) := by
        omega
      obtain ⟨response, -, hres⟩ :=
        (step_healthy s (envs 8) (s.runSteps sessionID envs 8 w) sessionID session0 (hh 8) hs
          hact).2 hcap
      rw [hc1, hc2] at hres
      exact ⟨_, hres, (hrun 9 (by omega)).2.1, (hrun 9 (by omega)).2.2⟩
    · obtain ⟨hs, hc1, hc2⟩ := hrun 9 (by omega)
      have hcap : ¬ (5 ≤ roleCount "llm1" (transcript (s.runSteps sessionID envs 9 w) sessionID) ∧
          5 ≤ roleCount "llm2" (transcript (s.runSteps sessionID envs 9 w) sessionID)) := by
        omega
      obtain ⟨response, -, hres⟩ :=
        (step_healthy s (envs 9) (s.runSteps sessionID envs 9 w) sessionID session0 (hh 9) hs
          hact).2 hcap
      rw [hc1, hc2] at hres
      exact ⟨_, hres, (hrun 10 (by omega)).2.1, (hrun 10 (by omega)).2.2⟩

/-- Witness of C6 as amended: the step on the state with four messages each,
and the 9th and 10th call on a fresh session. -/
theorem lookahead_amended_witness :
    ((false = true) ↔
      5 ≤ roleCount "llm1"
        (transcript (demoService.ProcessLLMDebateStep (demoEnv "a") fourAllWorld 1).2 1) ∧
      5 ≤ roleCount (opponent "llm1")
        (transcript (demoService.ProcessLLMDebateStep (demoEnv "a") fourAllWorld 1).2 1)) ∧
    ((∃ msg,
        (demoService.ProcessLLMDebateStep (demoEnv "a")
            (demoService.runSteps 1 (fun _ => demoEnv "a") 8 freshWorld) 1).1 =
          .ok (some msg, none, false) ∧
        roleCount "llm1"
          (transcript (demoService.runSteps 1 (fun _ => demoEnv "a") 9 freshWorld) 1) = 5 ∧
        roleCount "llm2"
          (transcript (demoService.runSteps 1 (fun _ => demoEnv "a") 9 freshWorld) 1) = 4) ∧
      (∃ msg,
        (demoService.ProcessLLMDebateStep (demoEnv "a")
            (demoService.runSteps 1 (fun _ => demoEnv "a") 9 freshWorld) 1).1 =
          .ok (none, some msg, true) ∧
        roleCount "llm1"
          (transcript (demoService.runSteps 1 (fun _ => demoEnv "a") 10 freshWorld) 1) = 5 ∧
        roleCount "llm2"
          (transcript (demoService.runSteps 1 (fun _ => demoEnv "a") 10 freshWorld) 1) = 5)) :=
  ⟨lookahead_amended.1 demoService (demoEnv "a") fourAllWorld 1
      (demoRow "llm_vs_llm" "" "active" none).scan (by decide) (Or.inl (by decide))
      (some { ID := 10, SessionID := 1, Role := "llm1", Content := "a", CreatedAt := 7 }) none false
      { ID := 10, SessionID := 1, Role := "llm1", Content := "a", CreatedAt := 7 } rfl
      (Or.inl rfl),
   lookahead_amended.2 demoService (fun _ => demoEnv "a") freshWorld 1
      (demoRow "llm_vs_llm" "" "active" none).scan (fun _ => demo_healthy "a") (by decide)
      (Or.inl (by decide)) (by decide) (by decide)⟩

/-! ## Lemmas on `EndDebate` -/

theorem selectSession_id (d : DB) (id : Int) (session : DebateSession)
    (h : d.selectSession id = some session) : session.ID = id := by
  unfold DB.selectSession at h
  cases hf : d.debate_sessions.find? (fun r => decide (r.id = id)) with
  | none => simp [hf] at h
  | some r =>
    have hr := List.find?_some hf
    simp only [hf, Option.map_some', Option.some.injEq] at h
    rw [← h]
    simpa [SessionRow.scan] using hr

theorem selectSession_updateSession (d : DB) (session : DebateSession) :
    (d.updateSession session).selectSession session.ID =
      (d.selectSession session.ID).map (fun stored =>
        { stored with
          Status := session.Status
          Winner := session.Winner
          JudgeComment := session.JudgeComment
          FinishedAt := session.FinishedAt }) := by
  unfold DB.selectSession DB.updateSession
  simp only
  induction d.debate_sessions with
  | nil => simp
  | cons r rs ih =>
    by_cases h : r.id = session.ID
    · simp [List.find?_cons, h, SessionRow.scan]
    · simp only [List.map_cons, h, if_false, List.find?_cons, decide_False]
      exact ih

theorem selectStats_updateStats (d : DB) (stats : UserStats) (userID : Int) :
    (d.updateStats stats).selectStats userID =
      if userID = stats.UserID then (d.selectStats userID).map (fun _ => stats)
      else d.selectStats userID := by
  unfold DB.selectStats DB.updateStats
  simp only
  induction d.user_stats with
  | nil => simp
  | cons r rs ih =>
    by_cases h : r.user_id = userID
    · by_cases h2 : userID = stats.UserID
      · have h3 : r.user_id = stats.UserID := h.trans h2
        simp [List.find?_cons, h, h2, h3]
      · have h3 : ¬ r.user_id = stats.UserID := fun e => h2 (h.symm.trans e)
        simp [List.find?_cons, h, h2, h3]
    · by_cases h3 : r.user_id = stats.UserID
      · simp only [List.map_cons, h3, if_true, List.find?_cons, h, decide_False]
        simp only [h3] at h
        simp only [h, decide_False]
        exact ih
      · simp only [List.map_cons, h3, if_false, List.find?_cons, h, decide_False]
        exact ih

theorem selectStats_userID (d : DB) (userID : Int) (stats : UserStats)
    (h : d.selectStats userID = some stats) : stats.UserID = userID := by
  unfold DB.selectStats at h
  cases hf : d.user_stats.find? (fun r => decide (r.user_id = userID)) with
  | none => simp [hf] at h
  | some r =>
    have hr := List.find?_some hf
    simp only [hf, Option.map_some', Option.some.injEq] at h
    rw [← h]
    simpa using hr

theorem bumpStats_userID (stats : UserStats) (winner : String) :
    (bumpStats stats winner).UserID = stats.UserID := by
  unfold bumpStats
  split
  · rfl
  · split <;> rfl

/-- The statistics block leaves the session and message tables alone. -/
theorem endStats_tables (env : Env) (w : World) (session : DebateSession) (winner : String) :
    (endStats env w session winner).db.debate_sessions = w.db.debate_sessions ∧
    (endStats env w session winner).db.debate_messages = w.db.debate_messages := by
  unfold endStats
  by_cases hm : session.Mode = "user_vs_llm"
  · simp only [hm, if_true]
    cases session.UserID with
    | none => exact ⟨rfl, rfl⟩
    | some userID =>
      simp only [DB.GetUserStats, DB.UpdateUserStats, World.log]
      by_cases hf : env.fails (Call.GetUserStats userID) = true
      · simp [hf]
      · simp only [hf]
        cases w.db.selectStats userID with
        | none => exact ⟨rfl, rfl⟩
        | some stats =>
          simp only [Bool.false_eq_true, if_false]
          split <;> exact ⟨rfl, rfl⟩
  · simp [hm]

/-- Outside mode `user_vs_llm` the statistics block does nothing. -/
theorem endStats_other_mode (env : Env) (w : World) (session : DebateSession) (winner : String)
    (hm : session.Mode ≠ "user_vs_llm") : endStats env w session winner = w := by
  simp [endStats, hm]

/-- The statistics block when the owner's row can be read and written. -/
theorem endStats_written (env : Env) (w : World) (session : DebateSession) (winner : String)
    (userID : Int) (stats : UserStats) (hm : session.Mode = "user_vs_llm")
    (ho : session.UserID = some userID)
    (hread : env.fails (Call.GetUserStats userID) = false)
    (hrow : w.db.selectStats userID = some stats)
    (hwrite : env.fails (Call.UpdateUserStats userID) = false) :
    (endStats env w session winner).db = w.db.updateStats (bumpStats stats winner) := by
  have hid : (bumpStats stats winner).UserID = userID := by
    rw [bumpStats_userID]; exact selectStats_userID _ _ _ hrow
  simp [endStats, hm, ho, DB.GetUserStats, DB.UpdateUserStats, World.log, hread, hrow, hid, hwrite]

/-- A successful `EndDebate`: the session was active, the returned session is
`judgedSession`, the session update did not fail, and the final world is the
one reached by the statistics block, the session update and the judge message,
in this order, from the world at the verdict. -/
theorem end_ok_world (s : Service) (env : Env) (w : World) (sessionID : Int)
    (session0 session : DebateSession) (verdict : JudgeResponse)
    (hsel : w.db.selectSession sessionID = some session0)
    (hok : (s.EndDebate env w sessionID).1 = .ok (session, verdict)) :
    (session0.Status = "active" ∨ session0.Status = "ongoing") ∧
    session = judgedSession env session0 verdict ∧
    (s.EndDebate env w sessionID).2 =
      (DB.CreateMessage env
        { db := (endStats env (atVerdict w sessionID session0) (endPositions session0)
                  (endWinner (endPositions session0) verdict)).db.updateSession session
          calls := (endStats env (atVerdict w sessionID session0) (endPositions session0)
                  (endWinner (endPositions session0) verdict)).calls ++
                    [Call.UpdateDebateSession session.ID] }
        sessionID "judge" (env.MarshalJudge verdict)).2 := by
  by_cases hf1 : env.fails (Call.GetDebateSession sessionID) = true
  · simp [Service.EndDebate, World.log, DB.GetDebateSession, hf1] at hok
  by_cases hst : session0.Status ≠ "active" ∧ session0.Status ≠ "ongoing"
  · simp [Service.EndDebate, World.log, DB.GetDebateSession, hf1, hsel, hst] at hok
  by_cases hf2 : env.fails (Call.GetSessionMessages sessionID) = true
  · simp [Service.EndDebate, World.log, DB.GetDebateSession, DB.GetSessionMessages, hf1, hsel,
      hst, hf2] at hok
  cases hc : s.client.complete env
      (Service.buildJudgeMessages (endPositions session0) (w.db.selectMessages sessionID))
      (some "judge_result") with
  | error e =>
    simp [Service.EndDebate, World.log, DB.GetDebateSession, DB.GetSessionMessages, hf1, hsel,
      hst, hf2, Client.ChatCompletionWithSchema, hc] at hok
  | ok response =>
    cases hu : env.UnmarshalJudge response with
    | none =>
      simp [Service.EndDebate, World.log, DB.GetDebateSession, DB.GetSessionMessages, hf1, hsel,
        hst, hf2, Client.ChatCompletionWithSchema, hc, hu] at hok
    | some judgeResult =>
      by_cases hf3 : env.fails (Call.UpdateDebateSession (endPositions session0).ID) = true
      · simp [Service.EndDebate, World.log, DB.GetDebateSession, DB.GetSessionMessages, hf1,
          hsel, hst, hf2, Client.ChatCompletionWithSchema, hc, hu, DB.UpdateDebateSession,
          hf3] at hok
      · have hact : session0.Status = "active" ∨ session0.Status = "ongoing" := by
          by_contra hn
          exact hst ⟨fun h => hn (Or.inl h), fun h => hn (Or.inr h)⟩
        refine ⟨hact, ?_⟩
        simp only [Service.EndDebate, World.log, DB.GetDebateSession, DB.GetSessionMessages, hf1,
          hsel, hst, hf2, Client.ChatCompletionWithSchema, hc, hu, DB.UpdateDebateSession,
          hf3, Bool.false_eq_true, if_false, Except.ok.injEq, Prod.mk.injEq] at hok ⊢
        obtain ⟨hs, hv⟩ := hok
        subst hv
        subst hs
        exact ⟨rfl, rfl⟩

theorem createMessage_tables (env : Env) (w : World) (sessionID : Int) (role content : String) :
    (DB.CreateMessage env w sessionID role content).2.db.debate_sessions = w.db.debate_sessions ∧
    (DB.CreateMessage env w sessionID role content).2.db.user_stats = w.db.user_stats := by
  unfold DB.CreateMessage
  split <;> exact ⟨rfl, rfl⟩

theorem selectSession_congr (d1 d2 : DB) (id : Int)
    (h : d1.debate_sessions = d2.debate_sessions) : d1.selectSession id = d2.selectSession id := by
  unfold DB.selectSession
  rw [h]

theorem selectStats_congr (d1 d2 : DB) (userID : Int)
    (h : d1.user_stats = d2.user_stats) : d1.selectStats userID = d2.selectStats userID := by
  unfold DB.selectStats
  rw [h]

/-- The stored session after a successful `EndDebate`. -/
theorem end_ok_session (s : Service) (env : Env) (w : World) (sessionID : Int)
    (session0 session : DebateSession) (verdict : JudgeResponse)
    (hsel : w.db.selectSession sessionID = some session0)
    (hok : (s.EndDebate env w sessionID).1 = .ok (session, verdict)) :
    (s.EndDebate env w sessionID).2.db.selectSession sessionID =
      some { session0 with
             Status := "finished"
             Winner := some (endWinner (endPositions session0) verdict)
             JudgeComment := some verdict.FinalComment
             FinishedAt := some env.now } := by
  obtain ⟨-, hs, hw⟩ := end_ok_world s env w sessionID session0 session verdict hsel hok
  have hid : session.ID = sessionID := by
    rw [hs]
    have := selectSession_id _ _ _ hsel
    unfold judgedSession endPositions
    split
    · exact this
    · split <;> exact this
  rw [hw, selectSession_congr _ _ _ (createMessage_tables _ _ _ _ _).1]
  have h2 : ((endStats env (atVerdict w sessionID session0) (endPositions session0)
      (endWinner (endPositions session0) verdict)).db.updateSession session).selectSession
        sessionID = (w.db.updateSession session).selectSession sessionID := by
    apply selectSession_congr
    simp only [DB.updateSession]
    rw [(endStats_tables _ _ _ _).1]
    rfl
  simp only [] at h2 ⊢
  rw [h2, ← hid, selectSession_updateSession, hid, hsel, hs]
  rfl

/-- The statistics table after a successful `EndDebate`. -/
theorem end_ok_stats (s : Service) (env : Env) (w : World) (sessionID : Int)
    (session0 session : DebateSession) (verdict : JudgeResponse)
    (hsel : w.db.selectSession sessionID = some session0)
    (hok : (s.EndDebate env w sessionID).1 = .ok (session, verdict)) :
    (s.EndDebate env w sessionID).2.db.user_stats =
      (endStats env (atVerdict w sessionID session0) (endPositions session0)
        (endWinner (endPositions session0) verdict)).db.user_stats := by
  obtain ⟨-, hs, hw⟩ := end_ok_world s env w sessionID session0 session verdict hsel hok
  rw [hw, (createMessage_tables _ _ _ _ _).2]
  rfl

theorem endPositions_fields (session : DebateSession) :
    (endPositions session).Mode = session.Mode ∧
    (endPositions session).UserID = session.UserID ∧
    (endPositions session).UserPosition = session.UserPosition := by
  unfold endPositions
  split
  · exact ⟨rfl, rfl, rfl⟩
  · split <;> exact ⟨rfl, rfl, rfl⟩

theorem endWinner_user (session : DebateSession) (verdict : JudgeResponse)
    (hm : session.Mode = "user_vs_llm") :
    endWinner (endPositions session) verdict =
      if verdict.Winner = session.UserPosition then "user"
      else if verdict.Winner = otherSide session.UserPosition then "llm"
      else "draw" := by
  have hne : ¬ (session.Mode = "llm_vs_llm") := by rw [hm]; decide
  unfold endWinner endPositions otherSide
  simp only [hne, if_false]
  by_cases hp : session.UserPosition = "pro"
  · simp [hp, hm]
  · simp [hp, hm]

/-- C7 (winner mapping, human vs model). For a `user_vs_llm` session whose
stored human position is pro or con and a verdict whose winner is pro, con or
draw, a successful `EndDebate` returns and stores one and the same winner:
`user` if the verdict names the human's side, `llm` if it names the opposite
side, `draw` if it is a draw; the winner is always one of the three. -/
theorem winner_mapping_user (s : Service) (env : Env) (w : World) (sessionID : Int)
    (session0 session : DebateSession) (verdict : JudgeResponse)
    (hsel : w.db.selectSession sessionID = some session0)
    (hm : session0.Mode = "user_vs_llm")
    (hp : session0.UserPosition = "pro" ∨ session0.UserPosition = "con")
    (hv : verdict.Winner = "pro" ∨ verdict.Winner = "con" ∨ verdict.Winner = "draw")
    (hok : (s.EndDebate env w sessionID).1 = .ok (session, verdict)) :
    ∃ winner,
      session.Winner = some winner ∧
      ((s.EndDebate env w sessionID).2.db.selectSession sessionID).map (fun x => x.Winner) =
        some (some winner) ∧
      (verdict.Winner = session0.UserPosition → winner = "user") ∧
      (verdict.Winner = otherSide session0.UserPosition → winner = "llm") ∧
      (verdict.Winner = "draw" → winner = "draw") ∧
      (winner = "user" ∨ winner = "llm" ∨ winner = "draw") := by
  refine ⟨endWinner (endPositions session0) verdict, ?_, ?_, ?_⟩
  · rw [(end_ok_world s env w sessionID session0 session verdict hsel hok).2.1]
    rfl
  · rw [end_ok_session s env w sessionID session0 session verdict hsel hok]
    rfl
  · rw [endWinner_user session0 verdict hm]
    have h1 : ¬ ("pro" = "con") := by decide
    have h2 : ¬ ("con" = "pro") := by decide
    have h3 : ¬ ("draw" = "pro") := by decide
    have h4 : ¬ ("draw" = "con") := by decide
    rcases hp with hp | hp <;> rcases hv with hv | hv | hv <;>
      simp [hp, hv, otherSide, h1, h2, h3, h4]

/-- Witness of C7: the human is pro and the verdict names pro: the winner
returned and stored is `user`. -/
theorem winner_mapping_user_witness :
    ∃ winner,
      (judgedSession (demoEnv "pro") (demoRow "user_vs_llm" "pro" "active" (some 10)).scan
        (demoVerdict "pro")).Winner = some winner ∧
      ((demoService.EndDebate (demoEnv "pro") userWorld 1).2.db.selectSession 1).map
        (fun x => x.Winner) = some (some winner) ∧
      winner = "user" :=
  (winner_mapping_user demoService (demoEnv "pro") userWorld 1
    (demoRow "user_vs_llm" "pro" "active" (some 10)).scan
    (judgedSession (demoEnv "pro") (demoRow "user_vs_llm" "pro" "active" (some 10)).scan
      (demoVerdict "pro"))
    (demoVerdict "pro") (by decide) (by decide) (Or.inl (by decide)) (Or.inl (by decide))
    rfl).elim
    fun winner h => ⟨winner, h.1, h.2.1, h.2.2.1 (by decide)⟩

/-- C8 (stats delta). After a successful `EndDebate` on a `user_vs_llm` session
whose owner's statistics row can be read and written, the owner's row has
`TotalDebates` incremented and exactly one of `Wins`, `Losses`, `Draws`
incremented (`Wins` iff the winner is `user`, `Losses` iff it is `llm`, `Draws`
iff it is `draw`), the other two being unchanged, and every other user's
statistics read as before. The increment is that of a Go `int`; when the
counters read are below the largest `int` it adds exactly 1. -/
theorem stats_delta (s : Service) (env : Env) (w : World) (sessionID : Int)
    (session0 session : DebateSession) (verdict : JudgeResponse) (userID : Int)
    (stats : UserStats)
    (hsel : w.db.selectSession sessionID = some session0)
    (hm : session0.Mode = "user_vs_llm")
    (ho : session0.UserID = some userID)
    (hread : env.fails (Call.GetUserStats userID) = false)
    (hrow : w.db.selectStats userID = some stats)
    (hwrite : env.fails (Call.UpdateUserStats userID) = false)
    (hok : (s.EndDebate env w sessionID).1 = .ok (session, verdict)) :
    ∃ winner,
      session.Winner = some winner ∧
      (winner = "user" ∨ winner = "llm" ∨ winner = "draw") ∧
      (s.EndDebate env w sessionID).2.db.selectStats userID =
        some { UserID := stats.UserID
               TotalDebates := incr stats.TotalDebates
               Wins := if winner = "user" then incr stats.Wins else stats.Wins
               Losses := if winner = "llm" then incr stats.Losses else stats.Losses
               Draws := if winner = "draw" then incr stats.Draws else stats.Draws } ∧
      (stats.BelowMax →
        (s.EndDebate env w sessionID).2.db.selectStats userID =
          some { UserID := stats.UserID
                 TotalDebates := stats.TotalDebates + 1
                 Wins := stats.Wins + (if winner = "user" then 1 else 0)
                 Losses := stats.Losses + (if winner = "llm" then 1 else 0)
                 Draws := stats.Draws + (if winner = "draw" then 1 else 0) }) ∧
      ∀ other, other ≠ userID →
        (s.EndDebate env w sessionID).2.db.selectStats other = w.db.selectStats other := by
  have hfields := endPositions_fields session0
  have hwritten := endStats_written env (atVerdict w sessionID session0) (endPositions session0)
    (endWinner (endPositions session0) verdict) userID stats (hfields.1.trans hm)
    (hfields.2.1.trans ho) hread hrow hwrite
  have hstats := end_ok_stats s env w sessionID session0 session verdict hsel hok
  rw [hwritten] at hstats
  have hid : (bumpStats stats (endWinner (endPositions session0) verdict)).UserID = userID := by
    rw [bumpStats_userID]; exact selectStats_userID _ _ _ hrow
  have hwin : endWinner (endPositions session0) verdict = "user" ∨
      endWinner (endPositions session0) verdict = "llm" ∨
      endWinner (endPositions session0) verdict = "draw" := by
    rw [endWinner_user session0 verdict hm]
    split
    · exact Or.inl rfl
    · split
      · exact Or.inr (Or.inl rfl)
      · exact Or.inr (Or.inr rfl)
  have h1 : ¬ ("llm" = "user") := by decide
  have h2 : ¬ ("draw" = "user") := by decide
  have h3 : ¬ ("draw" = "llm") := by decide
  have h4 : ¬ ("user" = "llm") := by decide
  have h5 : ¬ ("user" = "draw") := by decide
  have h6 : ¬ ("llm" = "draw") := by decide
  have hrow' : (atVerdict w sessionID session0).db.selectStats userID = some stats := hrow
  refine ⟨endWinner (endPositions session0) verdict, ?_, hwin, ?_, ?_, ?_⟩
  · rw [(end_ok_world s env w sessionID session0 session verdict hsel hok).2.1]
    rfl
  · rw [selectStats_congr _ _ _ hstats, selectStats_updateStats, hid]
    simp only [if_true, hrow', Option.map_some', Option.some.injEq]
    rcases hwin with hw | hw | hw <;> rw [hw] <;>
      simp [bumpStats, h1, h2, h3, h4, h5, h6]
  · intro hmax
    have e1 := incr_eq _ hmax.1.1 hmax.1.2
    have e2 := incr_eq _ hmax.2.1.1 hmax.2.1.2
    have e3 := incr_eq _ hmax.2.2.1.1 hmax.2.2.1.2
    have e4 := incr_eq _ hmax.2.2.2.1 hmax.2.2.2.2
    rw [selectStats_congr _ _ _ hstats, selectStats_updateStats, hid]
    simp only [if_true, hrow', Option.map_some', Option.some.injEq]
    rcases hwin with hw | hw | hw <;> rw [hw] <;>
      simp [bumpStats, h1, h2, h3, h4, h5, h6, e1, e2, e3, e4]
  · intro other hne
    rw [selectStats_congr _ _ _ hstats, selectStats_updateStats, hid, if_neg hne]
    rfl

/-- Witness of C8: the human is pro, the verdict names con, user 10 owns the
session: a loss is counted for user 10 and user 11 reads as before. -/
theorem stats_delta_witness :
    UserStats.BelowMax { UserID := 10, TotalDebates := 3, Wins := 1, Losses := 1, Draws := 1 } ∧
    ∃ winner,
      (judgedSession (demoEnv "con") (demoRow "user_vs_llm" "pro" "active" (some 10)).scan
        (demoVerdict "con")).Winner = some winner ∧
      (winner = "user" ∨ winner = "llm" ∨ winner = "draw") ∧
      (demoService.EndDebate (demoEnv "con") userWorld 1).2.db.selectStats 10 =
        some { UserID := 10
               TotalDebates := 3 + 1
               Wins := 1 + (if winner = "user" then 1 else 0)
               Losses := 1 + (if winner = "llm" then 1 else 0)
               Draws := 1 + (if winner = "draw" then 1 else 0) } ∧
      (demoService.EndDebate (demoEnv "con") userWorld 1).2.db.selectStats 11 =
        userWorld.db.selectStats 11 :=
  ⟨by decide,
   (stats_delta demoService (demoEnv "con") userWorld 1
    (demoRow "user_vs_llm" "pro" "active" (some 10)).scan
    (judgedSession (demoEnv "con") (demoRow "user_vs_llm" "pro" "active" (some 10)).scan
      (demoVerdict "con"))
    (demoVerdict "con") 10
    { UserID := 10, TotalDebates := 3, Wins := 1, Losses := 1, Draws := 1 }
    (by decide) (by decide) (by decide) rfl (by decide) rfl rfl).elim
    fun winner h => ⟨winner, h.1, h.2.1, h.2.2.2.1 (by decide), h.2.2.2.2 11 (by decide)⟩⟩

theorem newCalls_append (w : World) (d : DB) (l : List Call) :
    newCalls w { db := d, calls := w.calls ++ l } = l := by
  simp [newCalls]

/-- Outside mode `user_vs_llm`, whatever the environment does, `EndDebate`
makes no call on the statistics table and leaves it as it is. -/
theorem end_other_mode (s : Service) (env : Env) (w : World) (sessionID : Int)
    (session0 : DebateSession)
    (hsel : w.db.selectSession sessionID = some session0)
    (hm : session0.Mode ≠ "user_vs_llm") :
    (∀ userID, Call.GetUserStats userID ∉ newCalls w (s.EndDebate env w sessionID).2 ∧
      Call.UpdateUserStats userID ∉ newCalls w (s.EndDebate env w sessionID).2) ∧
    (s.EndDebate env w sessionID).2.db.user_stats = w.db.user_stats := by
  have he : ∀ W win, endStats env W (endPositions session0) win = W := fun W win =>
    endStats_other_mode env W _ win (by rw [(endPositions_fields session0).1]; exact hm)
  by_cases hf1 : env.fails (Call.GetDebateSession sessionID) = true
  · simp [Service.EndDebate, World.log, DB.GetDebateSession, hf1, newCalls]
  by_cases hst : session0.Status ≠ "active" ∧ session0.Status ≠ "ongoing"
  · simp [Service.EndDebate, World.log, DB.GetDebateSession, hf1, hsel, hst, newCalls]
  by_cases hf2 : env.fails (Call.GetSessionMessages sessionID) = true
  · simp [Service.EndDebate, World.log, DB.GetDebateSession, DB.GetSessionMessages, hf1, hsel,
      hst, hf2, newCalls]
  cases hc : s.client.complete env
      (Service.buildJudgeMessages (endPositions session0) (w.db.selectMessages sessionID))
      (some "judge_result") with
  | error e =>
    simp [Service.EndDebate, World.log, DB.GetDebateSession, DB.GetSessionMessages, hf1, hsel,
      hst, hf2, Client.ChatCompletionWithSchema, hc, newCalls]
  | ok response =>
    cases hu : env.UnmarshalJudge response with
    | none =>
      simp [Service.EndDebate, World.log, DB.GetDebateSession, DB.GetSessionMessages, hf1, hsel,
        hst, hf2, Client.ChatCompletionWithSchema, hc, hu, newCalls]
    | some judgeResult =>
      by_cases hf3 : env.fails (Call.UpdateDebateSession (endPositions session0).ID) = true
      · simp [Service.EndDebate, World.log, DB.GetDebateSession, DB.GetSessionMessages, hf1,
          hsel, hst, hf2, Client.ChatCompletionWithSchema, hc, hu, DB.UpdateDebateSession,
          hf3, he, newCalls]
      · by_cases hf4 : env.fails
            (Call.CreateMessage sessionID "judge" (env.MarshalJudge judgeResult)) = true
        · simp [Service.EndDebate, World.log, DB.GetDebateSession, DB.GetSessionMessages, hf1,
            hsel, hst, hf2, Client.ChatCompletionWithSchema, hc, hu, DB.UpdateDebateSession,
            hf3, he, DB.CreateMessage, hf4, newCalls, DB.updateSession]
        · simp [Service.EndDebate, World.log, DB.GetDebateSession, DB.GetSessionMessages, hf1,
            hsel, hst, hf2, Client.ChatCompletionWithSchema, hc, hu, DB.UpdateDebateSession,
            hf3, he, DB.CreateMessage, hf4, newCalls, DB.updateSession, DB.insertMessage]

/-- C9 (winner mapping, model vs model). For an `llm_vs_llm` session, with or
without an owning user: a successful `EndDebate` returns and stores the winner
`llm1` if the verdict's winner is `pro`, `llm2` if it is `con`, and `draw` for
any other value; and whatever the environment does, the call neither reads
nor writes any user's statistics, and the statistics table is unchanged. -/
theorem winner_mapping_llm (s : Service) (env : Env) (w : World) (sessionID : Int)
    (session0 : DebateSession)
    (hsel : w.db.selectSession sessionID = some session0)
    (hm : session0.Mode = "llm_vs_llm") :
    (∀ session verdict, (s.EndDebate env w sessionID).1 = .ok (session, verdict) →
      session.Winner =
        some (if verdict.Winner = "pro" then "llm1"
              else if verdict.Winner = "con" then "llm2" else "draw") ∧
      ((s.EndDebate env w sessionID).2.db.selectSession sessionID).map (fun x => x.Winner) =
        some (some (if verdict.Winner = "pro" then "llm1"
                    else if verdict.Winner = "con" then "llm2" else "draw"))) ∧
    (∀ userID, Call.GetUserStats userID ∉ newCalls w (s.EndDebate env w sessionID).2 ∧
      Call.UpdateUserStats userID ∉ newCalls w (s.EndDebate env w sessionID).2) ∧
    (s.EndDebate env w sessionID).2.db.user_stats = w.db.user_stats := by
  have hne : session0.Mode ≠ "user_vs_llm" := by rw [hm]; decide
  refine ⟨?_, end_other_mode s env w sessionID session0 hsel hne⟩
  intro session verdict hok
  have hwin : endWinner (endPositions session0) verdict =
      (if verdict.Winner = "pro" then "llm1"
       else if verdict.Winner = "con" then "llm2" else "draw") := by
    unfold endWinner
    rw [(endPositions_fields session0).1, if_neg hne]
  constructor
  · rw [(end_ok_world s env w sessionID session0 session verdict hsel hok).2.1, ← hwin]
    rfl
  · rw [end_ok_session s env w sessionID session0 session verdict hsel hok, ← hwin]
    rfl

/-- Witness of C9: a model-vs-model session that has an owner, verdict pro:
the winner is `llm1` and the owner's statistics are not touched. -/
theorem winner_mapping_llm_witness :
    ((judgedSession (demoEnv "pro") (demoRow "llm_vs_llm" "" "active" (some 10)).scan
        (demoVerdict "pro")).Winner =
        some (if (demoVerdict "pro").Winner = "pro" then "llm1"
              else if (demoVerdict "pro").Winner = "con" then "llm2" else "draw") ∧
      ((demoService.EndDebate (demoEnv "pro") ownedAgentsWorld 1).2.db.selectSession 1).map
          (fun x => x.Winner) =
        some (some (if (demoVerdict "pro").Winner = "pro" then "llm1"
                    else if (demoVerdict "pro").Winner = "con" then "llm2" else "draw"))) ∧
    (Call.GetUserStats 10 ∉
        newCalls ownedAgentsWorld (demoService.EndDebate (demoEnv "pro") ownedAgentsWorld 1).2 ∧
      Call.UpdateUserStats 10 ∉
        newCalls ownedAgentsWorld (demoService.EndDebate (demoEnv "pro") ownedAgentsWorld 1).2) ∧
    (demoService.EndDebate (demoEnv "pro") ownedAgentsWorld 1).2.db.user_stats =
      ownedAgentsWorld.db.user_stats :=
  ⟨(winner_mapping_llm demoService (demoEnv "pro") ownedAgentsWorld 1
      (demoRow "llm_vs_llm" "" "active" (some 10)).scan (by decide) (by decide)).1
      (judgedSession (demoEnv "pro") (demoRow "llm_vs_llm" "" "active" (some 10)).scan
        (demoVerdict "pro"))
      (demoVerdict "pro") rfl,
   (winner_mapping_llm demoService (demoEnv "pro") ownedAgentsWorld 1
      (demoRow "llm_vs_llm" "" "active" (some 10)).scan (by decide) (by decide)).2.1 10,
   (winner_mapping_llm demoService (demoEnv "pro") ownedAgentsWorld 1
      (demoRow "llm_vs_llm" "" "active" (some 10)).scan (by decide) (by decide)).2.2⟩

/-- C10 (End is not idempotent). On a session whose status is `finished`,
`EndDebate` returns an error, makes no call other than the read of the
session (so neither a provider call nor a store write), and leaves the whole
database unchanged: the session's status, winner, judge comment and completion
time, the transcript and all statistics. When the read of the session itself
does not fail, the error is the state error "debate has already ended". -/
theorem end_not_idempotent (s : Service) (env : Env) (w : World) (sessionID : Int)
    (session0 : DebateSession)
    (hsel : w.db.selectSession sessionID = some session0)
    (hfin : session0.Status = "finished") :
    (∃ e, (s.EndDebate env w sessionID).1 = .error e) ∧
    newCalls w (s.EndDebate env w sessionID).2 = [Call.GetDebateSession sessionID] ∧
    (s.EndDebate env w sessionID).2.db = w.db ∧
    (env.fails (Call.GetDebateSession sessionID) = false →
      (s.EndDebate env w sessionID).1 = .error "debate has already ended") := by
  have hst : session0.Status ≠ "active" ∧ session0.Status ≠ "ongoing" := by
    rw [hfin]; exact ⟨by decide, by decide⟩
  by_cases hf1 : env.fails (Call.GetDebateSession sessionID) = true
  · simp [Service.EndDebate, World.log, DB.GetDebateSession, hf1, newCalls]
  · simp [Service.EndDebate, World.log, DB.GetDebateSession, hf1, hsel, hst, newCalls]

/-- Witness of C10: a second `EndDebate` on a judged session. -/
theorem end_not_idempotent_witness :
    (∃ e, (demoService.EndDebate (demoEnv "con") finishedWorld 1).1 = .error e) ∧
    newCalls finishedWorld (demoService.EndDebate (demoEnv "con") finishedWorld 1).2 =
      [Call.GetDebateSession 1] ∧
    (demoService.EndDebate (demoEnv "con") finishedWorld 1).2.db = finishedWorld.db ∧
    (demoService.EndDebate (demoEnv "con") finishedWorld 1).1 =
      .error "debate has already ended" :=
  ⟨(end_not_idempotent demoService (demoEnv "con") finishedWorld 1
      (SessionRow.scan
        { demoRow "user_vs_llm" "pro" "finished" (some 10) with
          winner := some "user", judge_comment := some "good debate", ended_at := some 5 })
      (by decide) (by decide)).1,
   (end_not_idempotent demoService (demoEnv "con") finishedWorld 1
      (SessionRow.scan
        { demoRow "user_vs_llm" "pro" "finished" (some 10) with
          winner := some "user", judge_comment := some "good debate", ended_at := some 5 })
      (by decide) (by decide)).2.1,
   (end_not_idempotent demoService (demoEnv "con") finishedWorld 1
      (SessionRow.scan
        { demoRow "user_vs_llm" "pro" "finished" (some 10) with
          winner := some "user", judge_comment := some "good debate", ended_at := some 5 })
      (by decide) (by decide)).2.2.1,
   (end_not_idempotent demoService (demoEnv "con") finishedWorld 1
      (SessionRow.scan
        { demoRow "user_vs_llm" "pro" "finished" (some 10) with
          winner := some "user", judge_comment := some "good debate", ended_at := some 5 })
      (by decide) (by decide)).2.2.2 rfl⟩

/-! ## `EndDebate`: failures and repeated calls -/

theorem endPositions_id (session : DebateSession) : (endPositions session).ID = session.ID := by
  unfold endPositions
  split
  · rfl
  · split <;> rfl

/-- On a session that is neither active nor ongoing `EndDebate` returns an
error and leaves the database as it is. -/
theorem end_inactive (s : Service) (env : Env) (w : World) (sessionID : Int)
    (session0 : DebateSession)
    (hsel : w.db.selectSession sessionID = some session0)
    (hst : session0.Status ≠ "active" ∧ session0.Status ≠ "ongoing") :
    (∃ e, (s.EndDebate env w sessionID).1 = .error e) ∧
    (s.EndDebate env w sessionID).2.db = w.db := by
  by_cases hf1 : env.fails (Call.GetDebateSession sessionID) = true
  · simp [Service.EndDebate, World.log, DB.GetDebateSession, hf1]
  · simp [Service.EndDebate, World.log, DB.GetDebateSession, hf1, hsel, hst]

/-- An `EndDebate` that returns an error has written nothing, unless the error
is that of the session update. -/
theorem end_error_db (s : Service) (env : Env) (w : World) (sessionID : Int)
    (session0 : DebateSession) (e : String)
    (hsel : w.db.selectSession sessionID = some session0)
    (hupd : env.fails (Call.UpdateDebateSession sessionID) = false)
    (herr : (s.EndDebate env w sessionID).1 = .error e) :
    (s.EndDebate env w sessionID).2.db = w.db := by
  have hid : (endPositions session0).ID = sessionID := by
    rw [endPositions_id]; exact selectSession_id _ _ _ hsel
  by_cases hf1 : env.fails (Call.GetDebateSession sessionID) = true
  · simp [Service.EndDebate, World.log, DB.GetDebateSession, hf1]
  by_cases hst : session0.Status ≠ "active" ∧ session0.Status ≠ "ongoing"
  · simp [Service.EndDebate, World.log, DB.GetDebateSession, hf1, hsel, hst]
  by_cases hf2 : env.fails (Call.GetSessionMessages sessionID) = true
  · simp [Service.EndDebate, World.log, DB.GetDebateSession, DB.GetSessionMessages, hf1, hsel,
      hst, hf2]
  cases hc : s.client.complete env
      (Service.buildJudgeMessages (endPositions session0) (w.db.selectMessages sessionID))
      (some "judge_result") with
  | error e =>
    simp [Service.EndDebate, World.log, DB.GetDebateSession, DB.GetSessionMessages, hf1, hsel,
      hst, hf2, Client.ChatCompletionWithSchema, hc]
  | ok response =>
    cases hu : env.UnmarshalJudge response with
    | none =>
      simp [Service.EndDebate, World.log, DB.GetDebateSession, DB.GetSessionMessages, hf1, hsel,
        hst, hf2, Client.ChatCompletionWithSchema, hc, hu]
    | some judgeResult =>
      simp [Service.EndDebate, World.log, DB.GetDebateSession, DB.GetSessionMessages, hf1,
        hsel, hst, hf2, Client.ChatCompletionWithSchema, hc, hu, DB.UpdateDebateSession,
        hid, hupd] at herr

/-- C11 (no partial commit on a bad verdict). On an active session, if the
provider call for the verdict fails, or its output does not decode to a
verdict, `EndDebate` returns an error and the whole database (the stored
session, the transcript, every statistics row) is as before the call; when
both store reads succeed the error is the provider error, respectively the
parse error. -/
theorem bad_verdict_no_commit (s : Service) (env : Env) (w : World) (sessionID : Int)
    (session0 : DebateSession)
    (hsel : w.db.selectSession sessionID = some session0)
    (hact : session0.Status = "active" ∨ session0.Status = "ongoing") :
    ((∃ e, s.client.complete env
        (Service.buildJudgeMessages (endPositions session0) (w.db.selectMessages sessionID))
        (some "judge_result") = .error e) →
      (∃ e, (s.EndDebate env w sessionID).1 = .error e) ∧
      (s.EndDebate env w sessionID).2.db = w.db ∧
      (env.fails (Call.GetDebateSession sessionID) = false →
        env.fails (Call.GetSessionMessages sessionID) = false →
        (s.EndDebate env w sessionID).1 = .error "failed to get judge response")) ∧
    (∀ response, s.client.complete env
        (Service.buildJudgeMessages (endPositions session0) (w.db.selectMessages sessionID))
        (some "judge_result") = .ok response →
      env.UnmarshalJudge response = none →
      (∃ e, (s.EndDebate env w sessionID).1 = .error e) ∧
      (s.EndDebate env w sessionID).2.db = w.db ∧
      (env.fails (Call.GetDebateSession sessionID) = false →
        env.fails (Call.GetSessionMessages sessionID) = false →
        (s.EndDebate env w sessionID).1 = .error "failed to parse judge response")) := by
  have hst : ¬ (session0.Status ≠ "active" ∧ session0.Status ≠ "ongoing") := by
    rintro ⟨h1, h2⟩
    exact hact.elim h1 h2
  constructor
  · rintro ⟨e, hc⟩
    by_cases hf1 : env.fails (Call.GetDebateSession sessionID) = true
    · simp [Service.EndDebate, World.log, DB.GetDebateSession, hf1]
    by_cases hf2 : env.fails (Call.GetSessionMessages sessionID) = true
    · simp [Service.EndDebate, World.log, DB.GetDebateSession, DB.GetSessionMessages, hf1, hsel,
        hst, hf2]
    · simp [Service.EndDebate, World.log, DB.GetDebateSession, DB.GetSessionMessages, hf1, hsel,
        hst, hf2, Client.ChatCompletionWithSchema, hc]
  · intro response hc hu
    by_cases hf1 : env.fails (Call.GetDebateSession sessionID) = true
    · simp [Service.EndDebate, World.log, DB.GetDebateSession, hf1]
    by_cases hf2 : env.fails (Call.GetSessionMessages sessionID) = true
    · simp [Service.EndDebate, World.log, DB.GetDebateSession, DB.GetSessionMessages, hf1, hsel,
        hst, hf2]
    · simp [Service.EndDebate, World.log, DB.GetDebateSession, DB.GetSessionMessages, hf1, hsel,
        hst, hf2, Client.ChatCompletionWithSchema, hc, hu]

/-- Witness of C11: the provider fails, and the provider answers with text
that is not a verdict, on an active session owned by user 10. -/
theorem bad_verdict_no_commit_witness :
    ((∃ e, (demoService.EndDebate silentEnv userWorld 1).1 = .error e) ∧
      (demoService.EndDebate silentEnv userWorld 1).2.db = userWorld.db ∧
      (demoService.EndDebate silentEnv userWorld 1).1 = .error "failed to get judge response") ∧
    ((∃ e, (demoService.EndDebate garbledEnv userWorld 1).1 = .error e) ∧
      (demoService.EndDebate garbledEnv userWorld 1).2.db = userWorld.db ∧
      (demoService.EndDebate garbledEnv userWorld 1).1 = .error "failed to parse judge response") :=
  ⟨((bad_verdict_no_commit demoService silentEnv userWorld 1
        (demoRow "user_vs_llm" "pro" "active" (some 10)).scan (by decide)
        (Or.inl (by decide))).1 ⟨"request failed", rfl⟩).elim
      fun h1 h2 => ⟨h1, h2.1, h2.2 rfl rfl⟩,
   ((bad_verdict_no_commit demoService garbledEnv userWorld 1
        (demoRow "user_vs_llm" "pro" "active" (some 10)).scan (by decide)
        (Or.inl (by decide))).2 "not json" rfl rfl).elim
      fun h1 h2 => ⟨h1, h2.1, h2.2 rfl rfl⟩⟩

/-- C12, counterexample. The update of the session fails in a first
`EndDebate` call on a session owned by user 10: the call returns an error, the
owner's statistics are already changed and the session is still active; a
second call, in which nothing fails, changes the owner's statistics again. -/
theorem stats_once_counterexample :
    (demoService.EndDebate updateFailsEnv userWorld 1).1 = .error "failed to update session" ∧
    userWorld.db.selectStats 10 =
      some { UserID := 10, TotalDebates := 3, Wins := 1, Losses := 1, Draws := 1 } ∧
    (demoService.EndDebate updateFailsEnv userWorld 1).2.db.selectStats 10 =
      some { UserID := 10, TotalDebates := 4, Wins := 1, Losses := 2, Draws := 1 } ∧
    ((demoService.EndDebate updateFailsEnv userWorld 1).2.db.selectSession 1).map
      (fun x => x.Status) = some "active" ∧
    (demoService.EndDebate (demoEnv "con")
        (demoService.EndDebate updateFailsEnv userWorld 1).2 1).2.db.selectStats 10 =
      some { UserID := 10, TotalDebates := 5, Wins := 1, Losses := 3, Draws := 1 } :=
  ⟨rfl, by decide, by decide, by decide, by decide⟩

/-- One `EndDebate` call whose session update does not fail either leaves the
database as it is or returns without error and leaves the session finished. -/
theorem end_call_cases (s : Service) (env : Env) (w : World) (sessionID : Int)
    (session0 : DebateSession)
    (hsel : w.db.selectSession sessionID = some session0)
    (hupd : env.fails (Call.UpdateDebateSession sessionID) = false) :
    ((∃ e, (s.EndDebate env w sessionID).1 = .error e) ∧
      (s.EndDebate env w sessionID).2.db = w.db) ∨
    (∃ session verdict stored,
      (s.EndDebate env w sessionID).1 = .ok (session, verdict) ∧
      (s.EndDebate env w sessionID).2.db.selectSession sessionID = some stored ∧
      stored.Status = "finished") := by
  cases h : (s.EndDebate env w sessionID).1 with
  | error e =>
    exact Or.inl ⟨⟨e, rfl⟩, end_error_db s env w sessionID session0 e hsel hupd h⟩
  | ok r =>
    obtain ⟨session, verdict⟩ := r
    exact Or.inr ⟨session, verdict, _, rfl,
      end_ok_session s env w sessionID session0 session verdict hsel h, rfl⟩

theorem runEnds_succ (s : Service) (sessionID : Int) (envs : Nat → Env) (n : Nat) (w : World) :
    s.runEnds sessionID envs (n + 1) w =
      (s.EndDebate (envs n) (s.runEnds sessionID envs n w) sessionID).2 := rfl

/-- The session stays in the store along repeated `EndDebate` calls. -/
theorem runEnds_exists (s : Service) (envs : Nat → Env) (w : World) (sessionID : Int)
    (session0 : DebateSession)
    (hsel : w.db.selectSession sessionID = some session0)
    (hupd : ∀ k, (envs k).fails (Call.UpdateDebateSession sessionID) = false) (k : Nat) :
    ∃ stored, (s.runEnds sessionID envs k w).db.selectSession sessionID = some stored := by
  induction k with
  | zero => exact ⟨session0, hsel⟩
  | succ k ih =>
    obtain ⟨stored, hst⟩ := ih
    rw [runEnds_succ]
    rcases end_call_cases s (envs k) _ sessionID stored hst (hupd k) with
      ⟨-, hdb⟩ | ⟨session, verdict, stored', -, hs, -⟩
    · exact ⟨stored, by rw [hdb]; exact hst⟩
    · exact ⟨stored', hs⟩

/-- Once the session is stored as finished, further `EndDebate` calls leave
the database as it is. -/
theorem runEnds_finished_stable (s : Service) (envs : Nat → Env) (w : World)
    (sessionID : Int) (k : Nat) (stored : DebateSession)
    (hs : (s.runEnds sessionID envs k w).db.selectSession sessionID = some stored)
    (hfin : stored.Status = "finished") (n : Nat) :
    (s.runEnds sessionID envs (k + n) w).db = (s.runEnds sessionID envs k w).db := by
  induction n with
  | zero => rfl
  | succ n ih =>
    have hst : stored.Status ≠ "active" ∧ stored.Status ≠ "ongoing" := by
      rw [hfin]; exact ⟨by decide, by decide⟩
    have hs' : (s.runEnds sessionID envs (k + n) w).db.selectSession sessionID = some stored := by
      rw [ih]; exact hs
    have h := (end_inactive s (envs (k + n)) _ sessionID stored hs' hst).2
    rw [← Nat.add_assoc, runEnds_succ, h, ih]

/-- C12, amended. Along any sequence of `EndDebate` calls on a stored session
in which the session update never fails: a call that changes the statistics
table leaves the stored session with status finished; at most one call of the
sequence changes the statistics table; and a call that returns an error leaves
the statistics table unchanged. -/
theorem stats_once_amended (s : Service) (envs : Nat → Env) (w : World) (sessionID : Int)
    (session0 : DebateSession)
    (hsel : w.db.selectSession sessionID = some session0)
    (hupd : ∀ k, (envs k).fails (Call.UpdateDebateSession sessionID) = false) :
    (∀ k, (s.runEnds sessionID envs (k + 1) w).db.user_stats ≠
        (s.runEnds sessionID envs k w).db.user_stats →
      ((s.runEnds sessionID envs (k + 1) w).db.selectSession sessionID).map
        (fun x => x.Status) = some "finished") ∧
    (∀ i j, i < j →
      (s.runEnds sessionID envs (i + 1) w).db.user_stats ≠
        (s.runEnds sessionID envs i w).db.user_stats →
      (s.runEnds sessionID envs (j + 1) w).db.user_stats =
        (s.runEnds sessionID envs j w).db.user_stats) ∧
    (∀ k e, (s.EndDebate (envs k) (s.runEnds sessionID envs k w) sessionID).1 = .error e →
      (s.runEnds sessionID envs (k + 1) w).db.user_stats =
        (s.runEnds sessionID envs k w).db.user_stats) := by
  have hchanged : ∀ k, (s.runEnds sessionID envs (k + 1) w).db.user_stats ≠
      (s.runEnds sessionID envs k w).db.user_stats →
      ∃ stored, (s.runEnds sessionID envs (k + 1) w).db.selectSession sessionID = some stored ∧
        stored.Status = "finished" := by
    intro k hne
    obtain ⟨stored, hst⟩ := runEnds_exists s envs w sessionID session0 hsel hupd k
    rcases end_call_cases s (envs k) _ sessionID stored hst (hupd k) with
      ⟨-, hdb⟩ | ⟨session, verdict, stored', -, hs, hfin⟩
    · exact absurd (by rw [runEnds_succ, hdb]) hne
    · exact ⟨stored', hs, hfin⟩
  refine ⟨?_, ?_, ?_⟩
  · intro k hne
    obtain ⟨stored, hs, hfin⟩ := hchanged k hne
    rw [hs]
    simp [hfin]
  · intro i j hij hne
    obtain ⟨stored, hs, hfin⟩ := hchanged i hne
    obtain ⟨n, rfl⟩ : ∃ n, j = i + 1 + n := ⟨j - (i + 1), by omega⟩
    rw [runEnds_finished_stable s envs w sessionID (i + 1) stored hs hfin n]
    have h := runEnds_finished_stable s envs w sessionID (i + 1) stored hs hfin (n + 1)
    rw [← Nat.add_assoc] at h
    rw [h]
  · intro k e herr
    obtain ⟨stored, hst⟩ := runEnds_exists s envs w sessionID session0 hsel hupd k
    rw [runEnds_succ, end_error_db s (envs k) _ sessionID stored e hst (hupd k) herr]

/-- Witness of C12 as amended: two calls on the session of user 10 in which
nothing fails: the first one changes the statistics and finishes the session;
the second one returns an error and changes nothing. -/
theorem stats_once_amended_witness :
    (((demoService.runEnds 1 (fun _ => demoEnv "con") (0 + 1) userWorld).db.selectSession 1).map
        (fun x => x.Status) = some "finished") ∧
    ((demoService.runEnds 1 (fun _ => demoEnv "con") (1 + 1) userWorld).db.user_stats =
      (demoService.runEnds 1 (fun _ => demoEnv "con") 1 userWorld).db.user_stats) ∧
    ((demoService.runEnds 1 (fun _ => demoEnv "con") (1 + 1) userWorld).db.user_stats =
      (demoService.runEnds 1 (fun _ => demoEnv "con") 1 userWorld).db.user_stats) :=
  ⟨(stats_once_amended demoService (fun _ => demoEnv "con") userWorld 1
      (demoRow "user_vs_llm" "pro" "active" (some 10)).scan (by decide) (fun _ => rfl)).1 0
      (by decide),
   (stats_once_amended demoService (fun _ => demoEnv "con") userWorld 1
      (demoRow "user_vs_llm" "pro" "active" (some 10)).scan (by decide) (fun _ => rfl)).2.1 0 1
      (by decide) (by decide),
   (stats_once_amended demoService (fun _ => demoEnv "con") userWorld 1
      (demoRow "user_vs_llm" "pro" "active" (some 10)).scan (by decide) (fun _ => rfl)).2.2 1
      "debate has already ended" rfl⟩

/-! ## The prompt assembler -/

/-- C13 (transcript reinterpretation). For every session, transcript and
target role, `buildLLMMessages` returns one leading system instruction
followed by exactly the transcript messages whose role is not `system`, in
transcript order and with their content unchanged, each relabelled
`assistant` if its role is the target role and `user` otherwise. -/
theorem transcript_reinterpretation (session : DebateSession) (messages : List DebateMessage)
    (role : String) :
    ∃ instruction : Message,
      instruction.Role = "system" ∧
      Service.buildLLMMessages session messages role =
        instruction ::
          (messages.filter (fun m => decide (m.Role ≠ "system"))).map
            (fun m =>
              { Role := if m.Role = role then "assistant" else "user", Content := m.Content }) :=
  ⟨_, rfl, buildLLMMessages_eq session messages role⟩

/-- C14, counterexample. For the empty transcript `buildLLMMessages` returns
one message (the system instruction), not zero; for a transcript of three
messages one of which is a system message it returns three, not two. -/
theorem prompt_count_counterexample :
    (Service.buildLLMMessages (demoRow "user_vs_llm" "pro" "active" (some 10)).scan [] "llm").length
      = 1 ∧
    ([] : List DebateMessage).length - roleCount "system" [] = 0 ∧
    (Service.buildLLMMessages (demoRow "user_vs_llm" "pro" "active" (some 10)).scan
      [demoMessage 1 "system", demoMessage 2 "user", demoMessage 3 "llm"] "llm").length = 3 ∧
    [demoMessage 1 "system", demoMessage 2 "user", demoMessage 3 "llm"].length -
      roleCount "system" [demoMessage 1 "system", demoMessage 2 "user", demoMessage 3 "llm"] = 2 :=
  ⟨rfl, rfl, rfl, by decide⟩

/-- C14, amended. For every session, transcript and target role, the number of
messages `buildLLMMessages` returns is one (the leading system instruction)
more than the length of the transcript minus the number of its system-role
entries. -/
theorem prompt_count_amended (session : DebateSession) (messages : List DebateMessage)
    (role : String) :
    (Service.buildLLMMessages session messages role).length =
      (messages.length - roleCount "system" messages) + 1 := by
  rw [buildLLMMessages_eq]
  simp only [List.length_cons, List.length_map, roleCount]
  have h : ∀ l : List DebateMessage,
      (l.filter (fun m => decide (m.Role ≠ "system"))).length +
        l.countP (fun m => decide (m.Role = "system")) = l.length := by
    intro l
    induction l with
    | nil => rfl
    | cons m ms ih =>
      by_cases hm : m.Role = "system"
      · simp [List.filter_cons, List.countP_cons, hm] at ih ⊢
        omega
      · simp [List.filter_cons, List.countP_cons, hm] at ih ⊢
        omega
  have := h messages
  omega

/-! ## `ProcessUserMessage` -/

/-- A session read from the store has no model position: the column does not
exist. -/
theorem selectSession_llmPosition (d : DB) (id : Int) (session : DebateSession)
    (h : d.selectSession id = some session) : session.LLMPosition = "" := by
  unfold DB.selectSession at h
  cases hf : d.debate_sessions.find? (fun r => decide (r.id = id)) with
  | none => simp [hf] at h
  | some r =>
    simp only [hf, Option.map_some', Option.some.injEq] at h
    rw [← h]
    rfl

/-- `ProcessUserMessage` is rejected, with the database unchanged, when the
session is not stored or is neither active nor ongoing. -/
theorem exchange_rejected (s : Service) (env : Env) (w : World) (sessionID : Int)
    (userContent : String) :
    (w.db.selectSession sessionID = none →
      (s.ProcessUserMessage env w sessionID userContent).1 = .error "session not found" ∧
      (s.ProcessUserMessage env w sessionID userContent).2.db = w.db) ∧
    (∀ session0, w.db.selectSession sessionID = some session0 →
      (session0.Status ≠ "active" ∧ session0.Status ≠ "ongoing") →
      (∃ e, (s.ProcessUserMessage env w sessionID userContent).1 = .error e) ∧
      (s.ProcessUserMessage env w sessionID userContent).2.db = w.db ∧
      (env.fails (Call.GetDebateSession sessionID) = false →
        (s.ProcessUserMessage env w sessionID userContent).1 =
          .error "debate has already ended")) := by
  constructor
  · intro hsel
    by_cases hf1 : env.fails (Call.GetDebateSession sessionID) = true
    · simp [Service.ProcessUserMessage, World.log, DB.GetDebateSession, hf1]
    · simp [Service.ProcessUserMessage, World.log, DB.GetDebateSession, hf1, hsel]
  · intro session0 hsel hst
    by_cases hf1 : env.fails (Call.GetDebateSession sessionID) = true
    · simp [Service.ProcessUserMessage, World.log, DB.GetDebateSession, hf1]
    · simp [Service.ProcessUserMessage, World.log, DB.GetDebateSession, hf1, hsel, hst]

/-- `ProcessUserMessage` on an active session whose reads and whose first
write succeed: the world reached when the provider fails, and the result and
the world reached when the provider answers and the second write succeeds. -/
theorem exchange_world (s : Service) (env : Env) (w : World) (sessionID : Int)
    (session0 : DebateSession) (userContent : String)
    (hsel : w.db.selectSession sessionID = some session0)
    (hact : session0.Status = "active" ∨ session0.Status = "ongoing")
    (hf1 : env.fails (Call.GetDebateSession sessionID) = false)
    (hfu : env.fails (Call.CreateMessage sessionID "user" userContent) = false)
    (hf2 : env.fails (Call.GetSessionMessages sessionID) = false) :
    (∀ e, s.client.complete env (exchangePrompt env w sessionID session0 userContent) none =
        .error e →
      s.ProcessUserMessage env w sessionID userContent =
        (.error "failed to get LLM response",
         { db := (w.db.insertMessage env.now sessionID "user" userContent).2
           calls := w.calls ++
             [Call.GetDebateSession sessionID, Call.CreateMessage sessionID "user" userContent,
              Call.GetSessionMessages sessionID,
              Call.ChatCompletion (exchangePrompt env w sessionID session0 userContent)] })) ∧
    (∀ reply, s.client.complete env (exchangePrompt env w sessionID session0 userContent) none =
        .ok reply →
      env.fails (Call.CreateMessage sessionID "llm" reply) = false →
      s.ProcessUserMessage env w sessionID userContent =
        (.ok ((w.db.insertMessage env.now sessionID "user" userContent).1,
              ((w.db.insertMessage env.now sessionID "user" userContent).2.insertMessage env.now
                sessionID "llm" reply).1),
         { db := ((w.db.insertMessage env.now sessionID "user" userContent).2.insertMessage
                    env.now sessionID "llm" reply).2
           calls := w.calls ++
             [Call.GetDebateSession sessionID, Call.CreateMessage sessionID "user" userContent,
              Call.GetSessionMessages sessionID,
              Call.ChatCompletion (exchangePrompt env w sessionID session0 userContent),
              Call.CreateMessage sessionID "llm" reply] })) := by
  have hst : ¬ (session0.Status ≠ "active" ∧ session0.Status ≠ "ongoing") := by
    rintro ⟨h1, h2⟩
    exact hact.elim h1 h2
  constructor
  · intro e hc
    unfold exchangePrompt at hc ⊢
    simp [Service.ProcessUserMessage, World.log, DB.GetDebateSession, DB.CreateMessage,
      DB.GetSessionMessages, Client.ChatCompletion, hf1, hsel, hst, hfu, hf2, hc]
  · intro reply hc hfl
    unfold exchangePrompt at hc ⊢
    simp [Service.ProcessUserMessage, World.log, DB.GetDebateSession, DB.CreateMessage,
      DB.GetSessionMessages, Client.ChatCompletion, hf1, hsel, hst, hfu, hf2, hc, hfl]

theorem exchangePrompt_length_ne (env : Env) (w : World) (sessionID : Int)
    (session0 : DebateSession) (userContent : String) :
    (exchangePrompt env w sessionID session0 userContent).length ≠ 0 :=
  buildLLMMessages_length_ne _ _ _

/-- `ProcessUserMessage` on an active session with the store and the provider
succeeding. -/
theorem exchange_healthy (s : Service) (env : Env) (w : World) (sessionID : Int)
    (session0 : DebateSession) (userContent : String) (hh : Healthy s env)
    (hsel : w.db.selectSession sessionID = some session0)
    (hact : session0.Status = "active" ∨ session0.Status = "ongoing") :
    (s.ProcessUserMessage env w sessionID userContent).1 =
      .ok ((w.db.insertMessage env.now sessionID "user" userContent).1,
           ((w.db.insertMessage env.now sessionID "user" userContent).2.insertMessage env.now
             sessionID "llm"
             (firstChoice env (exchangePrompt env w sessionID session0 userContent) none)).1) ∧
    (s.ProcessUserMessage env w sessionID userContent).2.db =
      ((w.db.insertMessage env.now sessionID "user" userContent).2.insertMessage env.now
        sessionID "llm"
        (firstChoice env (exchangePrompt env w sessionID session0 userContent) none)).2 := by
  have h := (exchange_world s env w sessionID session0 userContent hsel hact (hh.2.1 _)
    (hh.2.1 _) (hh.2.1 _)).2 _
    (complete_healthy s env hh _ (exchangePrompt_length_ne env w sessionID session0 userContent)
      none) (hh.2.1 _)
  rw [h]
  exact ⟨rfl, rfl⟩

/-- The system instruction of the prompt `ProcessUserMessage` sends: whatever
the stored human position is, it names the pro side (賛成), because the session
read from the store carries no model position. -/
theorem exchangePrompt_instruction (env : Env) (w : World) (sessionID : Int)
    (session0 : DebateSession) (userContent : String)
    (hsel : w.db.selectSession sessionID = some session0) :
    (exchangePrompt env w sessionID session0 userContent).head? =
      some { Role := "system", Content := llmSystemPrompt session0.Topic "賛成" } := by
  unfold exchangePrompt
  rw [buildLLMMessages_eq, selectSession_llmPosition _ _ _ hsel]
  simp

/-- C15, the code at the failing input. The human holds the pro side of
session 1; `ProcessUserMessage` with the store and the provider succeeding
makes exactly these five calls, and the system instruction of the prompt it
sends names the pro side (賛成) for the model, not the con side (反対). -/
theorem model_side_bug :
    (userWorld.db.selectSession 1).map (fun x => x.UserPosition) = some "pro" ∧
    newCalls userWorld (demoService.ProcessUserMessage (demoEnv "reply") userWorld 1 "hello").2 =
      [Call.GetDebateSession 1,
       Call.CreateMessage 1 "user" "hello",
       Call.GetSessionMessages 1,
       Call.ChatCompletion
         [{ Role := "system", Content := llmSystemPrompt "X" "賛成" },
          { Role := "user", Content := "text" },
          { Role := "assistant", Content := "text" },
          { Role := "user", Content := "hello" }],
       Call.CreateMessage 1 "llm" "reply"] ∧
    llmSystemPrompt "X" "賛成" ≠ llmSystemPrompt "X" "反対" :=
  ⟨by decide, rfl, by decide⟩

/-- C16 (ExchangeTurn guard and effect). `ProcessUserMessage` returns an error
and leaves the database (so the transcript) unchanged when the session is not
stored or its status is finished. On an active session, with the store and the
provider succeeding, it returns without error and appends exactly two messages:
first a `user` message with the caller's text, then an `llm` message with the
provider's reply; the transcript read afterwards holds the rows of the
transcript before and these two, so it grows by 2. When no stored message of
the session is stamped after the clock reading of the call, the two messages
end the transcript in that order, so its last message is the `llm` message. -/
theorem exchange_turn (s : Service) (env : Env) (w : World) (sessionID : Int)
    (userContent : String) :
    (w.db.selectSession sessionID = none →
      (s.ProcessUserMessage env w sessionID userContent).1 = .error "session not found" ∧
      (s.ProcessUserMessage env w sessionID userContent).2.db = w.db) ∧
    (∀ session0, w.db.selectSession sessionID = some session0 →
      session0.Status = "finished" →
      (∃ e, (s.ProcessUserMessage env w sessionID userContent).1 = .error e) ∧
      (s.ProcessUserMessage env w sessionID userContent).2.db = w.db ∧
      (env.fails (Call.GetDebateSession sessionID) = false →
        (s.ProcessUserMessage env w sessionID userContent).1 =
          .error "debate has already ended")) ∧
    (∀ session0, w.db.selectSession sessionID = some session0 →
      (session0.Status = "active" ∨ session0.Status = "ongoing") →
      Healthy s env →
      ∃ userMsg llmMsg,
        (s.ProcessUserMessage env w sessionID userContent).1 = .ok (userMsg, llmMsg) ∧
        (s.ProcessUserMessage env w sessionID userContent).2.db.debate_messages =
          w.db.debate_messages ++ [userMsg, llmMsg] ∧
        (transcript (s.ProcessUserMessage env w sessionID userContent).2 sessionID).Perm
          (transcript w sessionID ++ [userMsg, llmMsg]) ∧
        userMsg.Role = "user" ∧ userMsg.Content = userContent ∧
        llmMsg.Role = "llm" ∧
        llmMsg.Content =
          firstChoice env (exchangePrompt env w sessionID session0 userContent) none ∧
        (transcript (s.ProcessUserMessage env w sessionID userContent).2 sessionID).length =
          (transcript w sessionID).length + 2 ∧
        (w.db.Timely sessionID env.now →
          transcript (s.ProcessUserMessage env w sessionID userContent).2 sessionID =
            transcript w sessionID ++ [userMsg, llmMsg] ∧
          (transcript (s.ProcessUserMessage env w sessionID userContent).2 sessionID).getLast? =
            some llmMsg)) := by
  refine ⟨(exchange_rejected s env w sessionID userContent).1, ?_, ?_⟩
  · intro session0 hsel hfin
    exact (exchange_rejected s env w sessionID userContent).2 session0 hsel
      (by rw [hfin]; exact ⟨by decide, by decide⟩)
  · intro session0 hsel hact hh
    obtain ⟨hres, hdb⟩ := exchange_healthy s env w sessionID session0 userContent hh hsel hact
    have hperm : (transcript (s.ProcessUserMessage env w sessionID userContent).2 sessionID).Perm
        (transcript w sessionID ++
          [(w.db.insertMessage env.now sessionID "user" userContent).1,
           ((w.db.insertMessage env.now sessionID "user" userContent).2.insertMessage env.now
             sessionID "llm"
             (firstChoice env (exchangePrompt env w sessionID session0 userContent)
               none)).1]) := by
      unfold transcript
      rw [hdb]
      refine (selectMessages_insertMessage_perm _ _ _ _ _).trans ?_
      have h1 := selectMessages_insertMessage_perm w.db env.now sessionID "user" userContent
      have h2 := List.Perm.append_right
        [((w.db.insertMessage env.now sessionID "user" userContent).2.insertMessage env.now
          sessionID "llm"
          (firstChoice env (exchangePrompt env w sessionID session0 userContent) none)).1] h1
      simpa [List.append_assoc] using h2
    have htr : w.db.Timely sessionID env.now →
        transcript (s.ProcessUserMessage env w sessionID userContent).2 sessionID =
          transcript w sessionID ++
            [(w.db.insertMessage env.now sessionID "user" userContent).1,
             ((w.db.insertMessage env.now sessionID "user" userContent).2.insertMessage env.now
               sessionID "llm"
               (firstChoice env (exchangePrompt env w sessionID session0 userContent)
                 none)).1] := by
      intro htime
      unfold transcript
      rw [hdb, selectMessages_insertMessage _ _ _ _ _
          (timely_insertMessage _ _ _ _ _ htime),
        selectMessages_insertMessage _ _ _ _ _ htime]
      simp
    refine ⟨_, _, hres, ?_, hperm, rfl, rfl, rfl, rfl, ?_, ?_⟩
    · rw [hdb]
      simp [DB.insertMessage]
    · rw [hperm.length_eq]
      simp
    · intro htime
      refine ⟨htr htime, ?_⟩
      rw [htr htime]
      simp

/-- Witness of C16: an unknown session, a finished session, and an exchange on
the active session of user 10. -/
theorem exchange_turn_witness :
    ((demoService.ProcessUserMessage (demoEnv "reply") userWorld 2 "hello").1 =
        .error "session not found" ∧
      (demoService.ProcessUserMessage (demoEnv "reply") userWorld 2 "hello").2.db =
        userWorld.db) ∧
    ((demoService.ProcessUserMessage (demoEnv "reply") finishedWorld 1 "hello").2.db =
        finishedWorld.db ∧
      (demoService.ProcessUserMessage (demoEnv "reply") finishedWorld 1 "hello").1 =
        .error "debate has already ended") ∧
    userWorld.db.Timely 1 (demoEnv "reply").now ∧
    (∃ userMsg llmMsg,
      (demoService.ProcessUserMessage (demoEnv "reply") userWorld 1 "hello").1 =
        .ok (userMsg, llmMsg) ∧
      (demoService.ProcessUserMessage (demoEnv "reply") userWorld 1 "hello").2.db.debate_messages =
        userWorld.db.debate_messages ++ [userMsg, llmMsg] ∧
      userMsg.Role = "user" ∧ userMsg.Content = "hello" ∧
      llmMsg.Role = "llm" ∧
      (transcript (demoService.ProcessUserMessage (demoEnv "reply") userWorld 1 "hello").2 1).length =
        (transcript userWorld 1).length + 2 ∧
      transcript (demoService.ProcessUserMessage (demoEnv "reply") userWorld 1 "hello").2 1 =
        transcript userWorld 1 ++ [userMsg, llmMsg] ∧
      (transcript (demoService.ProcessUserMessage (demoEnv "reply") userWorld 1 "hello").2
        1).getLast? = some llmMsg) :=
  ⟨(exchange_turn demoService (demoEnv "reply") userWorld 2 "hello").1 (by decide),
   ⟨((exchange_turn demoService (demoEnv "reply") finishedWorld 1 "hello").2.1
      (SessionRow.scan
        { demoRow "user_vs_llm" "pro" "finished" (some 10) with
          winner := some "user", judge_comment := some "good debate", ended_at := some 5 })
      (by decide) (by decide)).2.1,
    ((exchange_turn demoService (demoEnv "reply") finishedWorld 1 "hello").2.1
      (SessionRow.scan
        { demoRow "user_vs_llm" "pro" "finished" (some 10) with
          winner := some "user", judge_comment := some "good debate", ended_at := some 5 })
      (by decide) (by decide)).2.2 rfl⟩,
   by decide,
   ((exchange_turn demoService (demoEnv "reply") userWorld 1 "hello").2.2
      (demoRow "user_vs_llm" "pro" "active" (some 10)).scan (by decide) (Or.inl (by decide))
      (demo_healthy "reply")).elim
     fun userMsg h => h.elim fun llmMsg h =>
       ⟨userMsg, llmMsg, h.1, h.2.1, h.2.2.2.1, h.2.2.2.2.1, h.2.2.2.2.2.1,
        h.2.2.2.2.2.2.2.1, (h.2.2.2.2.2.2.2.2 (by decide)).1,
        (h.2.2.2.2.2.2.2.2 (by decide)).2⟩⟩

/-- C17 (half-applied ExchangeTurn). On an active session, when the reads and
the write of the caller's message succeed and the provider call fails,
`ProcessUserMessage` returns an error (so no message), and the message table
is the one before the call plus exactly one `user` message holding the caller's
text; the transcript read afterwards holds the rows of the transcript before
and that message, and no `llm` message is added. When no stored message of the
session is stamped after the clock reading of the call, the transcript is the
one before followed by that message. -/
theorem half_applied_exchange (s : Service) (env : Env) (w : World) (sessionID : Int)
    (session0 : DebateSession) (userContent e : String)
    (hsel : w.db.selectSession sessionID = some session0)
    (hact : session0.Status = "active" ∨ session0.Status = "ongoing")
    (hf1 : env.fails (Call.GetDebateSession sessionID) = false)
    (hfu : env.fails (Call.CreateMessage sessionID "user" userContent) = false)
    (hf2 : env.fails (Call.GetSessionMessages sessionID) = false)
    (hprov : s.client.complete env (exchangePrompt env w sessionID session0 userContent) none =
      .error e) :
    (s.ProcessUserMessage env w sessionID userContent).1 = .error "failed to get LLM response" ∧
    ∃ userMsg : DebateMessage,
      userMsg.Role = "user" ∧ userMsg.Content = userContent ∧ userMsg.SessionID = sessionID ∧
      (s.ProcessUserMessage env w sessionID userContent).2.db.debate_messages =
        w.db.debate_messages ++ [userMsg] ∧
      (transcript (s.ProcessUserMessage env w sessionID userContent).2 sessionID).Perm
        (transcript w sessionID ++ [userMsg]) ∧
      (w.db.Timely sessionID env.now →
        transcript (s.ProcessUserMessage env w sessionID userContent).2 sessionID =
          transcript w sessionID ++ [userMsg]) ∧
      roleCount "llm" (transcript (s.ProcessUserMessage env w sessionID userContent).2 sessionID) =
        roleCount "llm" (transcript w sessionID) := by
  have h := (exchange_world s env w sessionID session0 userContent hsel hact hf1 hfu hf2).1 e
    hprov
  rw [h]
  refine ⟨rfl, (w.db.insertMessage env.now sessionID "user" userContent).1, rfl, rfl, rfl, rfl,
    ?_, ?_, ?_⟩
  · unfold transcript
    exact selectMessages_insertMessage_perm _ _ _ _ _
  · intro htime
    unfold transcript
    simp only
    rw [selectMessages_insertMessage _ _ _ _ _ htime]
  · unfold transcript
    simp only
    rw [roleCount_insertMessage]
    have h2 : ¬ ("user" = "llm") := by decide
    simp [h2]

/-- Witness of C17: the provider fails during an exchange on the session of
user 10. -/
theorem half_applied_exchange_witness :
    userWorld.db.Timely 1 silentEnv.now ∧
    (demoService.ProcessUserMessage silentEnv userWorld 1 "hello").1 =
      .error "failed to get LLM response" ∧
    ∃ userMsg : DebateMessage,
      userMsg.Role = "user" ∧ userMsg.Content = "hello" ∧ userMsg.SessionID = 1 ∧
      (demoService.ProcessUserMessage silentEnv userWorld 1 "hello").2.db.debate_messages =
        userWorld.db.debate_messages ++ [userMsg] ∧
      transcript (demoService.ProcessUserMessage silentEnv userWorld 1 "hello").2 1 =
        transcript userWorld 1 ++ [userMsg] ∧
      roleCount "llm" (transcript (demoService.ProcessUserMessage silentEnv userWorld 1 "hello").2 1) =
        roleCount "llm" (transcript userWorld 1) :=
  ⟨by decide,
   (half_applied_exchange demoService silentEnv userWorld 1
      (demoRow "user_vs_llm" "pro" "active" (some 10)).scan "hello" "request failed"
      (by decide) (Or.inl (by decide)) rfl rfl rfl rfl).1,
   match (half_applied_exchange demoService silentEnv userWorld 1
      (demoRow "user_vs_llm" "pro" "active" (some 10)).scan "hello" "request failed"
      (by decide) (Or.inl (by decide)) rfl rfl rfl rfl).2 with
   | ⟨userMsg, hrole, hcontent, hid, htable, _, hlast, hcount⟩ =>
     ⟨userMsg, hrole, hcontent, hid, htable, hlast (by decide), hcount⟩⟩

/-- C18, counterexample. `ProcessLLMDebateStep` on the active `user_vs_llm`
session of user 10 returns without error and appends an `llm1` message;
`ProcessUserMessage` on an active `llm_vs_llm` session returns without error
and appends a `user` and an `llm` message. -/
theorem mode_guard_counterexample :
    ((userWorld.db.selectSession 1).map (fun x => x.Mode) = some "user_vs_llm" ∧
      (demoService.ProcessLLMDebateStep (demoEnv "a") userWorld 1).1 =
        .ok (some { ID := 4, SessionID := 1, Role := "llm1", Content := "a", CreatedAt := 7 },
             none, false) ∧
      (demoService.ProcessLLMDebateStep (demoEnv "a") userWorld 1).2.db.debate_messages =
        userWorld.db.debate_messages ++
          [{ ID := 4, SessionID := 1, Role := "llm1", Content := "a", CreatedAt := 7 }]) ∧
    ((freshWorld.db.selectSession 1).map (fun x => x.Mode) = some "llm_vs_llm" ∧
      (demoService.ProcessUserMessage (demoEnv "reply") freshWorld 1 "hello").1 =
        .ok ({ ID := 2, SessionID := 1, Role := "user", Content := "hello", CreatedAt := 7 },
             { ID := 3, SessionID := 1, Role := "llm", Content := "reply", CreatedAt := 7 }) ∧
      (demoService.ProcessUserMessage (demoEnv "reply") freshWorld 1 "hello").2.db.debate_messages =
        freshWorld.db.debate_messages ++
          [{ ID := 2, SessionID := 1, Role := "user", Content := "hello", CreatedAt := 7 },
           { ID := 3, SessionID := 1, Role := "llm", Content := "reply", CreatedAt := 7 }]) :=
  ⟨⟨by decide, rfl, by decide⟩, ⟨by decide, rfl, by decide⟩⟩

/-- C18, amended. Neither operation looks at the mode of the session. With the
store and the provider succeeding, `ProcessLLMDebateStep` on an active
`user_vs_llm` session below the cap returns without error and appends one
agent message, and `ProcessUserMessage` on an active `llm_vs_llm` session
returns without error and appends a `user` and an `llm` message. -/
theorem mode_guard_amended :
    (∀ (s : Service) (env : Env) (w : World) (sessionID : Int) (session0 : DebateSession),
      w.db.selectSession sessionID = some session0 →
      session0.Mode = "user_vs_llm" →
      (session0.Status = "active" ∨ session0.Status = "ongoing") →
      Healthy s env →
      ¬ (5 ≤ roleCount "llm1" (transcript w sessionID) ∧
          5 ≤ roleCount "llm2" (transcript w sessionID)) →
      ∃ r msg,
        (s.ProcessLLMDebateStep env w sessionID).1 = .ok r ∧
        (msg.Role = "llm1" ∨ msg.Role = "llm2") ∧
        (s.ProcessLLMDebateStep env w sessionID).2.db.debate_messages =
          w.db.debate_messages ++ [msg]) ∧
    (∀ (s : Service) (env : Env) (w : World) (sessionID : Int) (session0 : DebateSession)
      (userContent : String),
      w.db.selectSession sessionID = some session0 →
      session0.Mode = "llm_vs_llm" →
      (session0.Status = "active" ∨ session0.Status = "ongoing") →
      Healthy s env →
      ∃ userMsg llmMsg,
        (s.ProcessUserMessage env w sessionID userContent).1 = .ok (userMsg, llmMsg) ∧
        userMsg.Role = "user" ∧ llmMsg.Role = "llm" ∧
        (s.ProcessUserMessage env w sessionID userContent).2.db.debate_messages =
          w.db.debate_messages ++ [userMsg, llmMsg]) := by
  constructor
  · intro s env w sessionID session0 hsel _ hact hh hcap
    obtain ⟨response, hdb, hres⟩ := (step_healthy s env w sessionID session0 hh hsel hact).2 hcap
    refine ⟨_, _, hres, ?_, by rw [hdb]; rfl⟩
    by_cases hle : roleCount "llm1" (transcript w sessionID) ≤
        roleCount "llm2" (transcript w sessionID)
    · simp [hle, DB.insertMessage]
    · simp [hle, DB.insertMessage]
  · intro s env w sessionID session0 userContent hsel _ hact hh
    obtain ⟨hres, hdb⟩ := exchange_healthy s env w sessionID session0 userContent hh hsel hact
    refine ⟨_, _, hres, rfl, rfl, ?_⟩
    rw [hdb]
    simp [DB.insertMessage]

/-- Witness of C18 as amended: a step on the `user_vs_llm` session of user 10
and an exchange on a fresh `llm_vs_llm` session. -/
theorem mode_guard_amended_witness :
    (∃ r msg,
      (demoService.ProcessLLMDebateStep (demoEnv "a") userWorld 1).1 = .ok r ∧
      (msg.Role = "llm1" ∨ msg.Role = "llm2") ∧
      (demoService.ProcessLLMDebateStep (demoEnv "a") userWorld 1).2.db.debate_messages =
        userWorld.db.debate_messages ++ [msg]) ∧
    (∃ userMsg llmMsg,
      (demoService.ProcessUserMessage (demoEnv "reply") freshWorld 1 "hello").1 =
        .ok (userMsg, llmMsg) ∧
      userMsg.Role = "user" ∧ llmMsg.Role = "llm" ∧
      (demoService.ProcessUserMessage (demoEnv "reply") freshWorld 1 "hello").2.db.debate_messages =
        freshWorld.db.debate_messages ++ [userMsg, llmMsg]) :=
  ⟨mode_guard_amended.1 demoService (demoEnv "a") userWorld 1
      (demoRow "user_vs_llm" "pro" "active" (some 10)).scan (by decide) (by decide)
      (Or.inl (by decide)) (demo_healthy "a") (by decide),
   mode_guard_amended.2 demoService (demoEnv "reply") freshWorld 1
      (demoRow "llm_vs_llm" "" "active" none).scan "hello" (by decide) (by decide)
      (Or.inl (by decide)) (demo_healthy "reply")⟩

/-! ## `CreateDebateSession` -/

/-- On a well-formed store the row just inserted is the one read back. -/
theorem insertSession_selectSession (env : Env) (w : World) (userID : Option Int)
    (req : CreateDebateRequest) (topic : String)
    (hwf : ∀ r ∈ w.db.debate_sessions, r.id ≤ w.db.seq_sessions) :
    (w.db.insertSession env.now userID req.Mode topic (createUserPosition env req)).2.selectSession
        (w.db.seq_sessions + 1) =
      some (createdRow env w userID req topic).scan := by
  have hnone : w.db.debate_sessions.find? (fun r => decide (r.id = w.db.seq_sessions + 1)) =
      none := by
    rw [List.find?_eq_none]
    intro r hr
    have := hwf r hr
    simp only [decide_eq_true_eq]
    omega
  simp [DB.insertSession, DB.selectSession, List.find?_append, hnone, createdRow]

/-- On a well-formed store the session id handed out next has no message. -/
theorem filter_next (d : DB)
    (hwf : ∀ m ∈ d.debate_messages, m.SessionID ≤ d.seq_sessions) :
    d.debate_messages.filter (fun m => decide (m.SessionID = d.seq_sessions + 1)) = [] := by
  rw [List.filter_eq_nil_iff]
  intro m hm
  have := hwf m hm
  simp only [decide_eq_true_eq]
  omega

theorem selectMessages_next (d : DB)
    (hwf : ∀ m ∈ d.debate_messages, m.SessionID ≤ d.seq_sessions) :
    d.selectMessages (d.seq_sessions + 1) = [] := by
  unfold DB.selectMessages
  rw [filter_next d hwf]
  rfl

theorem createPositions_fields (req : CreateDebateRequest) (userPosition : String)
    (session : DebateSession) :
    (createPositions req userPosition session).ID = session.ID ∧
    (createPositions req userPosition session).Status = session.Status ∧
    (createPositions req userPosition session).Topic = session.Topic := by
  unfold createPositions
  split
  · exact ⟨rfl, rfl, rfl⟩
  · split <;> exact ⟨rfl, rfl, rfl⟩

/-- A successful `createWithTopic`: the topic data is passed through, the
returned session is the row read back with its position fields filled, and the
final world is reached by the write of the system message. -/
theorem createWithTopic_ok (env : Env) (w : World) (userID : Option Int)
    (req : CreateDebateRequest) (topic : String) (topicInfo info : Option DebateTopicResponse)
    (session : DebateSession)
    (hok : (Service.createWithTopic env w userID req topic topicInfo).1 = .ok (session, info)) :
    info = topicInfo ∧
    ∃ stored,
      (w.db.insertSession env.now userID req.Mode topic
        (createUserPosition env req)).2.selectSession (w.db.seq_sessions + 1) = some stored ∧
      session = createPositions req (createUserPosition env req) stored ∧
      (Service.createWithTopic env w userID req topic topicInfo).2 =
        (DB.CreateMessage env
          { db := (w.db.insertSession env.now userID req.Mode topic
                    (createUserPosition env req)).2
            calls := w.calls ++
              [Call.CreateDebateSession userID req.Mode topic (createUserPosition env req),
               Call.GetDebateSession (w.db.seq_sessions + 1)] }
          stored.ID "system" (createSystemContent topic topicInfo)).2 := by
  by_cases hf1 : env.fails
      (Call.CreateDebateSession userID req.Mode topic (createUserPosition env req)) = true
  · simp [Service.createWithTopic, DB.CreateDebateSession, World.log, hf1] at hok
  by_cases hf2 : env.fails (Call.GetDebateSession (w.db.seq_sessions + 1)) = true
  · simp [Service.createWithTopic, DB.CreateDebateSession, DB.GetDebateSession, World.log, hf1,
      DB.insertSession, hf2] at hok
  cases hsel : (w.db.insertSession env.now userID req.Mode topic
      (createUserPosition env req)).2.selectSession (w.db.seq_sessions + 1) with
  | none =>
    have hsel' := hsel
    simp only [DB.insertSession] at hsel'
    simp [Service.createWithTopic, DB.CreateDebateSession, DB.GetDebateSession, World.log, hf1,
      DB.insertSession, hf2, hsel'] at hok
  | some stored =>
    have hsel' := hsel
    simp only [DB.insertSession] at hsel'
    simp only [Service.createWithTopic, DB.CreateDebateSession, DB.GetDebateSession, World.log,
      hf1, DB.insertSession, hf2, hsel', Bool.false_eq_true, if_false, Except.ok.injEq,
      Prod.mk.injEq] at hok ⊢
    refine ⟨hok.2.symm, stored, rfl, hok.1.symm, ?_⟩
    simp [List.append_assoc]

/-- The two ways `CreateDebateSession` reaches `createWithTopic`: with the
given topic and no provider call, or with a generated topic. -/
theorem create_ok (s : Service) (env : Env) (w : World) (userID : Option Int)
    (req : CreateDebateRequest) (session : DebateSession) (info : Option DebateTopicResponse)
    (hok : (s.CreateDebateSession env w userID req).1 = .ok (session, info)) :
    ∃ w0 topic,
      w0.db = w.db ∧
      s.CreateDebateSession env w userID req =
        Service.createWithTopic env w0 userID req topic info ∧
      ((req.RandomizeTopic = false ∧ req.Topic ≠ "" ∧ topic = req.Topic ∧ info = none ∧ w0 = w) ∨
       ((req.RandomizeTopic = true ∨ req.Topic = "") ∧
          ∃ generated, info = some generated ∧ topic = generated.Topic)) := by
  by_cases hr : req.RandomizeTopic = true ∨ req.Topic = ""
  · cases hc : s.client.complete env topicMessages (some "debate_topic") with
    | error e =>
      simp [Service.CreateDebateSession, hr, Service.GenerateRandomTopic,
        Client.ChatCompletionWithSchema, hc] at hok
    | ok response =>
      cases hu : env.UnmarshalTopic response with
      | none =>
        simp [Service.CreateDebateSession, hr, Service.GenerateRandomTopic,
          Client.ChatCompletionWithSchema, hc, hu] at hok
      | some generated =>
        have heq : s.CreateDebateSession env w userID req =
            Service.createWithTopic env
              (w.log (Call.ChatCompletionWithSchema topicMessages "debate_topic")) userID req
              generated.Topic (some generated) := by
          simp [Service.CreateDebateSession, hr, Service.GenerateRandomTopic,
            Client.ChatCompletionWithSchema, hc, hu]
        rw [heq] at hok
        have hinfo := (createWithTopic_ok env _ userID req generated.Topic (some generated) info
          session hok).1
        exact ⟨w.log (Call.ChatCompletionWithSchema topicMessages "debate_topic"),
          generated.Topic, rfl, by rw [heq, hinfo], Or.inr ⟨hr, generated, hinfo, rfl⟩⟩
  · have heq : s.CreateDebateSession env w userID req =
        Service.createWithTopic env w userID req req.Topic none := by
      simp [Service.CreateDebateSession, hr]
    rw [heq] at hok
    have hinfo := (createWithTopic_ok env _ userID req req.Topic none info session hok).1
    have hr' : req.RandomizeTopic = false ∧ req.Topic ≠ "" := by
      constructor
      · cases h : req.RandomizeTopic with
        | false => rfl
        | true => exact absurd (Or.inl h) hr
      · exact fun h => hr (Or.inr h)
    exact ⟨w, req.Topic, rfl, by rw [heq, hinfo], Or.inl ⟨hr'.1, hr'.2, rfl, hinfo, rfl⟩⟩

/-- C19, counterexample. A `user_vs_llm` request that carries the position
`maybe` and asks for no randomization succeeds; the returned session has the
human position `maybe`, which is neither pro nor con, and the model position
`pro`. -/
theorem position_assignment_counterexample :
    (demoService.CreateDebateSession (demoEnv "a") emptyWorld (some 10)
        (demoRequest "user_vs_llm" "maybe")).1 =
      .ok ({ ID := 1, UserID := some 10, Topic := "X", UserPosition := "maybe",
             LLMPosition := "pro", LLM1Position := "", LLM2Position := "",
             Mode := "user_vs_llm", Status := "active", Winner := none, JudgeComment := none,
             CreatedAt := 7, FinishedAt := none }, none) ∧
    "maybe" ≠ "pro" ∧ "maybe" ≠ "con" :=
  ⟨rfl, by decide, by decide⟩

/-- C19, amended. For every successful `CreateDebateSession`: in mode
`user_vs_llm`, when the request asks for a random position or carries the
empty position, `random`, `pro` or `con`, the returned human position is pro or
con and the model position is the other of the two, and an explicit pro or con
without randomization is kept as given; in mode `llm_vs_llm` agent 1 is pro
and agent 2 is con, and (on a well-formed store) the human position is empty. -/
theorem position_assignment_amended (s : Service) (env : Env) (w : World)
    (userID : Option Int) (req : CreateDebateRequest) (session : DebateSession)
    (info : Option DebateTopicResponse)
    (hok : (s.CreateDebateSession env w userID req).1 = .ok (session, info)) :
    (req.Mode = "user_vs_llm" →
      (req.RandomizePosition = true ∨ req.UserPosition = "" ∨ req.UserPosition = "random" ∨
        req.UserPosition = "pro" ∨ req.UserPosition = "con") →
      ((session.UserPosition = "pro" ∧ session.LLMPosition = "con") ∨
        (session.UserPosition = "con" ∧ session.LLMPosition = "pro")) ∧
      (req.RandomizePosition = false → (req.UserPosition = "pro" ∨ req.UserPosition = "con") →
        session.UserPosition = req.UserPosition)) ∧
    (req.Mode = "llm_vs_llm" →
      session.LLM1Position = "pro" ∧ session.LLM2Position = "con" ∧
      (w.db.WellFormed → session.UserPosition = "")) := by
  obtain ⟨w0, topic, hdb, heq, -⟩ := create_ok s env w userID req session info hok
  rw [heq] at hok
  obtain ⟨-, stored, hsel, hses, -⟩ := createWithTopic_ok env w0 userID req topic info info
    session hok
  have h1 : ¬ ("pro" = "con") := by decide
  have h2 : ¬ ("con" = "pro") := by decide
  have h3 : ¬ ("pro" = "") := by decide
  have h4 : ¬ ("con" = "") := by decide
  have h5 : ¬ ("pro" = "random") := by decide
  have h6 : ¬ ("con" = "random") := by decide
  constructor
  · intro hm hpos
    rw [hses]
    simp only [createPositions, hm, if_true, createUserPosition]
    by_cases hrand : req.RandomizePosition = true ∨ req.UserPosition = "" ∨
        req.UserPosition = "random"
    · simp only [hrand, if_true]
      constructor
      · by_cases hi : env.Intn 2 = 0
        · simp [hi, h1]
        · simp [hi, h2]
      · intro hno hpc
        rcases hrand with h | h | h
        · rw [hno] at h; exact absurd h (by decide)
        · rcases hpc with hp | hp <;> rw [hp] at h <;> simp [h3, h4] at h
        · rcases hpc with hp | hp <;> rw [hp] at h <;> simp [h5, h6] at h
    · simp only [hrand, if_false]
      have hpc : req.UserPosition = "pro" ∨ req.UserPosition = "con" := by
        rcases hpos with h | h | h | h | h
        · exact absurd (Or.inl h) hrand
        · exact absurd (Or.inr (Or.inl h)) hrand
        · exact absurd (Or.inr (Or.inr h)) hrand
        · exact Or.inl h
        · exact Or.inr h
      constructor
      · rcases hpc with hp | hp
        · simp [hp, h1]
        · simp [hp, h2]
      · intro _ _
        trivial
  · intro hm
    have hne : ¬ (req.Mode = "user_vs_llm") := by rw [hm]; decide
    have hdec : ¬ ("llm_vs_llm" = "user_vs_llm") := by decide
    rw [hses]
    simp only [createPositions, hm, hdec, if_true, if_false, true_and]
    intro hwf
    have hwf0 : ∀ r ∈ w0.db.debate_sessions, r.id ≤ w0.db.seq_sessions := by
      rw [hdb]; exact hwf.1
    rw [insertSession_selectSession env w0 userID req topic hwf0] at hsel
    rw [← Option.some.inj hsel]
    simp [createdRow, SessionRow.scan, createUserPosition, hne]

/-- Witness of C19 as amended: an explicit pro in mode `user_vs_llm`, and a
request in mode `llm_vs_llm`, on a store without sessions. -/
theorem position_assignment_amended_witness :
    ((((createPositions (demoRequest "user_vs_llm" "pro") "pro"
            (createdRow (demoEnv "a") emptyWorld (some 10) (demoRequest "user_vs_llm" "pro")
              "X").scan).UserPosition = "pro" ∧
        (createPositions (demoRequest "user_vs_llm" "pro") "pro"
            (createdRow (demoEnv "a") emptyWorld (some 10) (demoRequest "user_vs_llm" "pro")
              "X").scan).LLMPosition = "con") ∨
       ((createPositions (demoRequest "user_vs_llm" "pro") "pro"
            (createdRow (demoEnv "a") emptyWorld (some 10) (demoRequest "user_vs_llm" "pro")
              "X").scan).UserPosition = "con" ∧
        (createPositions (demoRequest "user_vs_llm" "pro") "pro"
            (createdRow (demoEnv "a") emptyWorld (some 10) (demoRequest "user_vs_llm" "pro")
              "X").scan).LLMPosition = "pro")) ∧
      (createPositions (demoRequest "user_vs_llm" "pro") "pro"
          (createdRow (demoEnv "a") emptyWorld (some 10) (demoRequest "user_vs_llm" "pro")
            "X").scan).UserPosition = (demoRequest "user_vs_llm" "pro").UserPosition) ∧
    ((createPositions (demoRequest "llm_vs_llm" "") ""
          (createdRow (demoEnv "a") emptyWorld none (demoRequest "llm_vs_llm" "")
            "X").scan).LLM1Position = "pro" ∧
      (createPositions (demoRequest "llm_vs_llm" "") ""
          (createdRow (demoEnv "a") emptyWorld none (demoRequest "llm_vs_llm" "")
            "X").scan).LLM2Position = "con" ∧
      (createPositions (demoRequest "llm_vs_llm" "") ""
          (createdRow (demoEnv "a") emptyWorld none (demoRequest "llm_vs_llm" "")
            "X").scan).UserPosition = "") :=
  ⟨((position_assignment_amended demoService (demoEnv "a") emptyWorld (some 10)
        (demoRequest "user_vs_llm" "pro")
        (createPositions (demoRequest "user_vs_llm" "pro") "pro"
          (createdRow (demoEnv "a") emptyWorld (some 10) (demoRequest "user_vs_llm" "pro")
            "X").scan)
        none rfl).1 (by decide) (Or.inr (Or.inr (Or.inr (Or.inl (by decide)))))).elim
      fun h1 h2 => ⟨h1, h2 (by decide) (Or.inl (by decide))⟩,
   ((position_assignment_amended demoService (demoEnv "a") emptyWorld none
        (demoRequest "llm_vs_llm" "")
        (createPositions (demoRequest "llm_vs_llm" "") ""
          (createdRow (demoEnv "a") emptyWorld none (demoRequest "llm_vs_llm" "") "X").scan)
        none rfl).2 (by decide)).elim
      fun h1 h2 => ⟨h1, h2.1, h2.2 (by decide)⟩⟩

/-- With a fixed topic `CreateDebateSession` is `createWithTopic` on the given
topic, and none of its calls is a provider call. -/
theorem create_fixed_topic_calls (s : Service) (env : Env) (w : World) (userID : Option Int)
    (req : CreateDebateRequest) (hr : req.RandomizeTopic = false) (ht : req.Topic ≠ "") :
    ∀ c ∈ newCalls w (s.CreateDebateSession env w userID req).2,
      (∀ messages, c ≠ Call.ChatCompletion messages) ∧
      (∀ messages schemaName, c ≠ Call.ChatCompletionWithSchema messages schemaName) := by
  have hcond : ¬ (req.RandomizeTopic = true ∨ req.Topic = "") := by
    rintro (h | h)
    · rw [hr] at h; exact absurd h (by decide)
    · exact ht h
  by_cases hf1 : env.fails
      (Call.CreateDebateSession userID req.Mode req.Topic (createUserPosition env req)) = true
  · simp [Service.CreateDebateSession, hcond, Service.createWithTopic, DB.CreateDebateSession,
      World.log, hf1, newCalls]
  by_cases hf2 : env.fails (Call.GetDebateSession (w.db.seq_sessions + 1)) = true
  · simp [Service.CreateDebateSession, hcond, Service.createWithTopic, DB.CreateDebateSession,
      DB.GetDebateSession, World.log, hf1, DB.insertSession, hf2, newCalls]
  cases hsel : (w.db.insertSession env.now userID req.Mode req.Topic
      (createUserPosition env req)).2.selectSession (w.db.seq_sessions + 1) with
  | none =>
    simp only [DB.insertSession] at hsel
    simp [Service.CreateDebateSession, hcond, Service.createWithTopic, DB.CreateDebateSession,
      DB.GetDebateSession, World.log, hf1, DB.insertSession, hf2, hsel, newCalls]
  | some stored =>
    simp only [DB.insertSession] at hsel
    by_cases hf3 : env.fails
        (Call.CreateMessage stored.ID "system" (createSystemContent req.Topic none)) = true
    · simp [Service.CreateDebateSession, hcond, Service.createWithTopic, DB.CreateDebateSession,
        DB.GetDebateSession, World.log, hf1, DB.insertSession, hf2, hsel, DB.CreateMessage, hf3,
        newCalls]
    · simp [Service.CreateDebateSession, hcond, Service.createWithTopic, DB.CreateDebateSession,
        DB.GetDebateSession, World.log, hf1, DB.insertSession, hf2, hsel, DB.CreateMessage, hf3,
        newCalls]

/-- C20, counterexample. The write of the system message fails: the call still
returns a session, and the transcript of that session is empty. -/
theorem briefing_counterexample :
    (demoService.CreateDebateSession noMessageEnv emptyWorld (some 10)
        (demoRequest "user_vs_llm" "pro")).1 =
      .ok ({ ID := 1, UserID := some 10, Topic := "X", UserPosition := "pro",
             LLMPosition := "con", LLM1Position := "", LLM2Position := "",
             Mode := "user_vs_llm", Status := "active", Winner := none, JudgeComment := none,
             CreatedAt := 7, FinishedAt := none }, none) ∧
    transcript (demoService.CreateDebateSession noMessageEnv emptyWorld (some 10)
      (demoRequest "user_vs_llm" "pro")).2 1 = [] :=
  ⟨rfl, by decide⟩

/-- C20, amended. On a well-formed store, every `CreateDebateSession` call that
returns a session returns it with status active; if the write of the system
message does not fail, the transcript of that session is exactly one message,
of role `system`, whose content is the topic line, followed, when the topic
was generated, by the pro and con position descriptions and the background.
With a non-empty fixed topic and no topic randomization the returned topic is
the given one, no topic data is returned, and no call of the operation is a
provider call. -/
theorem briefing_amended :
    (∀ (s : Service) (env : Env) (w : World) (userID : Option Int) (req : CreateDebateRequest)
      (session : DebateSession) (info : Option DebateTopicResponse),
      w.db.WellFormed →
      (s.CreateDebateSession env w userID req).1 = .ok (session, info) →
      session.Status = "active" ∧
      (env.fails (Call.CreateMessage session.ID "system"
          (createSystemContent session.Topic info)) = false →
        ∃ msg : DebateMessage,
          transcript (s.CreateDebateSession env w userID req).2 session.ID = [msg] ∧
          msg.Role = "system" ∧
          msg.Content = createSystemContent session.Topic info) ∧
      (info = none →
        createSystemContent session.Topic info = "ディベートテーマ: " ++ session.Topic ++ "\n") ∧
      (∀ generated, info = some generated →
        session.Topic = generated.Topic ∧
        createSystemContent session.Topic info =
          "ディベートテーマ: " ++ generated.Topic ++ "\n" ++
            ("賛成側の立場: " ++ generated.ProPosition ++ "\n反対側の立場: " ++
              generated.ConPosition ++ "\n背景: " ++ generated.Background)) ∧
      (req.RandomizeTopic = false → req.Topic ≠ "" → session.Topic = req.Topic ∧ info = none)) ∧
    (∀ (s : Service) (env : Env) (w : World) (userID : Option Int) (req : CreateDebateRequest),
      req.RandomizeTopic = false → req.Topic ≠ "" →
      ∀ c ∈ newCalls w (s.CreateDebateSession env w userID req).2,
        (∀ messages, c ≠ Call.ChatCompletion messages) ∧
        (∀ messages schemaName, c ≠ Call.ChatCompletionWithSchema messages schemaName)) := by
  refine ⟨?_, create_fixed_topic_calls⟩
  intro s env w userID req session info hwf hok
  obtain ⟨w0, topic, hdb, heq, hcases⟩ := create_ok s env w userID req session info hok
  rw [heq] at hok ⊢
  obtain ⟨-, stored, hsel, hses, hworld⟩ := createWithTopic_ok env w0 userID req topic info info
    session hok
  have hwf1 : ∀ r ∈ w0.db.debate_sessions, r.id ≤ w0.db.seq_sessions := by
    rw [hdb]; exact hwf.1
  have hwf2 : ∀ m ∈ w0.db.debate_messages, m.SessionID ≤ w0.db.seq_sessions := by
    rw [hdb]; exact hwf.2
  rw [insertSession_selectSession env w0 userID req topic hwf1] at hsel
  have hstored : stored = (createdRow env w0 userID req topic).scan := (Option.some.inj hsel).symm
  have hfields := createPositions_fields req (createUserPosition env req) stored
  have hid : session.ID = w0.db.seq_sessions + 1 := by
    rw [hses, hfields.1, hstored]; rfl
  have hstatus : session.Status = "active" := by
    rw [hses, hfields.2.1, hstored]; rfl
  have htopic : session.Topic = topic := by
    rw [hses, hfields.2.2, hstored]; rfl
  have hsid : stored.ID = w0.db.seq_sessions + 1 := by rw [hstored]; rfl
  refine ⟨hstatus, ?_, ?_, ?_, ?_⟩
  · intro hmsg
    rw [hid, htopic] at hmsg
    rw [hworld, hsid, hid]
    refine ⟨(w0.db.insertMessage env.now (w0.db.seq_sessions + 1) "system"
      (createSystemContent topic info)).1, ?_, rfl, by rw [htopic]; rfl⟩
    have hnext := filter_next w0.db hwf2
    simp [transcript, DB.CreateMessage, hmsg, DB.insertMessage, DB.insertSession,
      DB.selectMessages, List.filter_append, hnext, List.insertionSort, List.orderedInsert]
  · intro hnone
    rw [hnone]
    rfl
  · intro generated hgen
    rcases hcases with ⟨-, -, -, hinfo, -⟩ | ⟨-, gen, hinfo, htop⟩
    · rw [hinfo] at hgen; exact absurd hgen (by simp)
    · rw [hinfo] at hgen
      have hg : gen = generated := Option.some.inj hgen
      rw [htopic, htop, hinfo, hg]
      exact ⟨rfl, rfl⟩
  · intro hr ht
    rcases hcases with ⟨-, -, htop, hinfo, -⟩ | ⟨hrand, -⟩
    · exact ⟨by rw [htopic, htop], hinfo⟩
    · rcases hrand with h | h
      · rw [hr] at h; exact absurd h (by decide)
      · exact absurd h ht

/-- Witness of C20 as amended: a creation with the fixed topic `X`, and one
with a generated topic, on a store without sessions. -/
theorem briefing_amended_witness :
    ((createdSession "X").Status = "active" ∧
      (∃ msg : DebateMessage,
        transcript (demoService.CreateDebateSession (demoEnv "a") emptyWorld (some 10)
          (demoRequest "user_vs_llm" "pro")).2 (createdSession "X").ID = [msg] ∧
        msg.Role = "system" ∧
        msg.Content = createSystemContent (createdSession "X").Topic none) ∧
      createSystemContent (createdSession "X").Topic none =
        "ディベートテーマ: " ++ (createdSession "X").Topic ++ "\n" ∧
      ((createdSession "X").Topic = (demoRequest "user_vs_llm" "pro").Topic ∧
        (none : Option DebateTopicResponse) = none)) ∧
    ((createdSession "T").Topic = demoTopic.Topic ∧
      createSystemContent (createdSession "T").Topic (some demoTopic) =
        "ディベートテーマ: " ++ demoTopic.Topic ++ "\n" ++
          ("賛成側の立場: " ++ demoTopic.ProPosition ++ "\n反対側の立場: " ++
            demoTopic.ConPosition ++ "\n背景: " ++ demoTopic.Background)) ∧
    ((∀ messages, Call.GetDebateSession 1 ≠ Call.ChatCompletion messages) ∧
      (∀ messages schemaName,
        Call.GetDebateSession 1 ≠ Call.ChatCompletionWithSchema messages schemaName)) :=
  ⟨(briefing_amended.1 demoService (demoEnv "a") emptyWorld (some 10)
      (demoRequest "user_vs_llm" "pro") (createdSession "X") none (by decide) rfl).elim
      fun h1 h2 => ⟨h1, h2.1 rfl, h2.2.1 rfl, h2.2.2.2 rfl (by decide)⟩,
   (briefing_amended.1 demoService topicEnv emptyWorld (some 10)
      { demoRequest "user_vs_llm" "pro" with RandomizeTopic := true } (createdSession "T")
      (some demoTopic) (by decide) rfl).2.2.2.1 demoTopic rfl,
   briefing_amended.2 demoService (demoEnv "a") emptyWorld (some 10)
      (demoRequest "user_vs_llm" "pro") rfl (by decide) (Call.GetDebateSession 1) (by decide)⟩

/-! ## The store invariant -/

theorem wf_insertMessage (d : DB) (now : Nat) (sessionID : Int) (role content : String) :
    (d.insertMessage now sessionID role content).2.WellFormed ↔
      d.WellFormed ∧ sessionID ≤ d.seq_sessions := by
  simp only [DB.WellFormed, DB.insertMessage, List.mem_append, List.mem_singleton]
  constructor
  · rintro ⟨h1, h2⟩
    exact ⟨⟨h1, fun m hm => h2 m (Or.inl hm)⟩, h2 _ (Or.inr rfl)⟩
  · rintro ⟨⟨h1, h2⟩, h3⟩
    refine ⟨h1, ?_⟩
    rintro m (hm | hm)
    · exact h2 m hm
    · rw [hm]; exact h3

theorem wf_updateSession (d : DB) (session : DebateSession) :
    (d.updateSession session).WellFormed ↔ d.WellFormed := by
  simp only [DB.WellFormed, DB.updateSession, List.mem_map]
  constructor
  · rintro ⟨h1, h2⟩
    refine ⟨fun r hr => ?_, h2⟩
    have := h1 _ ⟨r, hr, rfl⟩
    split at this <;> exact this
  · rintro ⟨h1, h2⟩
    refine ⟨?_, h2⟩
    rintro r' ⟨r, hr, rfl⟩
    split <;> exact h1 r hr

theorem wf_updateStats (d : DB) (stats : UserStats) :
    (d.updateStats stats).WellFormed ↔ d.WellFormed := by
  simp only [DB.WellFormed, DB.updateStats]

theorem wf_insertSession (d : DB) (now : Nat) (userID : Option Int)
    (mode topic userPosition : String) (h : d.WellFormed) :
    (d.insertSession now userID mode topic userPosition).2.WellFormed := by
  simp only [DB.WellFormed, DB.insertSession, List.mem_append, List.mem_singleton]
  constructor
  · rintro r (hr | hr)
    · have := h.1 r hr
      omega
    · rw [hr]
  · intro m hm
    have := h.2 m hm
    omega

/-- On a well-formed store the id of a stored session has been handed out. -/
theorem wf_selectSession (d : DB) (id : Int) (session : DebateSession) (h : d.WellFormed)
    (hsel : d.selectSession id = some session) : id ≤ d.seq_sessions := by
  unfold DB.selectSession at hsel
  cases hf : d.debate_sessions.find? (fun r => decide (r.id = id)) with
  | none => simp [hf] at hsel
  | some r =>
    have hr := List.find?_some hf
    have hmem := List.mem_of_find?_eq_some hf
    have := h.1 r hmem
    simp only [decide_eq_true_eq] at hr
    omega

theorem wf_endStats (env : Env) (w : World) (session : DebateSession) (winner : String) :
    (endStats env w session winner).db.WellFormed ↔ w.db.WellFormed := by
  unfold endStats
  by_cases hm : session.Mode = "user_vs_llm"
  · simp only [hm, if_true]
    cases session.UserID with
    | none => rfl
    | some userID =>
      simp only [DB.GetUserStats, DB.UpdateUserStats, World.log]
      by_cases hf : env.fails (Call.GetUserStats userID) = true
      · simp [hf]
      · simp only [hf]
        cases w.db.selectStats userID with
        | none => rfl
        | some stats =>
          simp only [Bool.false_eq_true, if_false]
          split
          · rfl
          · exact wf_updateStats _ _
  · simp [hm]

theorem step_no_session (s : Service) (env : Env) (w : World) (sessionID : Int)
    (hsel : w.db.selectSession sessionID = none) :
    (s.ProcessLLMDebateStep env w sessionID).2.db = w.db := by
  by_cases hf1 : env.fails (Call.GetDebateSession sessionID) = true
  · simp [Service.ProcessLLMDebateStep, World.log, DB.GetDebateSession, hf1]
  · simp [Service.ProcessLLMDebateStep, World.log, DB.GetDebateSession, hf1, hsel]

theorem wf_step (s : Service) (env : Env) (w : World) (sessionID : Int) (h : w.db.WellFormed) :
    (s.ProcessLLMDebateStep env w sessionID).2.db.WellFormed := by
  rcases step_db_cases s env w sessionID with hdb | ⟨response, -, hdb⟩
  · rw [hdb]; exact h
  · cases hsel : w.db.selectSession sessionID with
    | none =>
      rw [step_no_session s env w sessionID hsel]; exact h
    | some session0 =>
      rw [hdb, wf_insertMessage]
      exact ⟨h, wf_selectSession _ _ _ h hsel⟩

theorem wf_exchange (s : Service) (env : Env) (w : World) (sessionID : Int)
    (userContent : String) (h : w.db.WellFormed) :
    (s.ProcessUserMessage env w sessionID userContent).2.db.WellFormed := by
  by_cases hf1 : env.fails (Call.GetDebateSession sessionID) = true
  · simpa [Service.ProcessUserMessage, World.log, DB.GetDebateSession, hf1] using h
  cases hsel : w.db.selectSession sessionID with
  | none => simpa [Service.ProcessUserMessage, World.log, DB.GetDebateSession, hf1, hsel] using h
  | some session0 =>
    have hle := wf_selectSession _ _ _ h hsel
    by_cases hst : session0.Status ≠ "active" ∧ session0.Status ≠ "ongoing"
    · simpa [Service.ProcessUserMessage, World.log, DB.GetDebateSession, hf1, hsel, hst] using h
    by_cases hfu : env.fails (Call.CreateMessage sessionID "user" userContent) = true
    · simpa [Service.ProcessUserMessage, World.log, DB.GetDebateSession, DB.CreateMessage, hf1,
        hsel, hst, hfu] using h
    have hwu : (w.db.insertMessage env.now sessionID "user" userContent).2.WellFormed :=
      (wf_insertMessage _ _ _ _ _).2 ⟨h, hle⟩
    have hseq : (w.db.insertMessage env.now sessionID "user" userContent).2.seq_sessions =
        w.db.seq_sessions := rfl
    by_cases hf2 : env.fails (Call.GetSessionMessages sessionID) = true
    · simpa [Service.ProcessUserMessage, World.log, DB.GetDebateSession, DB.CreateMessage,
        DB.GetSessionMessages, hf1, hsel, hst, hfu, hf2] using hwu
    cases hc : s.client.complete env
        (Service.buildLLMMessages session0
          ((w.db.insertMessage env.now sessionID "user" userContent).2.selectMessages sessionID)
          "llm") none with
    | error e =>
      simpa [Service.ProcessUserMessage, World.log, DB.GetDebateSession, DB.CreateMessage,
        DB.GetSessionMessages, Client.ChatCompletion, hf1, hsel, hst, hfu, hf2, hc] using hwu
    | ok reply =>
      by_cases hfl : env.fails (Call.CreateMessage sessionID "llm" reply) = true
      · simpa [Service.ProcessUserMessage, World.log, DB.GetDebateSession, DB.CreateMessage,
          DB.GetSessionMessages, Client.ChatCompletion, hf1, hsel, hst, hfu, hf2, hc, hfl]
          using hwu
      · have hwl : ((w.db.insertMessage env.now sessionID "user" userContent).2.insertMessage
            env.now sessionID "llm" reply).2.WellFormed :=
          (wf_insertMessage _ _ _ _ _).2 ⟨hwu, by rw [hseq]; exact hle⟩
        simpa [Service.ProcessUserMessage, World.log, DB.GetDebateSession, DB.CreateMessage,
          DB.GetSessionMessages, Client.ChatCompletion, hf1, hsel, hst, hfu, hf2, hc, hfl]
          using hwl

theorem endStats_seq (env : Env) (w : World) (session : DebateSession) (winner : String) :
    (endStats env w session winner).db.seq_sessions = w.db.seq_sessions := by
  unfold endStats
  by_cases hm : session.Mode = "user_vs_llm"
  · simp only [hm, if_true]
    cases session.UserID with
    | none => rfl
    | some userID =>
      simp only [DB.GetUserStats, DB.UpdateUserStats, World.log]
      by_cases hf : env.fails (Call.GetUserStats userID) = true
      · simp [hf]
      · simp only [hf]
        cases w.db.selectStats userID with
        | none => rfl
        | some stats =>
          simp only [Bool.false_eq_true, if_false]
          split <;> rfl
  · simp [hm]

theorem updateSession_seq (d : DB) (session : DebateSession) :
    (d.updateSession session).seq_sessions = d.seq_sessions := rfl

theorem wf_end (s : Service) (env : Env) (w : World) (sessionID : Int) (h : w.db.WellFormed) :
    (s.EndDebate env w sessionID).2.db.WellFormed := by
  by_cases hf1 : env.fails (Call.GetDebateSession sessionID) = true
  · simpa [Service.EndDebate, World.log, DB.GetDebateSession, hf1] using h
  cases hsel : w.db.selectSession sessionID with
  | none => simpa [Service.EndDebate, World.log, DB.GetDebateSession, hf1, hsel] using h
  | some session0 =>
    have hle := wf_selectSession _ _ _ h hsel
    by_cases hst : session0.Status ≠ "active" ∧ session0.Status ≠ "ongoing"
    · simpa [Service.EndDebate, World.log, DB.GetDebateSession, hf1, hsel, hst] using h
    by_cases hf2 : env.fails (Call.GetSessionMessages sessionID) = true
    · simpa [Service.EndDebate, World.log, DB.GetDebateSession, DB.GetSessionMessages, hf1, hsel,
        hst, hf2] using h
    cases hc : s.client.complete env
        (Service.buildJudgeMessages (endPositions session0) (w.db.selectMessages sessionID))
        (some "judge_result") with
    | error e =>
      simpa [Service.EndDebate, World.log, DB.GetDebateSession, DB.GetSessionMessages, hf1, hsel,
        hst, hf2, Client.ChatCompletionWithSchema, hc] using h
    | ok response =>
      cases hu : env.UnmarshalJudge response with
      | none =>
        simpa [Service.EndDebate, World.log, DB.GetDebateSession, DB.GetSessionMessages, hf1,
          hsel, hst, hf2, Client.ChatCompletionWithSchema, hc, hu] using h
      | some judgeResult =>
        by_cases hf3 : env.fails (Call.UpdateDebateSession (endPositions session0).ID) = true
        · simpa [Service.EndDebate, World.log, DB.GetDebateSession, DB.GetSessionMessages, hf1,
            hsel, hst, hf2, Client.ChatCompletionWithSchema, hc, hu, DB.UpdateDebateSession,
            hf3, wf_endStats] using h
        · by_cases hf4 : env.fails
              (Call.CreateMessage sessionID "judge" (env.MarshalJudge judgeResult)) = true
          · simpa [Service.EndDebate, World.log, DB.GetDebateSession, DB.GetSessionMessages, hf1,
              hsel, hst, hf2, Client.ChatCompletionWithSchema, hc, hu, DB.UpdateDebateSession,
              hf3, DB.CreateMessage, hf4, wf_updateSession, wf_endStats] using h
          · simpa [Service.EndDebate, World.log, DB.GetDebateSession, DB.GetSessionMessages, hf1,
              hsel, hst, hf2, Client.ChatCompletionWithSchema, hc, hu, DB.UpdateDebateSession,
              hf3, DB.CreateMessage, hf4, wf_insertMessage, wf_updateSession, wf_endStats,
              updateSession_seq, endStats_seq] using ⟨h, hle⟩

theorem wf_createWithTopic (env : Env) (w : World) (userID : Option Int)
    (req : CreateDebateRequest) (topic : String) (topicInfo : Option DebateTopicResponse)
    (h : w.db.WellFormed) :
    (Service.createWithTopic env w userID req topic topicInfo).2.db.WellFormed := by
  have hins := wf_insertSession w.db env.now userID req.Mode topic (createUserPosition env req) h
  by_cases hf1 : env.fails
      (Call.CreateDebateSession userID req.Mode topic (createUserPosition env req)) = true
  · simpa [Service.createWithTopic, DB.CreateDebateSession, World.log, hf1] using h
  by_cases hf2 : env.fails (Call.GetDebateSession (w.db.seq_sessions + 1)) = true
  · simp only [Service.createWithTopic, DB.CreateDebateSession, DB.GetDebateSession, World.log,
      hf1]
    have hid : (w.db.insertSession env.now userID req.Mode topic
        (createUserPosition env req)).1 = w.db.seq_sessions + 1 := rfl
    simp only [hid, hf2, if_true, Bool.false_eq_true, if_false]
    exact hins
  cases hsel : (w.db.insertSession env.now userID req.Mode topic
      (createUserPosition env req)).2.selectSession (w.db.seq_sessions + 1) with
  | none =>
    simp only [Service.createWithTopic, DB.CreateDebateSession, DB.GetDebateSession, World.log,
      hf1]
    have hid : (w.db.insertSession env.now userID req.Mode topic
        (createUserPosition env req)).1 = w.db.seq_sessions + 1 := rfl
    simp only [hid, hf2, hsel, Bool.false_eq_true, if_false]
    exact hins
  | some stored =>
    have hsid := selectSession_id _ _ _ hsel
    simp only [Service.createWithTopic, DB.CreateDebateSession, DB.GetDebateSession, World.log,
      hf1]
    have hid : (w.db.insertSession env.now userID req.Mode topic
        (createUserPosition env req)).1 = w.db.seq_sessions + 1 := rfl
    simp only [hid, hf2, hsel, Bool.false_eq_true, if_false, DB.CreateMessage]
    split
    · exact hins
    · simp only
      rw [wf_insertMessage, hsid]
      exact ⟨hins, by simp [DB.insertSession]⟩

theorem wf_create (s : Service) (env : Env) (w : World) (userID : Option Int)
    (req : CreateDebateRequest) (h : w.db.WellFormed) :
    (s.CreateDebateSession env w userID req).2.db.WellFormed := by
  by_cases hr : req.RandomizeTopic = true ∨ req.Topic = ""
  · cases hc : s.client.complete env topicMessages (some "debate_topic") with
    | error e =>
      simpa [Service.CreateDebateSession, hr, Service.GenerateRandomTopic,
        Client.ChatCompletionWithSchema, hc, World.log] using h
    | ok response =>
      cases hu : env.UnmarshalTopic response with
      | none =>
        simpa [Service.CreateDebateSession, hr, Service.GenerateRandomTopic,
          Client.ChatCompletionWithSchema, hc, hu, World.log] using h
      | some generated =>
        have heq : s.CreateDebateSession env w userID req =
            Service.createWithTopic env
              (w.log (Call.ChatCompletionWithSchema topicMessages "debate_topic")) userID req
              generated.Topic (some generated) := by
          simp [Service.CreateDebateSession, hr, Service.GenerateRandomTopic,
            Client.ChatCompletionWithSchema, hc, hu]
        rw [heq]
        exact wf_createWithTopic env _ userID req _ _ h
  · have heq : s.CreateDebateSession env w userID req =
        Service.createWithTopic env w userID req req.Topic none := by
      simp [Service.CreateDebateSession, hr]
    rw [heq]
    exact wf_createWithTopic env w userID req _ _ h

/-- The store invariant holds for a store without sessions and messages and is
preserved by each of the four operations, whatever the environment does. -/
theorem wellFormed_invariant :
    (∀ stats seq, DB.WellFormed
      { debate_sessions := [], debate_messages := [], user_stats := stats, seq_sessions := 0,
        seq_messages := seq }) ∧
    (∀ (s : Service) (env : Env) (w : World), w.db.WellFormed →
      (∀ userID req, (s.CreateDebateSession env w userID req).2.db.WellFormed) ∧
      (∀ sessionID userContent,
        (s.ProcessUserMessage env w sessionID userContent).2.db.WellFormed) ∧
      (∀ sessionID, (s.ProcessLLMDebateStep env w sessionID).2.db.WellFormed) ∧
      (∀ sessionID, (s.EndDebate env w sessionID).2.db.WellFormed)) :=
  ⟨fun _ _ => ⟨by simp, by simp⟩,
   fun s env w h =>
    ⟨fun userID req => wf_create s env w userID req h,
     fun sessionID userContent => wf_exchange s env w sessionID userContent h,
     fun sessionID => wf_step s env w sessionID h,
     fun sessionID => wf_end s env w sessionID h⟩⟩

/-! ## The judge transcript -/

theorem buildJudgeMessages_foldl (session : DebateSession) (messages : List DebateMessage)
    (init : String) :
    messages.foldl
      (fun debateContent msg =>
        if msg.Role = "system" ∨ msg.Role = "judge" then debateContent
        else debateContent ++ (judgeSpeaker session msg.Role ++ ":\n" ++ msg.Content ++ "\n\n"))
      init =
    init ++ joinBlocks
      ((messages.filter (fun m => decide (m.Role ≠ "system" ∧ m.Role ≠ "judge"))).map
        (judgeBlock session)) := by
  induction messages generalizing init with
  | nil => simp [joinBlocks]
  | cons m ms ih =>
    simp only [List.foldl_cons]
    by_cases h : m.Role = "system" ∨ m.Role = "judge"
    · have hf : ¬ (m.Role ≠ "system" ∧ m.Role ≠ "judge") := by
        rintro ⟨h1, h2⟩
        exact h.elim h1 h2
      rw [if_pos h, ih]
      simp [List.filter_cons, hf]
    · have hf : m.Role ≠ "system" ∧ m.Role ≠ "judge" :=
        ⟨fun e => h (Or.inl e), fun e => h (Or.inr e)⟩
      rw [if_neg h, ih]
      simp [List.filter_cons, hf, joinBlocks, judgeBlock, String.append_assoc]

/-- The two messages `buildJudgeMessages` returns. -/
theorem buildJudgeMessages_eq (session : DebateSession) (messages : List DebateMessage) :
    Service.buildJudgeMessages session messages =
      [{ Role := "system", Content := judgeSystemPrompt session.Topic },
       { Role := "user"
         Content := "【ディベートの内容】\n\n" ++
           joinBlocks
             ((messages.filter (fun m => decide (m.Role ≠ "system" ∧ m.Role ≠ "judge"))).map
               (judgeBlock session)) ++
           "\n上記のディベートを評価してください。" }] := by
  unfold Service.buildJudgeMessages
  simp only [buildJudgeMessages_foldl]

/-- C21 (judge transcript). For every session and transcript,
`buildJudgeMessages` returns exactly two messages: a system instruction that
contains the topic between two fixed texts, and one user message made of a
heading, then, in transcript order, one block (label, colon, content) for each
transcript message whose role is neither `system` nor `judge`, and nothing for
the others, then a closing line. The label of a `user` message names the pro
side iff the human position is pro and the con side otherwise; that of an
`llm` message names the pro side iff the model position is pro and the con
side otherwise; that of `llm1` always names pro and that of `llm2` always
con. -/
theorem judge_transcript (session : DebateSession) (messages : List DebateMessage) :
    (Service.buildJudgeMessages session messages).length = 2 ∧
    Service.buildJudgeMessages session messages =
      [{ Role := "system", Content := judgeSystemPrompt session.Topic },
       { Role := "user"
         Content := "【ディベートの内容】\n\n" ++
           joinBlocks
             ((messages.filter (fun m => decide (m.Role ≠ "system" ∧ m.Role ≠ "judge"))).map
               (fun m => judgeSpeaker session m.Role ++ ":\n" ++ m.Content ++ "\n\n")) ++
           "\n上記のディベートを評価してください。" }] ∧
    (∃ before after, ∀ topic, judgeSystemPrompt topic = before ++ topic ++ after) ∧
    (labelSide (judgeSpeaker session "user") = some "pro" ↔ session.UserPosition = "pro") ∧
    (labelSide (judgeSpeaker session "user") = some "con" ↔ session.UserPosition ≠ "pro") ∧
    (labelSide (judgeSpeaker session "llm") = some "pro" ↔ session.LLMPosition = "pro") ∧
    (labelSide (judgeSpeaker session "llm") = some "con" ↔ session.LLMPosition ≠ "pro") ∧
    labelSide (judgeSpeaker session "llm1") = some "pro" ∧
    labelSide (judgeSpeaker session "llm2") = some "con" := by
  refine ⟨by rw [buildJudgeMessages_eq]; rfl, buildJudgeMessages_eq session messages,
    ⟨_, _, fun _ => rfl⟩, ?_, ?_, ?_, ?_, ?_, ?_⟩
  · by_cases h : session.UserPosition = "pro"
    · simp only [judgeSpeaker, h, if_true, iff_true]
      decide
    · simp only [judgeSpeaker, h, if_false, if_true, iff_false]
      decide
  · by_cases h : session.UserPosition = "pro"
    · simp only [judgeSpeaker, h, if_true, ne_eq, not_true_eq_false, iff_false]
      decide
    · simp only [judgeSpeaker, h, if_false, if_true, ne_eq, not_false_eq_true, iff_true]
      decide
  · have hne : ¬ ("llm" = "user") := by decide
    by_cases h : session.LLMPosition = "pro"
    · simp only [judgeSpeaker, hne, h, if_true, if_false, iff_true]
      decide
    · simp only [judgeSpeaker, hne, h, if_false, if_true, iff_false]
      decide
  · have hne : ¬ ("llm" = "user") := by decide
    by_cases h : session.LLMPosition = "pro"
    · simp only [judgeSpeaker, hne, h, if_true, if_false, ne_eq, not_true_eq_false, iff_false]
      decide
    · simp only [judgeSpeaker, hne, h, if_false, if_true, ne_eq, not_false_eq_true, iff_true]
      decide
  · have h1 : ¬ ("llm1" = "user") := by decide
    have h2 : ¬ ("llm1" = "llm") := by decide
    simp only [judgeSpeaker, h1, h2, if_false, if_true]
    decide
  · have h1 : ¬ ("llm2" = "user") := by decide
    have h2 : ¬ ("llm2" = "llm") := by decide
    have h3 : ¬ ("llm2" = "llm1") := by decide
    simp only [judgeSpeaker, h1, h2, h3, if_false, if_true]
    decide

/-! ## Predicates on the store preserved by the operations -/

theorem selectSession_mem (d : DB) (id : Int) (session : DebateSession)
    (h : d.selectSession id = some session) : ∃ r ∈ d.debate_sessions, r.id = id := by
  unfold DB.selectSession at h
  cases hf : d.debate_sessions.find? (fun r => decide (r.id = id)) with
  | none => simp [hf] at h
  | some r =>
    have hr := List.find?_some hf
    simp only [decide_eq_true_eq] at hr
    exact ⟨r, List.mem_of_find?_eq_some hf, hr⟩

/-- A predicate on the store that survives the insertion, at the clock reading
of the call, of a message with a known role for a stored session survives
`ProcessLLMDebateStep`. -/
theorem step_preserves (P : DB → Prop) (env : Env)
    (hmsg : ∀ (d : DB) (sessionID : Int) (role content : String), P d →
      role ∈ knownRoles → (∃ r ∈ d.debate_sessions, r.id = sessionID) →
      P (d.insertMessage env.now sessionID role content).2)
    (s : Service) (w : World) (sessionID : Int) (h : P w.db) :
    P (s.ProcessLLMDebateStep env w sessionID).2.db := by
  rcases step_db_cases s env w sessionID with hdb | ⟨response, -, hdb⟩
  · rw [hdb]; exact h
  · cases hsel : w.db.selectSession sessionID with
    | none =>
      rw [step_no_session s env w sessionID hsel]; exact h
    | some session0 =>
      rw [hdb]
      refine hmsg _ _ _ _ h ?_ (selectSession_mem _ _ _ hsel)
      split <;> decide

/-- The same for `ProcessUserMessage`. -/
theorem exchange_preserves (P : DB → Prop) (env : Env)
    (hmsg : ∀ (d : DB) (sessionID : Int) (role content : String), P d →
      role ∈ knownRoles → (∃ r ∈ d.debate_sessions, r.id = sessionID) →
      P (d.insertMessage env.now sessionID role content).2)
    (s : Service) (w : World) (sessionID : Int) (userContent : String)
    (h : P w.db) :
    P (s.ProcessUserMessage env w sessionID userContent).2.db := by
  by_cases hf1 : env.fails (Call.GetDebateSession sessionID) = true
  · simpa [Service.ProcessUserMessage, World.log, DB.GetDebateSession, hf1] using h
  cases hsel : w.db.selectSession sessionID with
  | none => simpa [Service.ProcessUserMessage, World.log, DB.GetDebateSession, hf1, hsel] using h
  | some session0 =>
    have hmem := selectSession_mem _ _ _ hsel
    by_cases hst : session0.Status ≠ "active" ∧ session0.Status ≠ "ongoing"
    · simpa [Service.ProcessUserMessage, World.log, DB.GetDebateSession, hf1, hsel, hst] using h
    by_cases hfu : env.fails (Call.CreateMessage sessionID "user" userContent) = true
    · simpa [Service.ProcessUserMessage, World.log, DB.GetDebateSession, DB.CreateMessage, hf1,
        hsel, hst, hfu] using h
    have hwu : P (w.db.insertMessage env.now sessionID "user" userContent).2 :=
      hmsg _ _ _ _ h (by decide) hmem
    by_cases hf2 : env.fails (Call.GetSessionMessages sessionID) = true
    · simpa [Service.ProcessUserMessage, World.log, DB.GetDebateSession, DB.CreateMessage,
        DB.GetSessionMessages, hf1, hsel, hst, hfu, hf2] using hwu
    cases hc : s.client.complete env
        (Service.buildLLMMessages session0
          ((w.db.insertMessage env.now sessionID "user" userContent).2.selectMessages sessionID)
          "llm") none with
    | error e =>
      simpa [Service.ProcessUserMessage, World.log, DB.GetDebateSession, DB.CreateMessage,
        DB.GetSessionMessages, Client.ChatCompletion, hf1, hsel, hst, hfu, hf2, hc] using hwu
    | ok reply =>
      by_cases hfl : env.fails (Call.CreateMessage sessionID "llm" reply) = true
      · simpa [Service.ProcessUserMessage, World.log, DB.GetDebateSession, DB.CreateMessage,
          DB.GetSessionMessages, Client.ChatCompletion, hf1, hsel, hst, hfu, hf2, hc, hfl]
          using hwu
      · have hwl : P ((w.db.insertMessage env.now sessionID "user" userContent).2.insertMessage
            env.now sessionID "llm" reply).2 :=
          hmsg _ _ _ _ hwu (by decide) hmem
        simpa [Service.ProcessUserMessage, World.log, DB.GetDebateSession, DB.CreateMessage,
          DB.GetSessionMessages, Client.ChatCompletion, hf1, hsel, hst, hfu, hf2, hc, hfl]
          using hwl

theorem endStats_preserves (P : DB → Prop)
    (hstat : ∀ (d : DB) (stats : UserStats), P d → P (d.updateStats stats))
    (env : Env) (w : World) (session : DebateSession) (winner : String) (h : P w.db) :
    P (endStats env w session winner).db := by
  unfold endStats
  by_cases hm : session.Mode = "user_vs_llm"
  · simp only [hm, if_true]
    cases session.UserID with
    | none => exact h
    | some userID =>
      simp only [DB.GetUserStats, DB.UpdateUserStats, World.log]
      by_cases hf : env.fails (Call.GetUserStats userID) = true
      · simpa [hf] using h
      · simp only [hf]
        cases w.db.selectStats userID with
        | none => exact h
        | some stats =>
          simp only [Bool.false_eq_true, if_false]
          split
          · exact h
          · exact hstat _ _ h
  · simpa [hm] using h

theorem end_no_session (s : Service) (env : Env) (w : World) (sessionID : Int)
    (hsel : w.db.selectSession sessionID = none) :
    (s.EndDebate env w sessionID).2.db = w.db := by
  by_cases hf1 : env.fails (Call.GetDebateSession sessionID) = true
  · simp [Service.EndDebate, World.log, DB.GetDebateSession, hf1]
  · simp [Service.EndDebate, World.log, DB.GetDebateSession, hf1, hsel]

/-- An `EndDebate` that returns an error leaves the database as it was, or as
the statistics block left it (when the error is that of the session update). -/
theorem end_error_world (s : Service) (env : Env) (w : World) (sessionID : Int)
    (session0 : DebateSession) (e : String)
    (hsel : w.db.selectSession sessionID = some session0)
    (herr : (s.EndDebate env w sessionID).1 = .error e) :
    (s.EndDebate env w sessionID).2.db = w.db ∨
    ∃ verdict,
      (s.EndDebate env w sessionID).2.db =
        (endStats env (atVerdict w sessionID session0) (endPositions session0)
          (endWinner (endPositions session0) verdict)).db := by
  by_cases hf1 : env.fails (Call.GetDebateSession sessionID) = true
  · simp [Service.EndDebate, World.log, DB.GetDebateSession, hf1]
  by_cases hst : session0.Status ≠ "active" ∧ session0.Status ≠ "ongoing"
  · simp [Service.EndDebate, World.log, DB.GetDebateSession, hf1, hsel, hst]
  by_cases hf2 : env.fails (Call.GetSessionMessages sessionID) = true
  · simp [Service.EndDebate, World.log, DB.GetDebateSession, DB.GetSessionMessages, hf1, hsel,
      hst, hf2]
  cases hc : s.client.complete env
      (Service.buildJudgeMessages (endPositions session0) (w.db.selectMessages sessionID))
      (some "judge_result") with
  | error e =>
    simp [Service.EndDebate, World.log, DB.GetDebateSession, DB.GetSessionMessages, hf1, hsel,
      hst, hf2, Client.ChatCompletionWithSchema, hc]
  | ok response =>
    cases hu : env.UnmarshalJudge response with
    | none =>
      simp [Service.EndDebate, World.log, DB.GetDebateSession, DB.GetSessionMessages, hf1, hsel,
        hst, hf2, Client.ChatCompletionWithSchema, hc, hu]
    | some judgeResult =>
      by_cases hf3 : env.fails (Call.UpdateDebateSession (endPositions session0).ID) = true
      · right
        refine ⟨judgeResult, ?_⟩
        simp [Service.EndDebate, World.log, DB.GetDebateSession, DB.GetSessionMessages, hf1,
          hsel, hst, hf2, Client.ChatCompletionWithSchema, hc, hu, DB.UpdateDebateSession,
          hf3, atVerdict]
      · simp [Service.EndDebate, World.log, DB.GetDebateSession, DB.GetSessionMessages, hf1,
          hsel, hst, hf2, Client.ChatCompletionWithSchema, hc, hu, DB.UpdateDebateSession,
          hf3] at herr

theorem judgedSession_fields (env : Env) (session0 : DebateSession) (verdict : JudgeResponse) :
    (judgedSession env session0 verdict).ID = session0.ID ∧
    (judgedSession env session0 verdict).Status = "finished" ∧
    (judgedSession env session0 verdict).Winner =
      some (endWinner (endPositions session0) verdict) ∧
    (judgedSession env session0 verdict).JudgeComment = some verdict.FinalComment ∧
    (judgedSession env session0 verdict).FinishedAt = some env.now :=
  ⟨endPositions_id session0, rfl, rfl, rfl, rfl⟩

theorem updateSession_mem (d : DB) (session : DebateSession) (id : Int)
    (h : ∃ r ∈ d.debate_sessions, r.id = id) :
    ∃ r ∈ (d.updateSession session).debate_sessions, r.id = id := by
  obtain ⟨r, hr, hid⟩ := h
  simp only [DB.updateSession, List.mem_map]
  by_cases hs : r.id = session.ID
  · exact ⟨_, ⟨r, hr, rfl⟩, by simp [hs]; exact hs ▸ hid⟩
  · exact ⟨_, ⟨r, hr, rfl⟩, by simp [hs]; exact hid⟩

/-- A predicate on the store that survives a statistics update, the update of
a session to a finished state with winner and comment set, and the insertion
of a message with a known role for a stored session, survives `EndDebate`. -/
theorem end_preserves (P : DB → Prop) (env : Env)
    (hstat : ∀ (d : DB) (stats : UserStats), P d → P (d.updateStats stats))
    (hupd : ∀ (d : DB) (session : DebateSession), P d → session.Status = "finished" →
      session.Winner.isSome = true → session.JudgeComment.isSome = true →
      P (d.updateSession session))
    (hmsg : ∀ (d : DB) (sessionID : Int) (role content : String), P d →
      role ∈ knownRoles → (∃ r ∈ d.debate_sessions, r.id = sessionID) →
      P (d.insertMessage env.now sessionID role content).2)
    (s : Service) (w : World) (sessionID : Int) (h : P w.db) :
    P (s.EndDebate env w sessionID).2.db := by
  cases hsel : w.db.selectSession sessionID with
  | none => rw [end_no_session s env w sessionID hsel]; exact h
  | some session0 =>
    have hstats : ∀ verdict, P (endStats env (atVerdict w sessionID session0)
        (endPositions session0) (endWinner (endPositions session0) verdict)).db :=
      fun verdict => endStats_preserves P hstat env _ _ _ h
    cases hres : (s.EndDebate env w sessionID).1 with
    | error e =>
      rcases end_error_world s env w sessionID session0 e hsel hres with hdb | ⟨verdict, hdb⟩
      · rw [hdb]; exact h
      · rw [hdb]; exact hstats verdict
    | ok r =>
      obtain ⟨session, verdict⟩ := r
      obtain ⟨-, hs, hw⟩ := end_ok_world s env w sessionID session0 session verdict hsel hres
      have hf := judgedSession_fields env session0 verdict
      have hP2 : P ((endStats env (atVerdict w sessionID session0) (endPositions session0)
          (endWinner (endPositions session0) verdict)).db.updateSession session) := by
        refine hupd _ _ (hstats verdict) ?_ ?_ ?_
        · rw [hs]; exact hf.2.1
        · rw [hs, hf.2.2.1]; rfl
        · rw [hs, hf.2.2.2.1]; rfl
      have hmem : ∃ r ∈ ((endStats env (atVerdict w sessionID session0) (endPositions session0)
          (endWinner (endPositions session0) verdict)).db.updateSession session).debate_sessions,
          r.id = sessionID := by
        apply updateSession_mem
        rw [(endStats_tables _ _ _ _).1]
        exact selectSession_mem _ _ _ hsel
      rw [hw]
      unfold DB.CreateMessage
      split
      · exact hP2
      · exact hmsg _ _ _ _ hP2 (by decide) hmem

theorem createWithTopic_preserves (P : DB → Prop) (env : Env)
    (hses : ∀ (d : DB) (userID : Option Int) (mode topic userPosition : String),
      P d → P (d.insertSession env.now userID mode topic userPosition).2)
    (hmsg : ∀ (d : DB) (sessionID : Int) (role content : String), P d →
      role ∈ knownRoles → (∃ r ∈ d.debate_sessions, r.id = sessionID) →
      P (d.insertMessage env.now sessionID role content).2)
    (w : World) (userID : Option Int) (req : CreateDebateRequest) (topic : String)
    (topicInfo : Option DebateTopicResponse) (h : P w.db) :
    P (Service.createWithTopic env w userID req topic topicInfo).2.db := by
  have hins := hses w.db userID req.Mode topic (createUserPosition env req) h
  have hid : (w.db.insertSession env.now userID req.Mode topic
      (createUserPosition env req)).1 = w.db.seq_sessions + 1 := rfl
  by_cases hf1 : env.fails
      (Call.CreateDebateSession userID req.Mode topic (createUserPosition env req)) = true
  · simpa [Service.createWithTopic, DB.CreateDebateSession, World.log, hf1] using h
  by_cases hf2 : env.fails (Call.GetDebateSession (w.db.seq_sessions + 1)) = true
  · simp only [Service.createWithTopic, DB.CreateDebateSession, DB.GetDebateSession, World.log,
      hf1]
    simp only [hid, hf2, if_true, Bool.false_eq_true, if_false]
    exact hins
  cases hsel : (w.db.insertSession env.now userID req.Mode topic
      (createUserPosition env req)).2.selectSession (w.db.seq_sessions + 1) with
  | none =>
    simp only [Service.createWithTopic, DB.CreateDebateSession, DB.GetDebateSession, World.log,
      hf1]
    simp only [hid, hf2, hsel, Bool.false_eq_true, if_false]
    exact hins
  | some stored =>
    have hsid := selectSession_id _ _ _ hsel
    have hmem := selectSession_mem _ _ _ hsel
    simp only [Service.createWithTopic, DB.CreateDebateSession, DB.GetDebateSession, World.log,
      hf1]
    simp only [hid, hf2, hsel, Bool.false_eq_true, if_false, DB.CreateMessage]
    split
    · exact hins
    · simp only
      rw [hsid]
      exact hmsg _ _ _ _ hins (by decide) hmem

/-- A predicate on the store that survives the insertion of a session row and
the insertion of a message with a known role for a stored session survives
`CreateDebateSession`. -/
theorem create_preserves (P : DB → Prop) (env : Env)
    (hses : ∀ (d : DB) (userID : Option Int) (mode topic userPosition : String),
      P d → P (d.insertSession env.now userID mode topic userPosition).2)
    (hmsg : ∀ (d : DB) (sessionID : Int) (role content : String), P d →
      role ∈ knownRoles → (∃ r ∈ d.debate_sessions, r.id = sessionID) →
      P (d.insertMessage env.now sessionID role content).2)
    (s : Service) (w : World) (userID : Option Int) (req : CreateDebateRequest)
    (h : P w.db) :
    P (s.CreateDebateSession env w userID req).2.db := by
  by_cases hr : req.RandomizeTopic = true ∨ req.Topic = ""
  · cases hc : s.client.complete env topicMessages (some "debate_topic") with
    | error e =>
      simpa [Service.CreateDebateSession, hr, Service.GenerateRandomTopic,
        Client.ChatCompletionWithSchema, hc, World.log] using h
    | ok response =>
      cases hu : env.UnmarshalTopic response with
      | none =>
        simpa [Service.CreateDebateSession, hr, Service.GenerateRandomTopic,
          Client.ChatCompletionWithSchema, hc, hu, World.log] using h
      | some generated =>
        have heq : s.CreateDebateSession env w userID req =
            Service.createWithTopic env
              (w.log (Call.ChatCompletionWithSchema topicMessages "debate_topic")) userID req
              generated.Topic (some generated) := by
          simp [Service.CreateDebateSession, hr, Service.GenerateRandomTopic,
            Client.ChatCompletionWithSchema, hc, hu]
        rw [heq]
        exact createWithTopic_preserves P env hses hmsg _ userID req _ _ h
  · have heq : s.CreateDebateSession env w userID req =
        Service.createWithTopic env w userID req req.Topic none := by
      simp [Service.CreateDebateSession, hr]
    rw [heq]
    exact createWithTopic_preserves P env hses hmsg w userID req _ _ h

/-- A predicate on the store that survives the four elementary changes of the
store survives every operation, hence every sequence of operations. -/
theorem run_preserves (P : DB → Prop)
    (hses : ∀ (d : DB) (now : Nat) (userID : Option Int) (mode topic userPosition : String),
      P d → P (d.insertSession now userID mode topic userPosition).2)
    (hstat : ∀ (d : DB) (stats : UserStats), P d → P (d.updateStats stats))
    (hupd : ∀ (d : DB) (session : DebateSession), P d → session.Status = "finished" →
      session.Winner.isSome = true → session.JudgeComment.isSome = true →
      P (d.updateSession session))
    (hmsg : ∀ (d : DB) (now : Nat) (sessionID : Int) (role content : String), P d →
      role ∈ knownRoles → (∃ r ∈ d.debate_sessions, r.id = sessionID) →
      P (d.insertMessage now sessionID role content).2)
    (s : Service) (script : List (Env × Operation)) (w : World) (h : P w.db) :
    P (s.run script w).db := by
  induction script generalizing w with
  | nil => exact h
  | cons head rest ih =>
    obtain ⟨env, op⟩ := head
    simp only [Service.run]
    apply ih
    cases op with
    | create userID req =>
      exact create_preserves P env (fun d => hses d env.now) (fun d => hmsg d env.now) s w
        userID req h
    | exchange sessionID userContent =>
      exact exchange_preserves P env (fun d => hmsg d env.now) s w sessionID userContent h
    | step sessionID => exact step_preserves P env (fun d => hmsg d env.now) s w sessionID h
    | finish sessionID =>
      exact end_preserves P env hstat hupd (fun d => hmsg d env.now) s w sessionID h

/-- The session invariant along any sequence of operations. -/
theorem run_sessionInv (s : Service) (script : List (Env × Operation)) (w : World)
    (h : w.db.SessionInv) : (s.run script w).db.SessionInv := by
  refine run_preserves DB.SessionInv ?_ ?_ ?_ ?_ s script w h
  · intro d now userID mode topic userPosition hd r hr
    simp only [DB.insertSession, List.mem_append, List.mem_singleton] at hr
    rcases hr with hr | hr
    · exact hd r hr
    · rw [hr]
      simp
  · intro d stats hd
    exact hd
  · intro d session hd hfin hwin hcom r' hr'
    simp only [DB.updateSession, List.mem_map] at hr'
    obtain ⟨r, hr, rfl⟩ := hr'
    by_cases hid : r.id = session.ID
    · simp [hid, hfin, hwin, hcom]
    · simp only [hid, if_false]
      exact hd r hr
  · intro d now sessionID role content hd _ _
    exact hd

/-- Every message stored along any sequence of operations has one of the six
roles the service writes. -/
theorem run_knownRoles (s : Service) (script : List (Env × Operation)) (w : World)
    (h : w.db.KnownRoles) : (s.run script w).db.KnownRoles := by
  refine run_preserves DB.KnownRoles ?_ ?_ ?_ ?_ s script w h
  · intro d now userID mode topic userPosition hd
    exact hd
  · intro d stats hd
    exact hd
  · intro d session hd _ _ _
    exact hd
  · intro d now sessionID role content hd hrole _ m hm
    simp only [DB.insertMessage, List.mem_append, List.mem_singleton] at hm
    rcases hm with hm | hm
    · exact hd m hm
    · rw [hm]; exact hrole

/-- The store invariant of the session ids along any sequence of operations. -/
theorem run_wellFormed (s : Service) (script : List (Env × Operation)) (w : World)
    (h : w.db.WellFormed) : (s.run script w).db.WellFormed := by
  induction script generalizing w with
  | nil => exact h
  | cons head rest ih =>
    obtain ⟨env, op⟩ := head
    simp only [Service.run]
    apply ih
    cases op with
    | create userID req => exact wf_create s env w userID req h
    | exchange sessionID userContent => exact wf_exchange s env w sessionID userContent h
    | step sessionID => exact wf_step s env w sessionID h
    | finish sessionID => exact wf_end s env w sessionID h

/-! ## The session invariant -/

theorem sessionInv_select (d : DB) (id : Int) (session : DebateSession) (h : d.SessionInv)
    (hsel : d.selectSession id = some session) :
    ((session.Winner.isSome = true ∧ session.JudgeComment.isSome = true) ↔
      session.Status = "finished") := by
  unfold DB.selectSession at hsel
  cases hf : d.debate_sessions.find? (fun r => decide (r.id = id)) with
  | none => simp [hf] at hsel
  | some r =>
    have hmem := List.mem_of_find?_eq_some hf
    simp only [hf, Option.map_some', Option.some.injEq] at hsel
    rw [← hsel]
    exact h r hmem

theorem createPositions_judged (req : CreateDebateRequest) (userPosition : String)
    (session : DebateSession) :
    (createPositions req userPosition session).Winner = session.Winner ∧
    (createPositions req userPosition session).JudgeComment = session.JudgeComment := by
  unfold createPositions
  split
  · exact ⟨rfl, rfl⟩
  · split <;> exact ⟨rfl, rfl⟩

/-- The session table after `createWithTopic`: as before, or with the created
row appended. -/
theorem createWithTopic_sessions (env : Env) (w : World) (userID : Option Int)
    (req : CreateDebateRequest) (topic : String) (topicInfo : Option DebateTopicResponse) :
    (Service.createWithTopic env w userID req topic topicInfo).2.db.debate_sessions =
      w.db.debate_sessions ∨
    (Service.createWithTopic env w userID req topic topicInfo).2.db.debate_sessions =
      w.db.debate_sessions ++ [createdRow env w userID req topic] := by
  have hid : (w.db.insertSession env.now userID req.Mode topic
      (createUserPosition env req)).1 = w.db.seq_sessions + 1 := rfl
  have hrow : (w.db.insertSession env.now userID req.Mode topic
      (createUserPosition env req)).2.debate_sessions =
      w.db.debate_sessions ++ [createdRow env w userID req topic] := rfl
  by_cases hf1 : env.fails
      (Call.CreateDebateSession userID req.Mode topic (createUserPosition env req)) = true
  · left
    simp [Service.createWithTopic, DB.CreateDebateSession, World.log, hf1]
  right
  by_cases hf2 : env.fails (Call.GetDebateSession (w.db.seq_sessions + 1)) = true
  · simp only [Service.createWithTopic, DB.CreateDebateSession, DB.GetDebateSession, World.log,
      hf1]
    simp only [hid, hf2, if_true, Bool.false_eq_true, if_false]
    exact hrow
  cases hsel : (w.db.insertSession env.now userID req.Mode topic
      (createUserPosition env req)).2.selectSession (w.db.seq_sessions + 1) with
  | none =>
    simp only [Service.createWithTopic, DB.CreateDebateSession, DB.GetDebateSession, World.log,
      hf1]
    simp only [hid, hf2, hsel, Bool.false_eq_true, if_false]
    exact hrow
  | some stored =>
    simp only [Service.createWithTopic, DB.CreateDebateSession, DB.GetDebateSession, World.log,
      hf1]
    simp only [hid, hf2, hsel, Bool.false_eq_true, if_false, DB.CreateMessage]
    split
    · exact hrow
    · exact hrow

/-- The session table after `CreateDebateSession`: as before, or with one row
appended that is active and has neither winner nor judge comment. -/
theorem create_sessions (s : Service) (env : Env) (w : World) (userID : Option Int)
    (req : CreateDebateRequest) :
    (s.CreateDebateSession env w userID req).2.db.debate_sessions = w.db.debate_sessions ∨
    ∃ row : SessionRow,
      row.status = "active" ∧ row.winner = none ∧ row.judge_comment = none ∧
      (s.CreateDebateSession env w userID req).2.db.debate_sessions =
        w.db.debate_sessions ++ [row] := by
  by_cases hr : req.RandomizeTopic = true ∨ req.Topic = ""
  · cases hc : s.client.complete env topicMessages (some "debate_topic") with
    | error e =>
      left
      simp [Service.CreateDebateSession, hr, Service.GenerateRandomTopic,
        Client.ChatCompletionWithSchema, hc, World.log]
    | ok response =>
      cases hu : env.UnmarshalTopic response with
      | none =>
        left
        simp [Service.CreateDebateSession, hr, Service.GenerateRandomTopic,
          Client.ChatCompletionWithSchema, hc, hu, World.log]
      | some generated =>
        have heq : s.CreateDebateSession env w userID req =
            Service.createWithTopic env
              (w.log (Call.ChatCompletionWithSchema topicMessages "debate_topic")) userID req
              generated.Topic (some generated) := by
          simp [Service.CreateDebateSession, hr, Service.GenerateRandomTopic,
            Client.ChatCompletionWithSchema, hc, hu]
        rw [heq]
        rcases createWithTopic_sessions env
          (w.log (Call.ChatCompletionWithSchema topicMessages "debate_topic")) userID req
          generated.Topic (some generated) with h | h
        · exact Or.inl h
        · exact Or.inr ⟨_, rfl, rfl, rfl, h⟩
  · have heq : s.CreateDebateSession env w userID req =
        Service.createWithTopic env w userID req req.Topic none := by
      simp [Service.CreateDebateSession, hr]
    rw [heq]
    rcases createWithTopic_sessions env w userID req req.Topic none with h | h
    · exact Or.inl h
    · exact Or.inr ⟨_, rfl, rfl, rfl, h⟩

/-- The session table after `EndDebate`: as before, or, when the call returns
without error, with status, winner, judge comment and completion time of the
rows of the session set together. -/
theorem end_sessions (s : Service) (env : Env) (w : World) (sessionID : Int) :
    (s.EndDebate env w sessionID).2.db.debate_sessions = w.db.debate_sessions ∨
    ∃ session verdict winner,
      (s.EndDebate env w sessionID).1 = .ok (session, verdict) ∧
      session.Status = "finished" ∧ session.Winner = some winner ∧
      session.JudgeComment = some verdict.FinalComment ∧
      (s.EndDebate env w sessionID).2.db.debate_sessions =
        w.db.debate_sessions.map (fun r =>
          if r.id = sessionID then
            { r with status := "finished", winner := some winner,
                     judge_comment := some verdict.FinalComment, ended_at := some env.now }
          else r) := by
  cases hsel : w.db.selectSession sessionID with
  | none => left; rw [end_no_session s env w sessionID hsel]
  | some session0 =>
    cases hres : (s.EndDebate env w sessionID).1 with
    | error e =>
      left
      rcases end_error_world s env w sessionID session0 e hsel hres with hdb | ⟨verdict, hdb⟩
      · rw [hdb]
      · rw [hdb, (endStats_tables _ _ _ _).1]
        rfl
    | ok r =>
      right
      obtain ⟨session, verdict⟩ := r
      obtain ⟨-, hs, hw⟩ := end_ok_world s env w sessionID session0 session verdict hsel hres
      have hf := judgedSession_fields env session0 verdict
      have hid : session.ID = sessionID := by
        rw [hs, hf.1]; exact selectSession_id _ _ _ hsel
      refine ⟨session, verdict, endWinner (endPositions session0) verdict, rfl, ?_, ?_, ?_, ?_⟩
      · rw [hs]; exact hf.2.1
      · rw [hs]; exact hf.2.2.1
      · rw [hs]; exact hf.2.2.2.1
      · rw [hw, (createMessage_tables _ _ _ _ _).1]
        simp only [DB.updateSession]
        rw [(endStats_tables _ _ _ _).1, hid, hs, hf.2.1, hf.2.2.1, hf.2.2.2.1, hf.2.2.2.2]
        rfl

/-- The two turn operations never write to the session table. -/
theorem turn_sessions (s : Service) (env : Env) (w : World) (sessionID : Int)
    (userContent : String) :
    (s.ProcessUserMessage env w sessionID userContent).2.db.debate_sessions =
      w.db.debate_sessions ∧
    (s.ProcessLLMDebateStep env w sessionID).2.db.debate_sessions = w.db.debate_sessions := by
  constructor
  · exact exchange_preserves (fun d => d.debate_sessions = w.db.debate_sessions) env
      (fun d id role content hd _ _ => hd) s w sessionID userContent rfl
  · exact step_preserves (fun d => d.debate_sessions = w.db.debate_sessions) env
      (fun d id role content hd _ _ => hd) s w sessionID rfl

/-- A successful `CreateDebateSession` on a well-formed store returns a session
that is active and has neither winner nor judge comment, stored as the last row
of the session table. -/
theorem create_ok_session (s : Service) (env : Env) (w : World) (userID : Option Int)
    (req : CreateDebateRequest) (session : DebateSession) (info : Option DebateTopicResponse)
    (hwf : w.db.WellFormed)
    (hok : (s.CreateDebateSession env w userID req).1 = .ok (session, info)) :
    session.Status = "active" ∧ session.Winner = none ∧ session.JudgeComment = none ∧
    ∃ row : SessionRow,
      row.id = session.ID ∧ row.status = "active" ∧ row.winner = none ∧
      row.judge_comment = none ∧
      (s.CreateDebateSession env w userID req).2.db.debate_sessions =
        w.db.debate_sessions ++ [row] := by
  obtain ⟨w0, topic, hdb, heq, -⟩ := create_ok s env w userID req session info hok
  rw [heq] at hok
  obtain ⟨-, stored, hsel, hs, hw⟩ := createWithTopic_ok env w0 userID req topic info info
    session hok
  have hwf0 : ∀ r ∈ w0.db.debate_sessions, r.id ≤ w0.db.seq_sessions := by
    rw [hdb]; exact hwf.1
  rw [insertSession_selectSession env w0 userID req topic hwf0] at hsel
  have hst : stored = (createdRow env w0 userID req topic).scan := (Option.some.inj hsel).symm
  have hf := createPositions_fields req (createUserPosition env req) stored
  have hj := createPositions_judged req (createUserPosition env req) stored
  refine ⟨?_, ?_, ?_, createdRow env w0 userID req topic, ?_, rfl, rfl, rfl, ?_⟩
  · rw [hs, hf.2.1, hst]; rfl
  · rw [hs, hj.1, hst]; rfl
  · rw [hs, hj.2, hst]; rfl
  · rw [hs, hf.1, hst]; rfl
  · rw [heq, hw, (createMessage_tables _ _ _ _ _).1, ← hdb]
    rfl

/-- C22 (session invariant). Start from a store in which every session row has
winner and judge comment both set exactly when its status is finished, and whose
ids are below the sequence (the empty store is one), and run any sequence of
`CreateDebateSession`, `ProcessUserMessage`, `ProcessLLMDebateStep` and
`EndDebate` calls, each in any environment. In the state reached: every session
read from the store has winner and judge comment both set if and only if its
status is finished; a creation that returns a session returns it active with
both unset and stores exactly that one row; any creation leaves the session
table as it was or appends one active row with both unset; the two turn
operations leave the session table as it was; and `EndDebate` leaves it as it
was or, returning a session and a verdict, sets on the rows of that session the
status finished, the winner, the final comment of the verdict and the completion
time together. -/
theorem session_invariant (s : Service) (script : List (Env × Operation)) (w : World)
    (hinv : w.db.SessionInv) (hwf : w.db.WellFormed) :
    (∀ id session, (s.run script w).db.selectSession id = some session →
      ((session.Winner.isSome = true ∧ session.JudgeComment.isSome = true) ↔
        session.Status = "finished")) ∧
    (∀ env userID req session info,
      (s.CreateDebateSession env (s.run script w) userID req).1 = .ok (session, info) →
      session.Status = "active" ∧ session.Winner = none ∧ session.JudgeComment = none ∧
      ∃ row : SessionRow,
        row.id = session.ID ∧ row.status = "active" ∧ row.winner = none ∧
        row.judge_comment = none ∧
        (s.CreateDebateSession env (s.run script w) userID req).2.db.debate_sessions =
          (s.run script w).db.debate_sessions ++ [row]) ∧
    (∀ env userID req,
      (s.CreateDebateSession env (s.run script w) userID req).2.db.debate_sessions =
        (s.run script w).db.debate_sessions ∨
      ∃ row : SessionRow,
        row.status = "active" ∧ row.winner = none ∧ row.judge_comment = none ∧
        (s.CreateDebateSession env (s.run script w) userID req).2.db.debate_sessions =
          (s.run script w).db.debate_sessions ++ [row]) ∧
    (∀ env sessionID userContent,
      (s.ProcessUserMessage env (s.run script w) sessionID userContent).2.db.debate_sessions =
        (s.run script w).db.debate_sessions) ∧
    (∀ env sessionID,
      (s.ProcessLLMDebateStep env (s.run script w) sessionID).2.db.debate_sessions =
        (s.run script w).db.debate_sessions) ∧
    (∀ env sessionID,
      (s.EndDebate env (s.run script w) sessionID).2.db.debate_sessions =
        (s.run script w).db.debate_sessions ∨
      ∃ session verdict winner,
        (s.EndDebate env (s.run script w) sessionID).1 = .ok (session, verdict) ∧
        session.Status = "finished" ∧ session.Winner = some winner ∧
        session.JudgeComment = some verdict.FinalComment ∧
        (s.EndDebate env (s.run script w) sessionID).2.db.debate_sessions =
          (s.run script w).db.debate_sessions.map (fun r =>
            if r.id = sessionID then
              { r with status := "finished", winner := some winner,
                       judge_comment := some verdict.FinalComment, ended_at := some env.now }
            else r)) := by
  refine ⟨?_, ?_, ?_, ?_, ?_, ?_⟩
  · intro id session hsel
    exact sessionInv_select _ id session (run_sessionInv s script w hinv) hsel
  · intro env userID req session info hok
    exact create_ok_session s env _ userID req session info (run_wellFormed s script w hwf) hok
  · intro env userID req
    exact create_sessions s env _ userID req
  · intro env sessionID userContent
    exact (turn_sessions s env _ sessionID userContent).1
  · intro env sessionID
    exact (turn_sessions s env _ sessionID "").2
  · intro env sessionID
    exact end_sessions s env _ sessionID

/-- Witness of C22: from the empty store, the script that creates a session,
exchanges one turn and ends the debate twice; the session read back afterwards
is finished with winner and comment set, and a further creation returns an
active session with both unset. -/
theorem session_invariant_witness :
    emptyWorld.db.SessionInv ∧ emptyWorld.db.WellFormed ∧
    (∃ session,
      (demoService.run demoScript emptyWorld).db.selectSession 1 = some session ∧
      session.Status = "finished" ∧
      ((session.Winner.isSome = true ∧ session.JudgeComment.isSome = true) ↔
        session.Status = "finished")) ∧
    (∃ session info,
      (demoService.CreateDebateSession (demoEnv "a") (demoService.run demoScript emptyWorld)
        (some 10) (demoRequest "user_vs_llm" "pro")).1 = .ok (session, info) ∧
      session.Status = "active" ∧ session.Winner = none ∧ session.JudgeComment = none) :=
  ⟨by decide, by decide,
   ⟨_, rfl, by decide,
    (session_invariant demoService demoScript emptyWorld (by decide) (by decide)).1 1 _ rfl⟩,
   ⟨_, _, rfl,
    ((session_invariant demoService demoScript emptyWorld (by decide) (by decide)).2.1
      (demoEnv "a") (some 10) (demoRequest "user_vs_llm" "pro") _ _ rfl).1,
    ((session_invariant demoService demoScript emptyWorld (by decide) (by decide)).2.1
      (demoEnv "a") (some 10) (demoRequest "user_vs_llm" "pro") _ _ rfl).2.1,
    ((session_invariant demoService demoScript emptyWorld (by decide) (by decide)).2.1
      (demoEnv "a") (some 10) (demoRequest "user_vs_llm" "pro") _ _ rfl).2.2.1⟩⟩

/-! ## Judge labels against the winner mapping -/

/-- When the stored human position is pro or con, the labels of the judge
transcript and the winner mapping agree on every pro or con verdict. -/
theorem label_mapping_agree (session : DebateSession) (verdict : JudgeResponse)
    (hmode : session.Mode = "user_vs_llm")
    (hpos : session.UserPosition = "pro" ∨ session.UserPosition = "con")
    (hver : verdict.Winner = "pro" ∨ verdict.Winner = "con") :
    (labelSide (judgeSpeaker (endPositions session) "user") = some verdict.Winner →
      endWinner (endPositions session) verdict = "user") ∧
    (labelSide (judgeSpeaker (endPositions session) "llm") = some verdict.Winner →
      endWinner (endPositions session) verdict = "llm") ∧
    endWinner (endPositions session) verdict ≠ "draw" := by
  have h1 : ¬ ("user_vs_llm" = "llm_vs_llm") := by decide
  have h2 : ¬ ("con" = "pro") := by decide
  have h3 : ¬ ("pro" = "con") := by decide
  rcases hpos with hp | hp <;> rcases hver with hv | hv <;>
    simp [endPositions, endWinner, judgeSpeaker, labelSide, hmode, hp, hv, h1, h2, h3]

/-- C23, the code at the failing input. From the empty store, a session is
created for user 10 with the position string `maybe` and one turn is exchanged;
the stored human position is `maybe`. `EndDebate` with the store and the
provider succeeding sends the judge a transcript in which the human speaks
under the con label and the model under the pro label, and the judge names con
the winner; the call returns without error, the stored winner is `draw`, not
`user`, and the statistics of user 10 count a draw. -/
theorem label_mapping_bug :
    (maybeWorld.db.selectSession 1).map (fun x => (x.Mode, x.UserPosition, x.Status)) =
      some ("user_vs_llm", "maybe", "active") ∧
    (maybeWorld.db.selectSession 1).map
        (fun x => labelSide (judgeSpeaker (endPositions x) "user")) = some (some "con") ∧
    (maybeWorld.db.selectSession 1).map
        (fun x => labelSide (judgeSpeaker (endPositions x) "llm")) = some (some "pro") ∧
    newCalls maybeWorld (demoService.EndDebate (demoEnv "con") maybeWorld 1).2 =
      [Call.GetDebateSession 1,
       Call.GetSessionMessages 1,
       Call.ChatCompletionWithSchema
         [{ Role := "system", Content := judgeSystemPrompt "X" },
          { Role := "user"
            Content := "【ディベートの内容】\n\n反対側(ユーザー):\nhello\n\n賛成側(AI):\nreply\n\n\n上記のディベートを評価してください。" }]
         "judge_result",
       Call.GetUserStats 10,
       Call.UpdateUserStats 10,
       Call.UpdateDebateSession 1,
       Call.CreateMessage 1 "judge" "verdict"] ∧
    (∃ session,
      (demoService.EndDebate (demoEnv "con") maybeWorld 1).1 = .ok (session, demoVerdict "con") ∧
      session.Winner = some "draw") ∧
    ((demoService.EndDebate (demoEnv "con") maybeWorld 1).2.db.selectSession 1).map
        (fun x => x.Winner) = some (some "draw") ∧
    (maybeWorld.db.selectStats 10).map (fun x => (x.TotalDebates, x.Wins, x.Losses, x.Draws)) =
      some (3, 1, 1, 1) ∧
    ((demoService.EndDebate (demoEnv "con") maybeWorld 1).2.db.selectStats 10).map
        (fun x => (x.TotalDebates, x.Wins, x.Losses, x.Draws)) = some (4, 1, 1, 2) :=
  ⟨by decide, by decide, by decide, rfl, ⟨_, rfl, rfl⟩, by decide, by decide, by decide⟩

/-! ## Stamps along a sequence of operations -/

theorem stampedBy_mono (d : DB) (t now : Nat) (h : d.StampedBy t) (ht : t ≤ now) :
    d.StampedBy now :=
  fun m hm => Nat.le_trans (h m hm) ht

theorem stampedBy_timely (d : DB) (sessionID : Int) (now : Nat) (h : d.StampedBy now) :
    d.Timely sessionID now :=
  fun m hm _ => h m hm

/-- Every operation leaves the stamps at or below its own clock reading when
they were so before. -/
theorem perform_stampedBy (s : Service) (env : Env) (w : World) (op : Operation)
    (h : w.db.StampedBy env.now) : (s.perform env w op).db.StampedBy env.now := by
  have hmsg : ∀ (d : DB) (sessionID : Int) (role content : String), d.StampedBy env.now →
      role ∈ knownRoles → (∃ r ∈ d.debate_sessions, r.id = sessionID) →
      (d.insertMessage env.now sessionID role content).2.StampedBy env.now := by
    intro d sessionID role content hd _ _ m hm
    simp only [DB.insertMessage, List.mem_append, List.mem_singleton] at hm
    rcases hm with hm | hm
    · exact hd m hm
    · rw [hm]
  have hses : ∀ (d : DB) (userID : Option Int) (mode topic userPosition : String),
      d.StampedBy env.now →
      (d.insertSession env.now userID mode topic userPosition).2.StampedBy env.now :=
    fun d _ _ _ _ hd => hd
  cases op with
  | create userID req =>
    exact create_preserves (fun d => d.StampedBy env.now) env hses hmsg s w userID req h
  | exchange sessionID userContent =>
    exact exchange_preserves (fun d => d.StampedBy env.now) env hmsg s w sessionID userContent h
  | step sessionID =>
    exact step_preserves (fun d => d.StampedBy env.now) env hmsg s w sessionID h
  | finish sessionID =>
    exact end_preserves (fun d => d.StampedBy env.now) env (fun d _ hd => hd)
      (fun d _ hd _ _ _ => hd) hmsg s w sessionID h

/-- With a clock that does not go back, no stored message is ever stamped after
the reading of the last operation: in every state so reached, the next
operation whose clock has not gone back finds the stamps of every session at
or below its own reading. -/
theorem run_stampedBy (s : Service) (script : List (Env × Operation)) (w : World) (start : Nat)
    (h : w.db.StampedBy start) (hclock : clockOrdered start script) :
    (s.run script w).db.StampedBy (lastClock start script) := by
  induction script generalizing w start with
  | nil => exact h
  | cons head rest ih =>
    obtain ⟨env, op⟩ := head
    simp only [Service.run, lastClock]
    exact ih _ env.now
      (perform_stampedBy s env w op (stampedBy_mono _ _ _ h hclock.1)) hclock.2

end DebateBattle
